import Mathlib

/-!
# Xiaomi router shell enabler: a verification development

A shallow embedding of the protocol layer of the Go program
(`pkg/auth/auth.go`, `pkg/utils/password.go`, `pkg/routers/base_client.go`,
`pkg/routers/ax5400pro_client.go`) together with theorems about it.

Conventions of the embedding.

* A Go `string` / `[]byte` holding text is a Lean `String`; the bodies handled
  here are sequences of Unicode code points (valid UTF-8).  On such text the
  byte-wise `strings.Contains`, `strings.Split` and `strings.Join` agree with
  their code-point-wise counterparts below.
* Go `int` / `int64` are 64-bit two's complement: `Int` with `wrapInt64`.
* Network, clock, random source and file system are explicit arguments.
* `encoding/json`, `strconv`, `fmt`, `crypto/*` are library code; the parts of
  their behaviour the program relies on are modelled executably below.
-/

namespace XiaomiRouter

/-! ## Go `strings` helpers -/

/-- Does `sub` occur in the character list (`strings.Contains` on characters)? -/
def containsChars (sub : List Char) : List Char → Bool
  | [] => sub.isEmpty
  | c :: cs => sub.isPrefixOf (c :: cs) || containsChars sub cs

/-- Go `strings.Contains(s, sub)`. -/
def stringsContains (s sub : String) : Bool :=
  containsChars sub.toList s.toList

/-! ## `encoding/json`: scanner and decoder -/

/-- A JSON number literal as the scanner accepts it:
`-? (0 | [1-9][0-9]*) (. [0-9]+)? ([eE] [+-]? [0-9]+)?`. -/
structure JNumber where
  neg : Bool
  intDigits : List Char
  fracDigits : List Char
  hasExp : Bool
  expNeg : Bool
  expDigits : List Char

/-- A JSON value as decoded into a Go `interface{}`: objects keep their members
in source order (the Go map is read through `mapGet`, last assignment wins);
numbers keep their literal (converted on use by `strconv`). -/
inductive JValue where
  | null : JValue
  | bool (b : Bool) : JValue
  | number (n : JNumber) : JValue
  | string (s : String) : JValue
  | array (xs : List JValue) : JValue
  | object (kvs : List (String × JValue)) : JValue

/-- The scanner's `isSpace`: space, tab, carriage return, newline. -/
def isSpace (c : Char) : Bool :=
  c = ' ' || c = '\t' || c = '\r' || c = '\n'

/-- Skip JSON whitespace. -/
def skipWS : List Char → List Char
  | [] => []
  | c :: cs => if isSpace c then skipWS cs else c :: cs

/-- Is the character an ASCII decimal digit? -/
def isDigit (c : Char) : Bool := 48 ≤ c.toNat && c.toNat ≤ 57

/-- The longest prefix of decimal digits, and what follows it. -/
def spanDigits : List Char → List Char × List Char
  | [] => ([], [])
  | c :: cs =>
    if isDigit c then
      let r := spanDigits cs
      (c :: r.1, r.2)
    else ([], c :: cs)

/-- Value of a hexadecimal digit, if it is one. -/
def hexVal (c : Char) : Option Nat :=
  if 48 ≤ c.toNat && c.toNat ≤ 57 then some (c.toNat - 48)
  else if 97 ≤ c.toNat && c.toNat ≤ 102 then some (c.toNat - 87)
  else if 65 ≤ c.toNat && c.toNat ≤ 70 then some (c.toNat - 55)
  else none

/-- Go `getu4` on the four characters after a backslash-u. -/
def getu4 (a b c d : Char) : Option Nat :=
  match hexVal a, hexVal b, hexVal c, hexVal d with
  | some x, some y, some z, some w => some (((x * 16 + y) * 16 + z) * 16 + w)
  | _, _, _, _ => none

/-- Scan the inside of a string literal (after the opening quote): returns the
raw characters up to the closing quote and the rest of the input.  Control
characters and malformed escapes are syntax errors. -/
def scanString : List Char → Option (List Char × List Char)
  | [] => none
  | '"' :: rest => some ([], rest)
  | '\\' :: 'u' :: x1 :: x2 :: x3 :: x4 :: rest =>
    match getu4 x1 x2 x3 x4 with
    | none => none
    | some _ =>
      match scanString rest with
      | none => none
      | some (raw, r) => some ('\\' :: 'u' :: x1 :: x2 :: x3 :: x4 :: raw, r)
  | '\\' :: e :: rest =>
    if e = '"' || e = '\\' || e = '/' || e = 'b' || e = 'f' || e = 'n' || e = 'r' || e = 't' then
      match scanString rest with
      | none => none
      | some (raw, r) => some ('\\' :: e :: raw, r)
    else none
  | c :: rest =>
    if c.toNat < 32 || c = '\\' then none
    else
      match scanString rest with
      | none => none
      | some (raw, r) => some (c :: raw, r)

/-- The character a single-letter escape stands for. -/
def escapeChar (e : Char) : Char :=
  if e = 'b' then Char.ofNat 8
  else if e = 'f' then Char.ofNat 12
  else if e = 'n' then Char.ofNat 10
  else if e = 'r' then Char.ofNat 13
  else if e = 't' then Char.ofNat 9
  else e

/-- The low surrogate escape at the head of the input, if there is one. -/
def lowSurrogateAhead : List Char → Option Nat
  | '\\' :: 'u' :: x1 :: x2 :: x3 :: x4 :: _ =>
    match getu4 x1 x2 x3 x4 with
    | some rr1 => if 0xDC00 ≤ rr1 && rr1 < 0xE000 then some rr1 else none
    | none => none
  | _ => none

/-- Go `unquote` on the raw inside of a scanned string literal: escapes are
replaced; a UTF-16 high surrogate escape is combined with a directly following
low surrogate escape, and any other surrogate escape becomes U+FFFD.  The first
argument counts characters still to be dropped (the six characters of a low
surrogate escape already consumed as the second half of a pair). -/
def unquoteChars : Nat → List Char → List Char
  | _, [] => []
  | skip + 1, _ :: rest => unquoteChars skip rest
  | 0, '\\' :: 'u' :: x1 :: x2 :: x3 :: x4 :: rest =>
    match getu4 x1 x2 x3 x4 with
    | none => []
    | some rr =>
      if 0xD800 ≤ rr && rr < 0xE000 then
        match (if rr < 0xDC00 then lowSurrogateAhead rest else none) with
        | some rr1 =>
          Char.ofNat (((rr - 0xD800) * 1024 + (rr1 - 0xDC00)) + 0x10000) :: unquoteChars 6 rest
        | none => Char.ofNat 0xFFFD :: unquoteChars 0 rest
      else Char.ofNat rr :: unquoteChars 0 rest
  | 0, '\\' :: e :: rest => escapeChar e :: unquoteChars 0 rest
  | 0, c :: rest => c :: unquoteChars 0 rest

/-- The decoded Go string of a scanned string literal. -/
def unquote (raw : List Char) : String := String.mk (unquoteChars 0 raw)

/-- The integer part of a number literal: a single `0`, or a non-zero digit
followed by digits. -/
def scanIntPart : List Char → Option (List Char × List Char)
  | [] => none
  | c :: r =>
    if c = '0' then some (['0'], r)
    else if isDigit c then some (c :: (spanDigits r).1, (spanDigits r).2)
    else none

/-- The optional fraction of a number literal: a dot and at least one digit. -/
def scanFracPart : List Char → Option (List Char × List Char)
  | '.' :: r => if (spanDigits r).1.isEmpty then none else some (spanDigits r)
  | cs => some ([], cs)

/-- The exponent of a number literal after its `e` or `E`: an optional sign
and at least one digit; yields the sign, the digits and the rest. -/
def scanExpPart (cs : List Char) : Option (Bool × List Char × List Char) :=
  let signed : Bool × List Char :=
    match cs with
    | '+' :: r => (false, r)
    | '-' :: r => (true, r)
    | _ => (false, cs)
  if (spanDigits signed.2).1.isEmpty then none
  else some (signed.1, (spanDigits signed.2).1, (spanDigits signed.2).2)

/-- Scan the unsigned part of a number literal. -/
def scanUnsigned (neg : Bool) (cs : List Char) : Option (JNumber × List Char) :=
  match scanIntPart cs with
  | none => none
  | some (ds, afterInt) =>
    match scanFracPart afterInt with
    | none => none
    | some (fs, afterFrac) =>
      let withExp (r : List Char) : Option (JNumber × List Char) :=
        match scanExpPart r with
        | none => none
        | some (eneg, es, rest) => some (⟨neg, ds, fs, true, eneg, es⟩, rest)
      match afterFrac with
      | 'e' :: r => withExp r
      | 'E' :: r => withExp r
      | _ => some (⟨neg, ds, fs, false, false, []⟩, afterFrac)

/-- Scan a number literal at the head of the input. -/
def scanNumber : List Char → Option (JNumber × List Char)
  | '-' :: r => scanUnsigned true r
  | cs => scanUnsigned false cs

/-- The input after one of the literal names `true`, `false`, `null`, if it
starts with that name. -/
def dropLiteral (name : String) (cs : List Char) : Option (List Char) :=
  if name.toList.isPrefixOf cs then some (cs.drop name.length) else none

/-- The scanner's `maxNestingDepth`. -/
def maxNestingDepth : Nat := 10000

/-- One JSON value at the head of the input, `depth` containers being open;
the members of an object and the elements of an array are read by the parsers
passed in. -/
def valueStep (members : Nat → List Char → Option (List (String × JValue) × List Char))
    (elements : Nat → List Char → Option (List JValue × List Char))
    (depth : Nat) (cs : List Char) : Option (JValue × List Char) :=
  match cs with
  | '{' :: rest =>
    if maxNestingDepth ≤ depth then none
    else
      match skipWS rest with
      | '}' :: r => some (JValue.object [], r)
      | r =>
        match members (depth + 1) r with
        | none => none
        | some (kvs, r1) => some (JValue.object kvs, r1)
  | '[' :: rest =>
    if maxNestingDepth ≤ depth then none
    else
      match skipWS rest with
      | ']' :: r => some (JValue.array [], r)
      | r =>
        match elements (depth + 1) r with
        | none => none
        | some (xs, r1) => some (JValue.array xs, r1)
  | '"' :: rest =>
    match scanString rest with
    | none => none
    | some (raw, r) => some (JValue.string (unquote raw), r)
  | _ =>
    match dropLiteral "true" cs, dropLiteral "false" cs, dropLiteral "null" cs with
    | some r, _, _ => some (JValue.bool true, r)
    | none, some r, _ => some (JValue.bool false, r)
    | none, none, some r => some (JValue.null, r)
    | none, none, none =>
      match scanNumber cs with
      | none => none
      | some (n, r) => some (JValue.number n, r)

/-- The members of a non-empty object, the input standing at the first key;
consumes the closing brace.  Values and further members are read by the
parsers passed in. -/
def membersStep (value : Nat → List Char → Option (JValue × List Char))
    (members : Nat → List Char → Option (List (String × JValue) × List Char))
    (depth : Nat) (cs : List Char) : Option (List (String × JValue) × List Char) :=
  match cs with
  | '"' :: rest =>
    match scanString rest with
    | none => none
    | some (raw, r1) =>
      match skipWS r1 with
      | ':' :: r2 =>
        match value depth (skipWS r2) with
        | none => none
        | some (v, r3) =>
          match skipWS r3 with
          | ',' :: r4 =>
            match members depth (skipWS r4) with
            | none => none
            | some (kvs, r5) => some ((unquote raw, v) :: kvs, r5)
          | '}' :: r4 => some ([(unquote raw, v)], r4)
          | _ => none
      | _ => none
  | _ => none

/-- The elements of a non-empty array, the input standing at the first
element; consumes the closing bracket. -/
def elementsStep (value : Nat → List Char → Option (JValue × List Char))
    (elements : Nat → List Char → Option (List JValue × List Char))
    (depth : Nat) (cs : List Char) : Option (List JValue × List Char) :=
  match value depth cs with
  | none => none
  | some (v, r1) =>
    match skipWS r1 with
    | ',' :: r2 =>
      match elements depth (skipWS r2) with
      | none => none
      | some (xs, r3) => some (v :: xs, r3)
    | ']' :: r2 => some ([v], r2)
    | _ => none

mutual
/-- Parse one JSON value; the fuel bounds the nesting of the recursion. -/
def parseValue : Nat → Nat → List Char → Option (JValue × List Char)
  | 0, _, _ => none
  | fuel + 1, depth, cs => valueStep (parseMembers fuel) (parseElements fuel) depth cs
/-- Parse the members of a non-empty object. -/
def parseMembers : Nat → Nat → List Char → Option (List (String × JValue) × List Char)
  | 0, _, _ => none
  | fuel + 1, depth, cs => membersStep (parseValue fuel) (parseMembers fuel) depth cs
/-- Parse the elements of a non-empty array. -/
def parseElements : Nat → Nat → List Char → Option (List JValue × List Char)
  | 0, _, _ => none
  | fuel + 1, depth, cs => elementsStep (parseValue fuel) (parseElements fuel) depth cs
end

/-- Go `checkValid` followed by decoding into an `interface{}` tree: the whole
input must be one JSON value surrounded by optional whitespace.  Every
recursive call is on a shorter input, and twice the length plus two is enough
fuel (`parseValue_fuel`). -/
def parseJSON (body : String) : Option JValue :=
  match parseValue (2 * body.length + 2) 0 (skipWS body.toList) with
  | none => none
  | some (v, rest) =>
    match skipWS rest with
    | [] => some v
    | _ :: _ => none

/-- Value of a string of decimal digits. -/
def digitsToNat (ds : List Char) : Nat :=
  ds.foldl (fun acc c => acc * 10 + (c.toNat - 48)) 0

/-- The significand `m` of a literal denoting `± m * 10 ^ e`. -/
def JNumber.mantissa (n : JNumber) : Nat :=
  digitsToNat (n.intDigits ++ n.fracDigits)

/-- The decimal exponent `e` of a literal denoting `± m * 10 ^ e`. -/
def JNumber.exponent (n : JNumber) : Int :=
  (if n.expNeg then - (digitsToNat n.expDigits : Int) else (digitsToNat n.expDigits : Int))
    - (n.fracDigits.length : Int)

/-- Does `strconv.ParseFloat(lit, 64)` yield (plus or minus) zero?  With
round-to-nearest-even the literal becomes zero exactly when its magnitude is at
most `2 ^ (-1075)`, half the smallest subnormal. -/
def JNumber.float64IsZero (n : JNumber) : Bool :=
  n.mantissa = 0 ||
    (n.exponent < 0 && n.mantissa * 2 ^ 1075 ≤ 10 ^ (- n.exponent).toNat)

/-- Does `strconv.ParseFloat(lit, 64)` fail with a range error?  That happens
exactly when the magnitude is at least `2 ^ 1024 - 2 ^ 970`, halfway between the
largest finite float64 and `2 ^ 1024`. -/
def JNumber.float64Overflows (n : JNumber) : Bool :=
  if 0 ≤ n.exponent then
    decide (2 ^ 1024 - 2 ^ 970 ≤ n.mantissa * 10 ^ n.exponent.toNat)
  else
    decide ((2 ^ 1024 - 2 ^ 970) * 10 ^ (- n.exponent).toNat ≤ n.mantissa)

mutual
/-- Does converting the value to an `interface{}` tree meet a number literal
out of float64 range (an `UnmarshalTypeError` saved by the decoder)? -/
def JValue.floatRangeError : JValue → Bool
  | JValue.number n => n.float64Overflows
  | JValue.array xs => floatRangeErrorList xs
  | JValue.object kvs => floatRangeErrorMembers kvs
  | _ => false
/-- The same over the elements of an array. -/
def floatRangeErrorList : List JValue → Bool
  | [] => false
  | v :: vs => v.floatRangeError || floatRangeErrorList vs
/-- The same over the members of an object. -/
def floatRangeErrorMembers : List (String × JValue) → Bool
  | [] => false
  | (_, v) :: kvs => v.floatRangeError || floatRangeErrorMembers kvs
end

/-- Reading a Go map built by assigning the members in order: the last
assignment to a key wins. -/
def mapGet : List (String × JValue) → String → Option JValue
  | [], _ => none
  | (k1, v) :: rest, k =>
    match mapGet rest k with
    | some w => some w
    | none => if k1 = k then some v else none

/-- Go `json.Unmarshal(body, &result)` for `result map[string]interface{}`:
`none` is a non-nil error (syntax error, a top-level value that is neither an
object nor `null`, or a number out of float64 range); `some kvs` is success with
the members assigned in order.  JSON `null` leaves the map nil, which reads
like the empty map. -/
def unmarshalMap (body : String) : Option (List (String × JValue)) :=
  match parseJSON body with
  | some (JValue.object kvs) =>
    if floatRangeErrorMembers kvs then none else some kvs
  | some JValue.null => some []
  | _ => none

/-! ## `pkg/routers/base_client.go` -/

/-- The Go struct `BaseRouterClient`, embedded in `AX5400ProClient`. -/
structure AX5400ProClient where
  Host : String
  Token : String
  Model : String

/-- The Go struct `ShellStatusResult`. -/
structure ShellStatusResult where
  SSHEnabled : Bool
  TelnetEnabled : Bool
  SSHPortOpen : Bool
  TelnetPortOpen : Bool
deriving DecidableEq

/-- The all-false status both callers of `checkAPIStatus` start from. -/
def ShellStatusResult.initial : ShellStatusResult :=
  { SSHEnabled := false, TelnetEnabled := false, SSHPortOpen := false, TelnetPortOpen := false }

/-! ## `pkg/routers/ax5400pro_client.go`: status probing -/

/-- `NewAX5400ProClient`. -/
def NewAX5400ProClient (host token : String) : AX5400ProClient :=
  { Host := host, Token := token, Model := "redmi_ax5400pro" }

/-- `GetSSHCommand`. -/
def AX5400ProClient.GetSSHCommand (c : AX5400ProClient) : String :=
  "ssh -o HostKeyAlgorithms=+ssh-rsa -o PubkeyAcceptedKeyTypes=+ssh-rsa root@" ++ c.Host

/-- `GetTelnetCommand`. -/
def AX5400ProClient.GetTelnetCommand (c : AX5400ProClient) : String :=
  "telnet " ++ c.Host

/-- The guard `code, ok := result["code"].(float64); ok && code != 0`. -/
def codeNonZero (result : List (String × JValue)) : Bool :=
  match mapGet result "code" with
  | some (JValue.number n) => !n.float64IsZero
  | _ => false

/-- The block `if ssh, ok := result[key].(bool); ok { flag = ssh }`. -/
def topLevelFlag (result : List (String × JValue)) (key : String) (flag : Bool) : Bool :=
  match mapGet result key with
  | some (JValue.bool b) => b
  | _ => flag

/-- The block on `data[key]`: the flag becomes true when the entry is the
string `"1"` or the boolean `true`, and is left alone otherwise. -/
def dataFlag (data : List (String × JValue)) (key : String) (flag : Bool) : Bool :=
  match mapGet data key with
  | some (JValue.string s) => if s = "1" then true else flag
  | some (JValue.bool b) => if b then true else flag
  | _ => flag

/-- The second method of `checkAPIStatus`: the six substring probes for SSH. -/
def sshMarker (bodyStr : String) : Bool :=
  stringsContains bodyStr "\"ssh\":true" ||
  stringsContains bodyStr "\"ssh\": true" ||
  stringsContains bodyStr "\"ssh_en\":\"1\"" ||
  stringsContains bodyStr "\"ssh_en\": \"1\"" ||
  stringsContains bodyStr "\"ssh_en\":1" ||
  stringsContains bodyStr "\"ssh_en\": 1"

/-- The six substring probes for Telnet. -/
def telnetMarker (bodyStr : String) : Bool :=
  stringsContains bodyStr "\"telnet\":true" ||
  stringsContains bodyStr "\"telnet\": true" ||
  stringsContains bodyStr "\"telnet_en\":\"1\"" ||
  stringsContains bodyStr "\"telnet_en\": \"1\"" ||
  stringsContains bodyStr "\"telnet_en\":1" ||
  stringsContains bodyStr "\"telnet_en\": 1"

/-- Lines 482-503 of `checkAPIStatus`: the substring method. -/
def substringMethod (body : String) (status : ShellStatusResult) : ShellStatusResult :=
  let s1 := if sshMarker body then { status with SSHEnabled := true } else status
  if telnetMarker body then { s1 with TelnetEnabled := true } else s1

/-- Lines 445-479 of `checkAPIStatus`: the fields read from the decoded map. -/
def jsonMethod (result : List (String × JValue)) (status : ShellStatusResult) :
    ShellStatusResult :=
  let s1 := { status with SSHEnabled := topLevelFlag result "ssh" status.SSHEnabled }
  let s2 := { s1 with TelnetEnabled := topLevelFlag result "telnet" s1.TelnetEnabled }
  match mapGet result "data" with
  | some (JValue.object data) =>
    let s3 := { s2 with SSHEnabled := dataFlag data "ssh_en" s2.SSHEnabled }
    { s3 with TelnetEnabled := dataFlag data "telnet_en" s3.TelnetEnabled }
  | _ => s2

/-- `AX5400ProClient.checkAPIStatus(body, status)`; the status pointed to is
passed in and the updated status returned. -/
def checkAPIStatus (body : String) (status : ShellStatusResult) : ShellStatusResult :=
  match unmarshalMap body with
  | none => substringMethod body status
  | some result =>
    if codeNonZero result then status
    else substringMethod body (jsonMethod result status)

/-- Go `fmt.Sprintf("%v", b)` for a bool. -/
def fmtBool (b : Bool) : String := if b then "true" else "false"

/-- The SSH verdict line written by `CheckShellStatus` (lines 537-545). -/
def sshVerdictLine (enabled portOpen : Bool) : String :=
  if enabled && portOpen then "  - 总体状态: SSH已成功启用并且可以访问\n"
  else if enabled then "  - 总体状态: SSH在配置中已启用，但端口未开放\n"
  else if portOpen then "  - 总体状态: SSH端口已开放，但配置中未启用\n"
  else "  - 总体状态: SSH未启用\n"

/-- The Telnet verdict line written by `CheckShellStatus` (lines 551-559). -/
def telnetVerdictLine (enabled portOpen : Bool) : String :=
  if enabled && portOpen then "  - 总体状态: Telnet已成功启用并且可以访问\n"
  else if enabled then "  - 总体状态: Telnet在配置中已启用，但端口未开放\n"
  else if portOpen then "  - 总体状态: Telnet端口已开放，但配置中未启用\n"
  else "  - 总体状态: Telnet未启用\n"

/-- The report assembled in `detailsBuilder` (lines 531-568), write by write. -/
def statusReport (c : AX5400ProClient) (status : ShellStatusResult) : String :=
  let b0 := ""
  let b1 := b0 ++ "SSH状态:\n"
  let b2 := b1 ++ ("  - 配置中启用: " ++ fmtBool status.SSHEnabled ++ "\n")
  let b3 := b2 ++ ("  - 端口22开放: " ++ fmtBool status.SSHPortOpen ++ "\n")
  let b4 := b3 ++ sshVerdictLine status.SSHEnabled status.SSHPortOpen
  let b5 := b4 ++ "\nTelnet状态:\n"
  let b6 := b5 ++ ("  - 配置中启用: " ++ fmtBool status.TelnetEnabled ++ "\n")
  let b7 := b6 ++ ("  - 端口23开放: " ++ fmtBool status.TelnetPortOpen ++ "\n")
  let b8 := b7 ++ telnetVerdictLine status.TelnetEnabled status.TelnetPortOpen
  let b9 := b8 ++ "\n连接信息:\n"
  let b10 :=
    if status.SSHEnabled && status.SSHPortOpen then
      b9 ++ ("  - SSH连接命令: " ++ c.GetSSHCommand ++ "\n")
    else b9
  if status.TelnetEnabled && status.TelnetPortOpen then
    b10 ++ ("  - Telnet连接命令: " ++ c.GetTelnetCommand ++ "\n")
  else b10

/-- Result triple of `CheckShellStatus`: `(bool, string, error)`, the error
being `none` for Go `nil` and otherwise its message. -/
structure ShellStatusReturn where
  overall : Bool
  details : String
  err : Option String
deriving DecidableEq

/-- `AX5400ProClient.CheckShellStatus`.  `getResult` is what
`c.Get("api/xqsystem/fac_info")` returned (the body, or the error text);
`port22` and `port23` are what `c.CheckPortOpen(22)` and `c.CheckPortOpen(23)`
returned. -/
def AX5400ProClient.CheckShellStatus (c : AX5400ProClient)
    (getResult : Except String String) (port22 port23 : Bool) : ShellStatusReturn :=
  match getResult with
  | Except.error e => { overall := false, details := "", err := some ("检查状态失败: " ++ e) }
  | Except.ok body =>
    let status := checkAPIStatus body ShellStatusResult.initial
    let status := { status with SSHPortOpen := port22 }
    let status := { status with TelnetPortOpen := port23 }
    let details := statusReport c status
    let overallStatus :=
      (status.SSHEnabled && status.SSHPortOpen) || (status.TelnetEnabled && status.TelnetPortOpen)
    { overall := overallStatus, details := details, err := none }

/-! ## `crypto/md5`, `crypto/sha1`, `crypto/sha256` and hex formatting -/

/-- The UTF-8 bytes of a character. -/
def utf8Char (c : Char) : List Nat :=
  let n := c.toNat
  if n < 0x80 then [n]
  else if n < 0x800 then [0xC0 + n / 64, 0x80 + n % 64]
  else if n < 0x10000 then [0xE0 + n / 4096, 0x80 + n / 64 % 64, 0x80 + n % 64]
  else [0xF0 + n / 262144, 0x80 + n / 4096 % 64, 0x80 + n / 64 % 64, 0x80 + n % 64]

/-- Go `[]byte(s)`: the UTF-8 bytes of a string. -/
def stringBytes (s : String) : List Nat :=
  s.toList.flatMap utf8Char

/-- Truncation to a 32-bit word. -/
def w32 (n : Nat) : Nat := n % 4294967296

/-- Rotate a 32-bit word left. -/
def rotl32 (x s : Nat) : Nat := w32 (x <<< s) ||| (x >>> (32 - s))

/-- Rotate a 32-bit word right. -/
def rotr32 (x s : Nat) : Nat := (x >>> s) ||| w32 (x <<< (32 - s))

/-- Bitwise complement of a 32-bit word. -/
def not32 (x : Nat) : Nat := 4294967295 - x

/-- The bytes of `n`, least significant first, `k` of them. -/
def leBytes : Nat → Nat → List Nat
  | 0, _ => []
  | k + 1, n => n % 256 :: leBytes k (n / 256)

/-- The bytes of `n`, most significant first, `k` of them. -/
def beBytes (k n : Nat) : List Nat := (leBytes k n).reverse

/-- Value of bytes given least significant first. -/
def leValue : List Nat → Nat
  | [] => 0
  | b :: bs => b + 256 * leValue bs

/-- Value of bytes given most significant first. -/
def beValue (bs : List Nat) : Nat := leValue bs.reverse

/-- Split into chunks of `k + 1` elements; the fuel bounds the chunk count. -/
def chunksOf (k : Nat) : Nat → List Nat → List (List Nat)
  | 0, _ => []
  | fuel + 1, xs =>
    if xs.isEmpty then [] else xs.take (k + 1) :: chunksOf k fuel (xs.drop (k + 1))

/-- Message padding shared by MD5, SHA-1 and SHA-256: a `0x80` byte, zeros up
to 56 modulo 64, then the bit length in eight bytes. -/
def padMessage (lenBytes : Nat → List Nat) (msg : List Nat) : List Nat :=
  let l := msg.length
  msg ++ 0x80 :: List.replicate ((119 - l % 64) % 64) 0 ++ lenBytes (8 * l % 2 ^ 64)

/-- The sine-derived constants of MD5. -/
def md5K : List Nat := [
    0xd76aa478, 0xe8c7b756, 0x242070db, 0xc1bdceee,
    0xf57c0faf, 0x4787c62a, 0xa8304613, 0xfd469501,
    0x698098d8, 0x8b44f7af, 0xffff5bb1, 0x895cd7be,
    0x6b901122, 0xfd987193, 0xa679438e, 0x49b40821,
    0xf61e2562, 0xc040b340, 0x265e5a51, 0xe9b6c7aa,
    0xd62f105d, 0x02441453, 0xd8a1e681, 0xe7d3fbc8,
    0x21e1cde6, 0xc33707d6, 0xf4d50d87, 0x455a14ed,
    0xa9e3e905, 0xfcefa3f8, 0x676f02d9, 0x8d2a4c8a,
    0xfffa3942, 0x8771f681, 0x6d9d6122, 0xfde5380c,
    0xa4beea44, 0x4bdecfa9, 0xf6bb4b60, 0xbebfbc70,
    0x289b7ec6, 0xeaa127fa, 0xd4ef3085, 0x04881d05,
    0xd9d4d039, 0xe6db99e5, 0x1fa27cf8, 0xc4ac5665,
    0xf4292244, 0x432aff97, 0xab9423a7, 0xfc93a039,
    0x655b59c3, 0x8f0ccc92, 0xffeff47d, 0x85845dd1,
    0x6fa87e4f, 0xfe2ce6e0, 0xa3014314, 0x4e0811a1,
    0xf7537e82, 0xbd3af235, 0x2ad7d2bb, 0xeb86d391
  ]

/-- The per-round shift amounts of MD5. -/
def md5S : List Nat := [
    7, 12, 17, 22, 7, 12, 17, 22, 7, 12, 17, 22, 7, 12, 17, 22,
    5, 9, 14, 20, 5, 9, 14, 20, 5, 9, 14, 20, 5, 9, 14, 20,
    4, 11, 16, 23, 4, 11, 16, 23, 4, 11, 16, 23, 4, 11, 16, 23,
    6, 10, 15, 21, 6, 10, 15, 21, 6, 10, 15, 21, 6, 10, 15, 21
  ]

/-- The state of a four-word hash. -/
structure Hash4 where
  a : Nat
  b : Nat
  c : Nat
  d : Nat

/-- One of the 64 steps of the MD5 block function. -/
def md5Step (m : List Nat) (st : Hash4) (i : Nat) : Hash4 :=
  let f :=
    if i < 16 then (st.b &&& st.c) ||| (not32 st.b &&& st.d)
    else if i < 32 then (st.d &&& st.b) ||| (not32 st.d &&& st.c)
    else if i < 48 then st.b ^^^ st.c ^^^ st.d
    else st.c ^^^ (st.b ||| not32 st.d)
  let g :=
    if i < 16 then i
    else if i < 32 then (5 * i + 1) % 16
    else if i < 48 then (3 * i + 5) % 16
    else (7 * i) % 16
  let x := w32 (f + st.a + md5K.getD i 0 + m.getD g 0)
  { a := st.d, b := w32 (st.b + rotl32 x (md5S.getD i 0)), c := st.b, d := st.c }

/-- The MD5 block function on a 64-byte block. -/
def md5Block (st : Hash4) (block : List Nat) : Hash4 :=
  let m := (chunksOf 3 16 block).map leValue
  let r := (List.range 64).foldl (md5Step m) st
  { a := w32 (st.a + r.a), b := w32 (st.b + r.b), c := w32 (st.c + r.c), d := w32 (st.d + r.d) }

/-- Go `md5.Sum(data)`: the 16 digest bytes. -/
def md5Sum (data : List Nat) : List Nat :=
  let padded := padMessage (leBytes 8) data
  let r := (chunksOf 63 (padded.length / 64) padded).foldl md5Block
    { a := 0x67452301, b := 0xefcdab89, c := 0x98badcfe, d := 0x10325476 }
  leBytes 4 r.a ++ leBytes 4 r.b ++ leBytes 4 r.c ++ leBytes 4 r.d

/-- A lowercase hexadecimal digit. -/
def hexDigit (n : Nat) : Char :=
  if n < 10 then Char.ofNat (48 + n) else Char.ofNat (87 + n)

/-- Go `fmt.Sprintf("%x", bytes)`: two lowercase hex digits per byte. -/
def hexEncode (bs : List Nat) : String :=
  String.mk (bs.flatMap fun b => [hexDigit (b / 16 % 16), hexDigit (b % 16)])

/-- The message schedule of SHA-1 extended by one word. -/
def sha1Extend (ws : List Nat) (i : Nat) : List Nat :=
  ws ++ [rotl32 (ws.getD (i - 3) 0 ^^^ ws.getD (i - 8) 0 ^^^ ws.getD (i - 14) 0 ^^^
    ws.getD (i - 16) 0) 1]

/-- The state of SHA-1. -/
structure Hash5 where
  a : Nat
  b : Nat
  c : Nat
  d : Nat
  e : Nat

/-- One of the 80 steps of the SHA-1 block function. -/
def sha1Step (w : List Nat) (st : Hash5) (i : Nat) : Hash5 :=
  let f :=
    if i < 20 then (st.b &&& st.c) ||| (not32 st.b &&& st.d)
    else if i < 40 then st.b ^^^ st.c ^^^ st.d
    else if i < 60 then (st.b &&& st.c) ||| (st.b &&& st.d) ||| (st.c &&& st.d)
    else st.b ^^^ st.c ^^^ st.d
  let k :=
    if i < 20 then 0x5A827999
    else if i < 40 then 0x6ED9EBA1
    else if i < 60 then 0x8F1BBCDC
    else 0xCA62C1D6
  let t := w32 (rotl32 st.a 5 + f + st.e + k + w.getD i 0)
  { a := t, b := st.a, c := rotl32 st.b 30, d := st.c, e := st.d }

/-- The SHA-1 block function on a 64-byte block. -/
def sha1Block (st : Hash5) (block : List Nat) : Hash5 :=
  let w0 := (chunksOf 3 16 block).map beValue
  let w := (List.range' 16 64).foldl sha1Extend w0
  let r := (List.range 80).foldl (sha1Step w) st
  { a := w32 (st.a + r.a), b := w32 (st.b + r.b), c := w32 (st.c + r.c),
    d := w32 (st.d + r.d), e := w32 (st.e + r.e) }

/-- Go `sha1.New()`, `Write(data)`, `Sum(nil)`: the 20 digest bytes. -/
def sha1Digest (data : List Nat) : List Nat :=
  let padded := padMessage (beBytes 8) data
  let r := (chunksOf 63 (padded.length / 64) padded).foldl sha1Block
    { a := 0x67452301, b := 0xEFCDAB89, c := 0x98BADCFE, d := 0x10325476, e := 0xC3D2E1F0 }
  beBytes 4 r.a ++ beBytes 4 r.b ++ beBytes 4 r.c ++ beBytes 4 r.d ++ beBytes 4 r.e

/-- The round constants of SHA-256 (fractional parts of the cube roots of the
first 64 primes), in decimal. -/
def sha256K : List Nat := [
    1116352408, 1899447441, 3049323471, 3921009573, 961987163, 1508970993,
    2453635748, 2870763221, 3624381080, 310598401, 607225278, 1426881987,
    1925078388, 2162078206, 2614888103, 3248222580, 3835390401, 4022224774,
    264347078, 604807628, 770255983, 1249150122, 1555081692, 1996064986,
    2554220882, 2821834349, 2952996808, 3210313671, 3336571891, 3584528711,
    113926993, 338241895, 666307205, 773529912, 1294757372, 1396182291,
    1695183700, 1986661051, 2177026350, 2456956037, 2730485921, 2820302411,
    3259730800, 3345764771, 3516065817, 3600352804, 4094571909, 275423344,
    430227734, 506948616, 659060556, 883997877, 958139571, 1322822218,
    1537002063, 1747873779, 1955562222, 2024104815, 2227730452, 2361852424,
    2428436474, 2756734187, 3204031479, 3329325298
  ]

/-- The message schedule of SHA-256 extended by one word. -/
def sha256Extend (ws : List Nat) (i : Nat) : List Nat :=
  let x := ws.getD (i - 15) 0
  let y := ws.getD (i - 2) 0
  let s0 := rotr32 x 7 ^^^ rotr32 x 18 ^^^ (x >>> 3)
  let s1 := rotr32 y 17 ^^^ rotr32 y 19 ^^^ (y >>> 10)
  ws ++ [w32 (ws.getD (i - 16) 0 + s0 + ws.getD (i - 7) 0 + s1)]

/-- The state of SHA-256. -/
structure Hash8 where
  a : Nat
  b : Nat
  c : Nat
  d : Nat
  e : Nat
  f : Nat
  g : Nat
  h : Nat

/-- One of the 64 steps of the SHA-256 block function. -/
def sha256Step (w : List Nat) (st : Hash8) (i : Nat) : Hash8 :=
  let s1 := rotr32 st.e 6 ^^^ rotr32 st.e 11 ^^^ rotr32 st.e 25
  let ch := (st.e &&& st.f) ^^^ (not32 st.e &&& st.g)
  let t1 := w32 (st.h + s1 + ch + sha256K.getD i 0 + w.getD i 0)
  let s0 := rotr32 st.a 2 ^^^ rotr32 st.a 13 ^^^ rotr32 st.a 22
  let maj := (st.a &&& st.b) ^^^ (st.a &&& st.c) ^^^ (st.b &&& st.c)
  let t2 := w32 (s0 + maj)
  { a := w32 (t1 + t2), b := st.a, c := st.b, d := st.c,
    e := w32 (st.d + t1), f := st.e, g := st.f, h := st.g }

/-- The SHA-256 block function on a 64-byte block. -/
def sha256Block (st : Hash8) (block : List Nat) : Hash8 :=
  let w0 := (chunksOf 3 16 block).map beValue
  let w := (List.range' 16 48).foldl sha256Extend w0
  let r := (List.range 64).foldl (sha256Step w) st
  { a := w32 (st.a + r.a), b := w32 (st.b + r.b), c := w32 (st.c + r.c),
    d := w32 (st.d + r.d), e := w32 (st.e + r.e), f := w32 (st.f + r.f),
    g := w32 (st.g + r.g), h := w32 (st.h + r.h) }

/-- Go `sha256.New()`, `Write(data)`, `Sum(nil)`: the 32 digest bytes. -/
def sha256Digest (data : List Nat) : List Nat :=
  let padded := padMessage (beBytes 8) data
  let r := (chunksOf 63 (padded.length / 64) padded).foldl sha256Block
    { a := 0x6a09e667, b := 0xbb67ae85, c := 0x3c6ef372, d := 0xa54ff53a,
      e := 0x510e527f, f := 0x9b05688c, g := 0x1f83d9ab, h := 0x5be0cd19 }
  beBytes 4 r.a ++ beBytes 4 r.b ++ beBytes 4 r.c ++ beBytes 4 r.d ++
    beBytes 4 r.e ++ beBytes 4 r.f ++ beBytes 4 r.g ++ beBytes 4 r.h

/-! ## More of Go `strings`, `strconv` and `fmt` -/

/-- Go `strings.Split` on characters: `cur` collects the current piece in
reverse, the first argument counts separator characters still to be dropped. -/
def splitAux (sep : List Char) : Nat → List Char → List Char → List (List Char)
  | _, cur, [] => [cur.reverse]
  | skip + 1, cur, _ :: rest => splitAux sep skip cur rest
  | 0, cur, c :: rest =>
    if sep.isPrefixOf (c :: rest) then cur.reverse :: splitAux sep (sep.length - 1) [] rest
    else splitAux sep 0 (c :: cur) rest

/-- Go `strings.Split(s, sep)` for a non-empty separator (the program only
splits on `":"` and `"-"`); an empty separator explodes the string. -/
def stringsSplit (s sep : String) : List String :=
  if sep.toList.isEmpty then s.toList.map fun c => String.mk [c]
  else (splitAux sep.toList 0 [] s.toList).map String.mk

/-- Go `strings.Join(parts, sep)`. -/
def stringsJoin : List String → String → String
  | [], _ => ""
  | [p], _ => p
  | p :: q :: rest, sep => p ++ sep ++ stringsJoin (q :: rest) sep

/-- Decimal digits of a number, least significant first; the fuel bounds the
digit count. -/
def digitsRev : Nat → Nat → List Nat
  | 0, _ => []
  | fuel + 1, n => if n < 10 then [n] else n % 10 :: digitsRev fuel (n / 10)

/-- The decimal numeral of a natural number. -/
def decimal (n : Nat) : List Char :=
  ((digitsRev (n + 1) n).reverse).map fun d => Char.ofNat (48 + d)

/-- Go `fmt.Sprintf("%d", n)` for an integer. -/
def fmtInt (n : Int) : String :=
  match n with
  | Int.ofNat k => String.mk (decimal k)
  | Int.negSucc k => String.mk ('-' :: decimal (k + 1))

/-- Wrap-around of Go's 64-bit `int` arithmetic. -/
def wrapInt64 (x : Int) : Int :=
  (x + 2 ^ 63) % 2 ^ 64 - 2 ^ 63

/-- Does the numeral start with a minus sign? -/
def hasMinus : List Char → Bool
  | '-' :: _ => true
  | _ => false

/-- The numeral without its leading sign, if it has one. -/
def dropSign : List Char → List Char
  | '-' :: r => r
  | '+' :: r => r
  | cs => cs

/-- Go `strconv.Atoi(s)` on a 64-bit platform: an optional sign followed by
one or more decimal digits, the value within the `int` range; `none` is an
error (syntax or range). -/
def Atoi (s : String) : Option Int :=
  let neg := hasMinus s.toList
  let ds := dropSign s.toList
  if ds.isEmpty || !ds.all isDigit then none
  else
    let v := digitsToNat ds
    if neg then (if v ≤ 2 ^ 63 then some (- (v : Int)) else none)
    else (if v < 2 ^ 63 then some (v : Int) else none)

/-! ## `pkg/utils/password.go` -/

/-- The package variable `salt`, a Go map literal. -/
def salt (key : String) : String :=
  if key = "r1d" then "A2E371B0-B34B-48A5-8C40-A7133F3B5D88"
  else if key = "others" then "d44fb0960aa0-a5e6-4a30-250f-6d2df50a"
  else ""

/-- Exchange the entries at positions `i` and `j` of a slice. -/
def swapAt (parts : List String) (i j : Nat) : List String :=
  (parts.set i (parts.getD j "")).set j (parts.getD i "")

/-- The loop `for i, j := 0, len(parts)-1; i < j; i, j = i+1, j-1` of
`swapSalt`; the fuel bounds the iteration count. -/
def swapLoop : Nat → Nat → Nat → List String → List String
  | 0, _, _, parts => parts
  | fuel + 1, i, j, parts =>
    if i < j then swapLoop fuel (i + 1) (j - 1) (swapAt parts i j) else parts

/-- `swapSalt`: split on dashes, reverse the segment order, join again. -/
def swapSalt (saltStr : String) : String :=
  let parts := stringsSplit saltStr "-"
  stringsJoin (swapLoop parts.length 0 (parts.length - 1) parts) "-"

/-- `getSalt`. -/
def getSalt (sn : String) : String :=
  if !stringsContains sn "/" then salt "r1d" else swapSalt (salt "others")

/-- `CalculateSSHPassword`; `[:8]` is the first eight characters of the
32-character hex string. -/
def CalculateSSHPassword (sn : String) : String :=
  if sn = "" then ""
  else
    let saltValue := getSalt sn
    let md5sum := md5Sum (stringBytes (sn ++ saltValue))
    String.mk ((hexEncode md5sum).toList.take 8)

/-! ## `pkg/auth/auth.go` -/

/-- The constant `Key`. -/
def Key : String := "a2ffa5c9be07488bbb04a3a47d3c5f6a"

/-- The Go struct `LoginResponse`. -/
structure LoginResponse where
  Code : Int
  Token : String
  URL : String
deriving DecidableEq

/-- `generateNonce`: `fmt.Sprintf("0_%s_%d_%d", "", timestamp, random)`, with
`timestamp` the value of `time.Now().Unix()` and `random` that of
`rand.Intn(10000)`. -/
def generateNonce (timestamp random : Int) : String :=
  "0_" ++ "" ++ "_" ++ fmtInt timestamp ++ "_" ++ fmtInt random

/-- `sha1Sum`. -/
def sha1Sum (data : String) : String :=
  hexEncode (sha1Digest (stringBytes data))

/-- `sha256Sum`. -/
def sha256Sum (data : String) : String :=
  hexEncode (sha256Digest (stringBytes data))

/-- `encryptPasswordSHA1`. -/
def encryptPasswordSHA1 (password nonce : String) : String :=
  let firstHash := sha1Sum (password ++ Key)
  let secondHash := sha1Sum (nonce ++ firstHash)
  secondHash

/-- `encryptPasswordSHA256`. -/
def encryptPasswordSHA256 (password nonce : String) : String :=
  let firstHash := sha256Sum (password ++ Key)
  let secondHash := sha256Sum (nonce ++ firstHash)
  secondHash

/-- Go `url.Values.Set` (each key holds a single value here): replace the
value of the key, or add the key. -/
def valuesSet : List (String × String) → String → String → List (String × String)
  | [], k, v => [(k, v)]
  | (k1, v1) :: rest, k, v =>
    if k1 = k then (k, v) :: rest else (k1, v1) :: valuesSet rest k v

/-- Go `url.Values.Get`. -/
def valuesGet : List (String × String) → String → String
  | [], _ => ""
  | (k1, v1) :: rest, k => if k1 = k then v1 else valuesGet rest k

/-- The request `GetStok` sends: the login URL and the form data. -/
structure LoginRequest where
  loginURL : String
  nonce : String
  formData : List (String × String)

/-- Lines 75-94 of `GetStok`: nonce, password digest, form data, login URL.
`timestamp` and `random` are the clock and random values `generateNonce`
draws. -/
def buildLoginRequest (routerIP password : String) (useSHA256 : Bool)
    (timestamp random : Int) : LoginRequest :=
  let nonce := generateNonce timestamp random
  let encryptedPassword :=
    if useSHA256 then encryptPasswordSHA256 password nonce
    else encryptPasswordSHA1 password nonce
  let formData : List (String × String) := []
  let formData := valuesSet formData "username" "admin"
  let formData := valuesSet formData "password" encryptedPassword
  let formData := valuesSet formData "logtype" "2"
  let formData := valuesSet formData "nonce" nonce
  let loginURL := "http://" ++ routerIP ++ "/cgi-bin/luci/api/xqsystem/login"
  { loginURL := loginURL, nonce := nonce, formData := formData }

/-- The two kinds of error `json.Unmarshal` reports. -/
inductive JSONError where
  | syntaxError : JSONError
  | typeError : JSONError
deriving DecidableEq

/-- Simple case folding of the characters that fold onto ASCII letters: the
upper-case letters, the Kelvin sign and the long s. -/
def foldChar (c : Char) : Char :=
  if 65 ≤ c.toNat && c.toNat ≤ 90 then Char.ofNat (c.toNat + 32)
  else if c.toNat = 0x212A then 'k'
  else if c.toNat = 0x017F then 's'
  else c

/-- Does a JSON key select the struct field with the given lower-case ASCII
name?  The decoder prefers an exact match and accepts a case-insensitive one;
against an ASCII name both amount to equality after folding. -/
def keyMatches (key fieldName : String) : Bool :=
  key.toList.map foldChar = fieldName.toList

/-- Go `strconv.ParseInt(lit, 10, 64)` on a JSON number literal: fraction and
exponent are syntax errors, and the value must fit 64 bits. -/
def JNumber.parseInt64 (n : JNumber) : Option Int :=
  if !n.fracDigits.isEmpty || n.hasExp then none
  else
    let v := digitsToNat n.intDigits
    if n.neg then (if v ≤ 2 ^ 63 then some (- (v : Int)) else none)
    else (if v < 2 ^ 63 then some (v : Int) else none)

/-- Decoder state while filling a `LoginResponse`: the struct so far and
whether an `UnmarshalTypeError` has been saved. -/
structure LoginDecode where
  resp : LoginResponse
  failed : Bool

/-- Store a JSON value into an `int` field: `null` is ignored, an integer
literal is stored, anything else saves a type error. -/
def storeInt (v : JValue) (old : Int) : Int × Bool :=
  match v with
  | JValue.null => (old, false)
  | JValue.number n =>
    match n.parseInt64 with
    | some i => (i, false)
    | none => (old, true)
  | _ => (old, true)

/-- Store a JSON value into a `string` field: `null` is ignored, a string is
stored, anything else saves a type error. -/
def storeString (v : JValue) (old : String) : String × Bool :=
  match v with
  | JValue.null => (old, false)
  | JValue.string s => (s, false)
  | _ => (old, true)

/-- Decode one object member into the struct; unknown keys are skipped. -/
def decodeLoginMember (st : LoginDecode) (kv : String × JValue) : LoginDecode :=
  if keyMatches kv.1 "code" then
    let r := storeInt kv.2 st.resp.Code
    { resp := { st.resp with Code := r.1 }, failed := st.failed || r.2 }
  else if keyMatches kv.1 "token" then
    let r := storeString kv.2 st.resp.Token
    { resp := { st.resp with Token := r.1 }, failed := st.failed || r.2 }
  else if keyMatches kv.1 "url" then
    let r := storeString kv.2 st.resp.URL
    { resp := { st.resp with URL := r.1 }, failed := st.failed || r.2 }
  else st

deriving instance DecidableEq for Except

/-- Go `json.Unmarshal(body, &loginResp)` for a zero `LoginResponse`. -/
def unmarshalLogin (body : String) : Except JSONError LoginResponse :=
  let zero : LoginResponse := { Code := 0, Token := "", URL := "" }
  match parseJSON body with
  | none => Except.error JSONError.syntaxError
  | some JValue.null => Except.ok zero
  | some (JValue.object kvs) =>
    let st := kvs.foldl decodeLoginMember { resp := zero, failed := false }
    if st.failed then Except.error JSONError.typeError else Except.ok st.resp
  | some _ => Except.error JSONError.typeError

/-- What the HTTP exchange of `GetStok` yields: a failure to create the
request, to send it, or to read the response, or else the response body. -/
inductive LoginExchange where
  | createFailed (cause : String) : LoginExchange
  | requestFailed (cause : String) : LoginExchange
  | readFailed (cause : String) : LoginExchange
  | body (b : String) : LoginExchange

/-- The errors `GetStok` returns, one constructor per `fmt.Errorf`. -/
inductive AuthError where
  | createRequest (cause : String) : AuthError
  | request (cause : String) : AuthError
  | readBody (cause : String) : AuthError
  | parseJSON (cause : JSONError) : AuthError
  | loginFailed (code : Int) (message : String) : AuthError
deriving DecidableEq

/-- The text of the login failure: `"登录失败, 错误代码: %d, 消息: %s"`. -/
def loginFailedText (code : Int) (message : String) : String :=
  "登录失败, 错误代码: " ++ fmtInt code ++ ", 消息: " ++ message

/-- Lines 100-137 of `GetStok`: the pair `(token, error)` returned for each
outcome of the HTTP exchange. -/
def loginResult (exchange : LoginExchange) : String × Option AuthError :=
  match exchange with
  | LoginExchange.createFailed e => ("", some (AuthError.createRequest e))
  | LoginExchange.requestFailed e => ("", some (AuthError.request e))
  | LoginExchange.readFailed e => ("", some (AuthError.readBody e))
  | LoginExchange.body b =>
    match unmarshalLogin b with
    | Except.error e => ("", some (AuthError.parseJSON e))
    | Except.ok loginResp =>
      if loginResp.Code = 0 then (loginResp.Token, none)
      else ("", some (AuthError.loginFailed loginResp.Code loginResp.URL))

/-- `GetStok(routerIP, password, useSHA256)`: build the login request, hand
it to the HTTP client, interpret the outcome.  `timestamp` and `random` are
what the clock and the random source give `generateNonce`; `send` is the device
as seen through `net/http`. -/
def GetStok (routerIP password : String) (useSHA256 : Bool) (timestamp random : Int)
    (send : LoginRequest → LoginExchange) : String × Option AuthError :=
  loginResult (send (buildLoginRequest routerIP password useSHA256 timestamp random))

/-! ## `pkg/routers/ax5400pro_client.go`: the task time cursor -/

/-- The constant `taskTimeCacheFile`. -/
def taskTimeCacheFile : String := ".task_time_cache"

/-- The files `getNextTaskTime` can touch: content of each path (if the file
exists), whether `ioutil.ReadFile` succeeds on it, whether `ioutil.WriteFile`
succeeds on it. -/
structure FileSystem where
  content : String → Option String
  readable : String → Bool
  writable : String → Bool

/-- Go `ioutil.ReadFile(path)`: the content, or `none` for an error. -/
def FileSystem.readFile (fs : FileSystem) (path : String) : Option String :=
  if fs.readable path then fs.content path else none

/-- Go `ioutil.WriteFile(path, data, 0644)`: the new file system, or `none`
for an error (which leaves the files as they were). -/
def FileSystem.writeFile (fs : FileSystem) (path data : String) : Option FileSystem :=
  if fs.writable path then
    some { fs with content := fun p => if p = path then some data else fs.content p }
  else none

/-- What `getNextTaskTime` takes from its surroundings: the two cache paths
(`cachePath` is `filepath.Join(filepath.Dir(exePath), taskTimeCacheFile)` with
`exePath` from `os.Executable()` or, failing that, `os.Getwd()`; `fallbackPath`
is `filepath.Join(os.Getwd(), taskTimeCacheFile)`) and `Hour()` and `Minute()`
of `time.Now().Add(1 * time.Minute)`. -/
structure TaskEnv where
  cachePath : String
  fallbackPath : String
  clockHour : Fin 24
  clockMinute : Fin 60

/-- Lines 55-100 of `getNextTaskTime`: hour and minute after reading the
cache (`-1` meaning not set). -/
def readCursor (content : Option String) : Int × Int :=
  let hour : Int := -1
  let minute : Int := -1
  match content with
  | some text =>
    match stringsSplit text ":" with
    | [p0, p1] =>
      match Atoi p0, Atoi p1 with
      | some hourVal, some minVal =>
        let hour := hourVal
        let minute := wrapInt64 (minVal + 1)
        if minute ≥ 60 then
          let minute := 0
          let hour := wrapInt64 (hour + 1)
          if hour ≥ 24 then (0, minute) else (hour, minute)
        else (hour, minute)
      | _, _ => (-1, minute)
    | _ => (hour, minute)
  | none => (hour, minute)

/-- `getNextTaskTime`: the returned time string and the file system it
leaves behind. -/
def getNextTaskTime (env : TaskEnv) (fs : FileSystem) : String × FileSystem :=
  let hm := readCursor (fs.readFile env.cachePath)
  let hm : Int × Int :=
    if hm.1 = -1 ∨ hm.2 = -1 then ((env.clockHour.val : Int), (env.clockMinute.val : Int))
    else hm
  let newTimeStr := fmtInt hm.1 ++ ":" ++ fmtInt hm.2
  match fs.writeFile env.cachePath newTimeStr with
  | some fs1 => (newTimeStr, fs1)
  | none =>
    match fs.writeFile env.fallbackPath newTimeStr with
    | some fs2 => (newTimeStr, fs2)
    | none => (newTimeStr, fs)

/-! ## Reading of the report, in the words of the specification -/

/-- The four per-service verdicts of the report. -/
inductive Verdict where
  | fullyEnabled : Verdict
  | configuredPortClosed : Verdict
  | portOpenNotConfigured : Verdict
  | disabled : Verdict
deriving DecidableEq

/-- The verdict chosen by `(enabled, portOpen)`. -/
def verdictOf : Bool → Bool → Verdict
  | true, true => Verdict.fullyEnabled
  | true, false => Verdict.configuredPortClosed
  | false, true => Verdict.portOpenNotConfigured
  | false, false => Verdict.disabled

/-- The report line of each SSH verdict. -/
def sshVerdictText : Verdict → String
  | Verdict.fullyEnabled => "  - 总体状态: SSH已成功启用并且可以访问\n"
  | Verdict.configuredPortClosed => "  - 总体状态: SSH在配置中已启用，但端口未开放\n"
  | Verdict.portOpenNotConfigured => "  - 总体状态: SSH端口已开放，但配置中未启用\n"
  | Verdict.disabled => "  - 总体状态: SSH未启用\n"

/-- The report line of each Telnet verdict. -/
def telnetVerdictText : Verdict → String
  | Verdict.fullyEnabled => "  - 总体状态: Telnet已成功启用并且可以访问\n"
  | Verdict.configuredPortClosed => "  - 总体状态: Telnet在配置中已启用，但端口未开放\n"
  | Verdict.portOpenNotConfigured => "  - 总体状态: Telnet端口已开放，但配置中未启用\n"
  | Verdict.disabled => "  - 总体状态: Telnet未启用\n"

/-- The part of the report before the connection section: headers, the four
booleans and the two verdict lines. -/
def statusSections (status : ShellStatusResult) : String :=
  "SSH状态:\n" ++
  ("  - 配置中启用: " ++ fmtBool status.SSHEnabled ++ "\n") ++
  ("  - 端口22开放: " ++ fmtBool status.SSHPortOpen ++ "\n") ++
  sshVerdictText (verdictOf status.SSHEnabled status.SSHPortOpen) ++
  "\nTelnet状态:\n" ++
  ("  - 配置中启用: " ++ fmtBool status.TelnetEnabled ++ "\n") ++
  ("  - 端口23开放: " ++ fmtBool status.TelnetPortOpen ++ "\n") ++
  telnetVerdictText (verdictOf status.TelnetEnabled status.TelnetPortOpen)

/-- The SSH connection command line of the report. -/
def sshCommandLine (c : AX5400ProClient) : String :=
  "  - SSH连接命令: " ++ c.GetSSHCommand ++ "\n"

/-- The Telnet connection command line of the report. -/
def telnetCommandLine (c : AX5400ProClient) : String :=
  "  - Telnet连接命令: " ++ c.GetTelnetCommand ++ "\n"

/-- The fixed text before the host in the SSH command line. -/
def sshLineHead : List Char :=
  "  - SSH连接命令: ssh -o HostKeyAlgorithms=+ssh-rsa -o PubkeyAcceptedKeyTypes=+ssh-rsa root@".toList

/-- The fixed text before the host in the Telnet command line. -/
def telnetLineHead : List Char := "  - Telnet连接命令: telnet ".toList

/-! ## Reading of the fac_info shapes, in the words of the specification -/

/-- Is the character one of `0-9a-f`? -/
def isLowerHex (c : Char) : Bool :=
  (48 ≤ c.toNat && c.toNat ≤ 57) || (97 ≤ c.toNat && c.toNat ≤ 102)

/-- The salt as the specification words it: the "r1d" salt verbatim for a
serial number without a slash, otherwise the "others" salt with its
dash-delimited segments in reverse order. -/
def referenceSalt (s : String) : String :=
  if '/' ∈ s.toList then "6d2df50a-250f-4a30-a5e6-d44fb0960aa0"
  else "A2E371B0-B34B-48A5-8C40-A7133F3B5D88"

/-- The password as the specification words it: empty for the empty serial
number, otherwise the first 8 characters of the lowercase hex MD5 digest of
serial number followed by salt. -/
def referencePassword (s : String) : String :=
  if s = "" then ""
  else String.mk ((hexEncode (md5Sum (stringBytes (s ++ referenceSalt s)))).toList.take 8)

/-! ## Reading of the cache states, in the words of the specification -/

/-- Is the cache content corrupt: it does not split on the colon into exactly
two parts, or one of the parts is not a decimal integer `strconv.Atoi`
accepts? -/
def cacheCorrupt (content : String) : Bool :=
  match stringsSplit content ":" with
  | [p0, p1] => (Atoi p0).isNone || (Atoi p1).isNone
  | _ => true

/-- The clock fallback: `Hour:Minute` of the current local time plus one
minute, printed as `%d:%d`. -/
def clockTime (env : TaskEnv) : String :=
  fmtInt (env.clockHour.val : Int) ++ ":" ++ fmtInt (env.clockMinute.val : Int)

/-! ## Successive invocations of `getNextTaskTime` -/

/-- The surroundings of an invocation of `getNextTaskTime` at a clock reading. -/
def envAt (cachePath fallbackPath : String) (clock : Fin 24 × Fin 60) : TaskEnv :=
  { cachePath := cachePath, fallbackPath := fallbackPath,
    clockHour := clock.1, clockMinute := clock.2 }

/-- The time strings of successive invocations of `getNextTaskTime`, one for
each clock reading, every invocation working on the files the one before it
left behind. -/
def successiveTimes (cachePath fallbackPath : String) :
    List (Fin 24 × Fin 60) → FileSystem → List String
  | [], _ => []
  | clock :: rest, fs =>
    let r := getNextTaskTime (envAt cachePath fallbackPath clock) fs
    r.1 :: successiveTimes cachePath fallbackPath rest r.2

/-- The cursor printed as `%d:%d`. -/
def timeString (hm : Int × Int) : String :=
  fmtInt hm.1 ++ ":" ++ fmtInt hm.2

/-- The increment of lines 84-92: one minute later, the minute going back to 0
from 60 on and the hour from 24 on. -/
def advance (hm : Int × Int) : Int × Int :=
  if wrapInt64 (hm.2 + 1) ≥ 60 then
    (if wrapInt64 (hm.1 + 1) ≥ 24 then (0, 0) else (wrapInt64 (hm.1 + 1), 0))
  else (hm.1, wrapInt64 (hm.2 + 1))

/-- The test of lines 103-108: the clock replaces a cursor with a component
`-1`. -/
def orClock (clock hm : Int × Int) : Int × Int :=
  if hm.1 = -1 ∨ hm.2 = -1 then clock else hm

/-- The cursor an invocation of `getNextTaskTime` prints. -/
def cursorOf (env : TaskEnv) (fs : FileSystem) : Int × Int :=
  orClock ((env.clockHour.val : Int), (env.clockMinute.val : Int))
    (readCursor (fs.readFile env.cachePath))

/-- The cursors of the invocations that follow one which printed `hm`, each
reading what the one before it wrote. -/
def cursorRun : List (Int × Int) → Int × Int → List (Int × Int)
  | [], _ => []
  | clock :: rest, hm => orClock clock (advance hm) :: cursorRun rest (orClock clock (advance hm))

/-- A time of the 24-hour clock. -/
def validTime (hm : Int × Int) : Prop :=
  0 ≤ hm.1 ∧ hm.1 ≤ 23 ∧ 0 ≤ hm.2 ∧ hm.2 ≤ 59

/-- What every printed cursor satisfies: 64-bit components, none of them `-1`,
the minute below 60. -/
def printedCursor (hm : Int × Int) : Prop :=
  -9223372036854775808 ≤ hm.1 ∧ hm.1 < 9223372036854775808 ∧
  -9223372036854775808 ≤ hm.2 ∧ hm.2 < 60 ∧ hm.1 ≠ -1 ∧ hm.2 ≠ -1

/-- A measure that grows by one with every invocation while the cursor is not
a time of the 24-hour clock: the minute while it is negative, else the minutes
counted from hour 24 upwards through the 64-bit wrap-around. -/
def cursorRank (hm : Int × Int) : Int :=
  if hm.2 < 0 then hm.2 else 60 * ((hm.1 - 24) % 18446744073709551616) + hm.2

/-- The cursor `q` printed `d` invocations after `p`, as far as the proof of
distinctness needs it: minute-of-day `d` later when `p` is a time of the
24-hour clock; else a time of the 24-hour clock, or a cursor of the same kind
with a rank higher by `d`. -/
def laterCursor (p : Int × Int) (d : Int) (q : Int × Int) : Prop :=
  (validTime p → validTime q ∧ 60 * q.1 + q.2 = (60 * p.1 + p.2 + d) % 1440) ∧
  (¬ validTime p → validTime q ∨
    (¬ validTime q ∧ (q.2 < 0 ↔ p.2 < 0) ∧ cursorRank q = cursorRank p + d))

/-! ## The device, the clock and the files as the client meets them -/

/-- What the client does to its surroundings: an HTTP GET, an HTTP POST with
its form data, a TCP connection attempt. -/
inductive Event where
  | httpGet (url : String) : Event
  | httpPost (url data : String) : Event
  | portProbe (address : String) : Event
deriving DecidableEq

/-- What `time.Now()` gives, in the forms the client uses: `Hour()` and
`Minute()` of `time.Now().Add(1 * time.Minute)`, `Format("2006-1-2 15:4:5")`
and `Format("2006.01.02-15:04:05")`. -/
structure ClockReading where
  taskHour : Fin 24
  taskMinute : Fin 60
  sysTime : String
  dateTime : String

/-- The surroundings of the client: how the device answers a GET and a POST
(the body, or the error of the HTTP client), whether a port accepts a
connection, what the clock shows, each of them depending on everything the
client has done so far; and the two paths of the task time cache. -/
structure Device where
  getReply : List Event → String → Except String String
  postReply : List Event → String → String → Except String String
  probeReply : List Event → String → Bool
  clock : List Event → ClockReading
  cachePath : String
  fallbackPath : String

/-- The state a run of the client changes: what it has done so far (oldest
first), the commands `ExecuteCustomCommand` has announced with
`logger.Info("准备执行命令: %s", command)` (oldest first), and the files. -/
structure World where
  events : List Event
  commands : List String
  fs : FileSystem

/-- The errors of the smart-controller methods, one constructor per way an
`error` is made: the error of `c.Post` returned as it is, and one for each
`fmt.Errorf`. -/
inductive RouterError where
  | transport (cause : String) : RouterError
  | parseResponse (cause : JSONError) : RouterError
  | api (msg : String) (code : Int) : RouterError
  | schedule (cause : RouterError) : RouterError
  | trigger (cause : RouterError) : RouterError
  | step (name : String) (cause : RouterError) : RouterError
  | systemTime (cause : String) : RouterError
  | syncTime (cause : RouterError) : RouterError
deriving DecidableEq

/-- The message of an error (`err.Error()`); `jsonText` stands for the
messages of `encoding/json`. -/
def RouterError.text (jsonText : JSONError → String) : RouterError → String
  | RouterError.transport cause => cause
  | RouterError.parseResponse cause => "解析响应失败: " ++ jsonText cause
  | RouterError.api msg code => "API错误: " ++ msg ++ " (代码: " ++ fmtInt code ++ ")"
  | RouterError.schedule cause => "设置任务失败: " ++ cause.text jsonText
  | RouterError.trigger cause => "执行任务失败: " ++ cause.text jsonText
  | RouterError.step name cause => name ++ "失败: " ++ cause.text jsonText
  | RouterError.systemTime cause => "设置系统时间失败: " ++ cause
  | RouterError.syncTime cause => "同步系统时间失败: " ++ cause.text jsonText

/-- The URL of `c.Get` and `c.Post`: `"http://%s/cgi-bin/luci/;stok=%s/%s"`. -/
def AX5400ProClient.apiURL (c : AX5400ProClient) (apiPath : String) : String :=
  "http://" ++ c.Host ++ "/cgi-bin/luci/;stok=" ++ c.Token ++ "/" ++ apiPath

/-- `c.Get(apiPath)`: the body or the error, and the world after the request. -/
def AX5400ProClient.Get (c : AX5400ProClient) (dev : Device) (apiPath : String)
    (w : World) : Except String String × World :=
  (dev.getReply w.events (c.apiURL apiPath),
    { w with events := w.events ++ [Event.httpGet (c.apiURL apiPath)] })

/-- `c.Post(apiPath, data)`: the body or the error, and the world after the
request. -/
def AX5400ProClient.Post (c : AX5400ProClient) (dev : Device) (apiPath data : String)
    (w : World) : Except String String × World :=
  (dev.postReply w.events (c.apiURL apiPath) data,
    { w with events := w.events ++ [Event.httpPost (c.apiURL apiPath) data] })

/-- `c.CheckPortOpen(port)`: a connection attempt to `"%s:%d"`. -/
def AX5400ProClient.CheckPortOpen (c : AX5400ProClient) (dev : Device) (port : Int)
    (w : World) : Bool × World :=
  (dev.probeReply w.events (c.Host ++ ":" ++ fmtInt port),
    { w with events := w.events ++ [Event.portProbe (c.Host ++ ":" ++ fmtInt port)] })

/-- `BaseRouterClient.SetSystemTime`: only a failed GET is an error; a
response without `"code":0` and `"success":true` is logged as a warning. -/
def AX5400ProClient.SetSystemTime (c : AX5400ProClient) (dev : Device) (w : World) :
    Option RouterError × World :=
  let timeStr := (dev.clock w.events).sysTime
  let apiPath := "api/misystem/set_sys_time?time=" ++ timeStr ++ "&timezone=CST-8"
  match c.Get dev apiPath w with
  | (Except.error e, w1) => (some (RouterError.systemTime e), w1)
  | (Except.ok _, w1) => (none, w1)

/-! ## `net/url`: `QueryEscape` -/

/-- An upper-case hexadecimal digit, `"0123456789ABCDEF"[n]`. -/
def upperHexDigit (n : Nat) : Char :=
  if n < 10 then Char.ofNat (48 + n) else Char.ofNat (55 + n)

/-- The bytes `url.QueryEscape` leaves as they are: ASCII letters, digits and
`-`, `_`, `.`, `~`. -/
def queryUnreserved (c : Char) : Bool :=
  c.isAlphanum || c = '-' || c = '_' || c = '.' || c = '~'

/-- What `url.QueryEscape` writes for one character: itself, `+` for a space,
or `%XX` for each of its UTF-8 bytes. -/
def queryEscapeChar (c : Char) : List Char :=
  if queryUnreserved c then [c]
  else if c = ' ' then ['+']
  else (utf8Char c).flatMap fun b => ['%', upperHexDigit (b / 16), upperHexDigit (b % 16)]

/-- Go `url.QueryEscape(s)`. -/
def QueryEscape (s : String) : String :=
  String.mk (s.toList.flatMap queryEscapeChar)

/-! ## `pkg/routers/ax5400pro_client.go`: the smart-controller requests -/

/-- The Go struct `APIResponse`; `Data` is an `interface{}`, `nil` at first. -/
structure APIResponse where
  Code : Int
  Msg : String
  Data : JValue

/-- Decoder state while filling an `APIResponse`. -/
structure APIDecode where
  resp : APIResponse
  failed : Bool

/-- Decode one object member into the struct; unknown keys are skipped, and a
number out of the `float64` range under `data` saves a type error. -/
def decodeAPIMember (st : APIDecode) (kv : String × JValue) : APIDecode :=
  if keyMatches kv.1 "code" then
    let r := storeInt kv.2 st.resp.Code
    { resp := { st.resp with Code := r.1 }, failed := st.failed || r.2 }
  else if keyMatches kv.1 "msg" then
    let r := storeString kv.2 st.resp.Msg
    { resp := { st.resp with Msg := r.1 }, failed := st.failed || r.2 }
  else if keyMatches kv.1 "data" then
    { resp := { st.resp with Data := kv.2 }, failed := st.failed || kv.2.floatRangeError }
  else st

/-- Go `json.Unmarshal(respBody, &resp)` for a zero `APIResponse`. -/
def unmarshalAPIResponse (body : String) : Except JSONError APIResponse :=
  let zero : APIResponse := { Code := 0, Msg := "", Data := JValue.null }
  match parseJSON body with
  | none => Except.error JSONError.syntaxError
  | some JValue.null => Except.ok zero
  | some (JValue.object kvs) =>
    let st := kvs.foldl decodeAPIMember { resp := zero, failed := false }
    if st.failed then Except.error JSONError.typeError else Except.ok st.resp
  | some _ => Except.error JSONError.typeError

/-- The part `SetSmartControllerTask` and `StartSmartControllerTask` share,
from the result of `c.Post` on: the error of the request as it is, a response
that does not decode, a response with a `code` other than 0, or success. -/
def apiResult (reply : Except String String) : Option RouterError :=
  match reply with
  | Except.error e => some (RouterError.transport e)
  | Except.ok respBody =>
    match unmarshalAPIResponse respBody with
    | Except.error e => some (RouterError.parseResponse e)
    | Except.ok resp =>
      if resp.Code ≠ 0 then some (RouterError.api resp.Msg resp.Code) else none

/-- The endpoint of both smart-controller requests. -/
def smartControllerPath : String := "api/xqsmarthome/request_smartcontroller"

/-- The `payload` of `SetSmartControllerTask`: the format string with `command`
and `taskTime` put in by `%s`. -/
def sceneSettingPayload (command taskTime : String) : String :=
  "\x7b\"command\":\"scene_setting\",\"name\":\"" ++ command ++
    "\",\"action_list\":[\x7b\"thirdParty\":\"xmrouter\",\"delay\":17,\"type\":\"wan_block\",\"payload\":\x7b\"command\":\"wan_block\",\"mac\":\"00:00:00:00:00:00\"\x7d\x7d],\"launch\":\x7b\"timer\":\x7b\"time\":\"" ++
    taskTime ++ "\",\"repeat\":\"0\",\"enabled\":true\x7d\x7d\x7d"

/-- The `payload` of `StartSmartControllerTask`: `taskTime` put in by `%s`,
`week` by `%d`. -/
def sceneStartPayload (taskTime : String) (week : Int) : String :=
  "\x7b\"command\":\"scene_start_by_crontab\",\"time\":\"" ++ taskTime ++ "\",\"week\":" ++
    fmtInt week ++ "\x7d"

/-- `SetSmartControllerTask(command, taskTime)`. -/
def AX5400ProClient.SetSmartControllerTask (c : AX5400ProClient) (dev : Device)
    (command taskTime : String) (w : World) : Option RouterError × World :=
  let payload := sceneSettingPayload command taskTime
  let encodedPayload := QueryEscape payload
  let data := "payload=" ++ encodedPayload
  let r := c.Post dev smartControllerPath data w
  (apiResult r.1, r.2)

/-- `StartSmartControllerTask(taskTime, week)`. -/
def AX5400ProClient.StartSmartControllerTask (c : AX5400ProClient) (dev : Device)
    (taskTime : String) (week : Int) (w : World) : Option RouterError × World :=
  let payload := sceneStartPayload taskTime week
  let encodedPayload := QueryEscape payload
  let data := "payload=" ++ encodedPayload
  let r := c.Post dev smartControllerPath data w
  (apiResult r.1, r.2)

/-- What `getNextTaskTime` takes from the surroundings in a given world. -/
def Device.taskEnv (dev : Device) (w : World) : TaskEnv :=
  { cachePath := dev.cachePath, fallbackPath := dev.fallbackPath,
    clockHour := (dev.clock w.events).taskHour, clockMinute := (dev.clock w.events).taskMinute }

/-- `ExecuteCustomCommand(command)`: announce the command, wrap it, mint the
task time, schedule the task, start it. -/
def AX5400ProClient.ExecuteCustomCommand (c : AX5400ProClient) (dev : Device)
    (command : String) (w : World) : Option RouterError × World :=
  let w := { w with commands := w.commands ++ [command] }
  let formattedCommand := "'$(" ++ command ++ ")'"
  let t := getNextTaskTime (dev.taskEnv w) w.fs
  let taskTime := t.1
  let w := { w with fs := t.2 }
  match c.SetSmartControllerTask dev formattedCommand taskTime w with
  | (some err, w) => (some (RouterError.schedule err), w)
  | (none, w) =>
    match c.StartSmartControllerTask dev taskTime 0 w with
    | (some err, w) => (some (RouterError.trigger err), w)
    | (none, w) => (none, w)

/-- `SyncRouterTime`. -/
def AX5400ProClient.SyncRouterTime (c : AX5400ProClient) (dev : Device) (w : World) :
    Option RouterError × World :=
  let timeStr := (dev.clock w.events).dateTime
  let dateCmd := "date -s '" ++ timeStr ++ "'"
  match c.ExecuteCustomCommand dev dateCmd w with
  | (some err, w) => (some (RouterError.syncTime err), w)
  | (none, w) => (none, w)

/-- A step of `EnableSSH` and `DisableSSH`. -/
structure Step where
  name : String
  command : String
deriving DecidableEq

/-- The `steps` of `EnableSSH`. -/
def enableSteps : List Step :=
  [⟨"解锁Dropbear配置", "sed -i s/release/debug/g /etc/init.d/dropbear"⟩,
   ⟨"启用SSH配置", "nvram set ssh_en=1"⟩,
   ⟨"启用Telnet配置", "nvram set telnet_en=1"⟩,
   ⟨"提交NVRAM更改", "nvram commit"⟩,
   ⟨"重启Dropbear服务", "/etc/init.d/dropbear restart"⟩]

/-- The `steps` of `DisableSSH`. -/
def disableSteps : List Step :=
  [⟨"禁用SSH配置", "nvram set ssh_en=0"⟩,
   ⟨"禁用Telnet配置", "nvram set telnet_en=0"⟩,
   ⟨"提交NVRAM更改", "nvram commit"⟩,
   ⟨"上锁Dropbear配置", "sed -i s/debug/release/g /etc/init.d/dropbear"⟩,
   ⟨"停止Dropbear服务", "/etc/init.d/dropbear restart"⟩]

/-- The loop `for i, step := range steps` of `EnableSSH` and `DisableSSH`: it
returns at the first step whose command fails. -/
def AX5400ProClient.runSteps (c : AX5400ProClient) (dev : Device) :
    List Step → World → Option RouterError × World
  | [], w => (none, w)
  | step :: rest, w =>
    match c.ExecuteCustomCommand dev step.command w with
    | (some err, w) => (some (RouterError.step step.name err), w)
    | (none, w) => c.runSteps dev rest w

/-- `CheckShellStatus` against the device: the GET of `api/xqsystem/fac_info`
and, when it succeeds, the probes of ports 22 and 23. -/
def AX5400ProClient.checkShellStatusOn (c : AX5400ProClient) (dev : Device) (w : World) :
    ShellStatusReturn × World :=
  match c.Get dev "api/xqsystem/fac_info" w with
  | (Except.error e, w) => (c.CheckShellStatus (Except.error e) false false, w)
  | (Except.ok body, w) =>
    let p22 := c.CheckPortOpen dev 22 w
    let p23 := c.CheckPortOpen dev 23 p22.2
    (c.CheckShellStatus (Except.ok body) p22.1 p23.1, p23.2)

/-- `EnableSSH`. -/
def AX5400ProClient.EnableSSH (c : AX5400ProClient) (dev : Device) (w : World) :
    Option RouterError × World :=
  match c.SetSystemTime dev w with
  | (some err, w) => (some err, w)
  | (none, w) =>
    match c.runSteps dev enableSteps w with
    | (some err, w) => (some err, w)
    | (none, w) =>
      let r := c.checkShellStatusOn dev w
      match r.1.err with
      | some _ => (none, r.2)
      | none =>
        if r.1.overall then (none, (c.SyncRouterTime dev r.2).2)
        else (none, r.2)

/-- `DisableSSH`. -/
def AX5400ProClient.DisableSSH (c : AX5400ProClient) (dev : Device) (w : World) :
    Option RouterError × World :=
  match c.runSteps dev disableSteps w with
  | (some err, w) => (some err, w)
  | (none, w) => (none, (c.checkShellStatusOn dev w).2)

/-! ## Reading of the command sequence, in the words of the specification -/

/-- The task time an invocation of `ExecuteCustomCommand` in world `w` mints. -/
def mintedTime (dev : Device) (w : World) : String :=
  (getNextTaskTime (dev.taskEnv w) w.fs).1

/-- The `scene_setting` POST for a command and a task time. -/
def scheduleRequest (c : AX5400ProClient) (command taskTime : String) : Event :=
  Event.httpPost (c.apiURL smartControllerPath)
    ("payload=" ++ QueryEscape (sceneSettingPayload ("'$(" ++ command ++ ")'") taskTime))

/-- The `scene_start_by_crontab` POST for a task time and a week. -/
def triggerRequest (c : AX5400ProClient) (taskTime : String) (week : Int) : Event :=
  Event.httpPost (c.apiURL smartControllerPath)
    ("payload=" ++ QueryEscape (sceneStartPayload taskTime week))

/-- What the device answers to a request made after the given events. -/
def Device.replyTo (dev : Device) (events : List Event) : Event → Except String String
  | Event.httpGet url => dev.getReply events url
  | Event.httpPost url data => dev.postReply events url data
  | Event.portProbe _ => Except.ok ""

/-- The GET request of `SetSystemTime` in world `w`. -/
def sysTimeRequest (c : AX5400ProClient) (dev : Device) (w : World) : Event :=
  Event.httpGet (c.apiURL ("api/misystem/set_sys_time?time=" ++
    (dev.clock w.events).sysTime ++ "&timezone=CST-8"))

/-- The world after `ExecuteCustomCommand` has been called on each command of
the list in turn and has succeeded on each; `none` when one of them fails. -/
def AX5400ProClient.afterCommands (c : AX5400ProClient) (dev : Device) :
    List String → World → Option World
  | [], w => some w
  | command :: rest, w =>
    match c.ExecuteCustomCommand dev command w with
    | (none, w1) => c.afterCommands dev rest w1
    | (some _, _) => none

/-- The command `SyncRouterTime` executes in world `w`. -/
def syncCommand (dev : Device) (w : World) : String :=
  "date -s '" ++ (dev.clock w.events).dateTime ++ "'"

/-! ## A device to run the client against -/

/-- The number of POST requests among the events. -/
def postCount (events : List Event) : Nat :=
  (events.filter fun e => match e with
    | Event.httpPost _ _ => true
    | _ => false).length

/-- A device for examples. It answers the first `good` POST requests with
`code` 0 and every later one with `code` 1; `fac_info` reports SSH and Telnet
as `shell`, and the ports are open when `shell` is true; the clock stands
still. -/
def exampleDevice (good : Nat) (shell : Bool) : Device :=
  { getReply := fun _ _ =>
      Except.ok (if shell then "\x7b\"ssh\":true,\"telnet\":true\x7d"
        else "\x7b\"ssh\":false,\"telnet\":false\x7d"),
    postReply := fun events _ _ =>
      Except.ok (if postCount events < good then "\x7b\"code\":0\x7d"
        else "\x7b\"code\":1,\"msg\":\"busy\"\x7d"),
    probeReply := fun _ _ => shell,
    clock := fun _ =>
      { taskHour := 10, taskMinute := 20, sysTime := "2025-6-1 10:19:30",
        dateTime := "2025.06.01-10:19:30" },
    cachePath := "/opt/tool/.task_time_cache",
    fallbackPath := "/root/.task_time_cache" }

/-- A world for examples: nothing done yet, no cache file, every path
writable. -/
def exampleWorld : World :=
  { events := [], commands := [],
    fs := { content := fun _ => none, readable := fun _ => true, writable := fun _ => true } }

/-! ## Reading of the `scene_setting` payload, in the words of the specification -/

/-- The string under a key of a decoded object, if there is one. -/
def stringField (kvs : List (String × JValue)) (key : String) : Option String :=
  match mapGet kvs key with
  | some (JValue.string s) => some s
  | _ => none

/-- The `name` a payload decodes to: `none` when the payload is not a
well-formed JSON object with a string under `name`. -/
def payloadName (payload : String) : Option String :=
  match unmarshalMap payload with
  | some kvs => stringField kvs "name"
  | none => none

/-- Is every character of the string one that a JSON string literal holds as
it is: no double quote, no backslash, no control character? -/
def jsonPlain (s : String) : Bool :=
  s.toList.all fun c => c != '"' && c != '\\' && decide (32 ≤ c.toNat)

/-- The JSON object the specification describes: `command` is `scene_setting`,
`name` the given string, `action_list` the single `wan_block` action on MAC
`00:00:00:00:00:00`, and `launch.timer` has the given `time`, `repeat` `"0"`
and `enabled` true. -/
def sceneSettingValue (name time : String) : JValue :=
  JValue.object
    [("command", JValue.string "scene_setting"),
     ("name", JValue.string name),
     ("action_list", JValue.array
       [JValue.object
         [("thirdParty", JValue.string "xmrouter"),
          ("delay", JValue.number ⟨false, ['1', '7'], [], false, false, []⟩),
          ("type", JValue.string "wan_block"),
          ("payload", JValue.object
            [("command", JValue.string "wan_block"),
             ("mac", JValue.string "00:00:00:00:00:00")])]]),
     ("launch", JValue.object
       [("timer", JValue.object
         [("time", JValue.string time),
          ("repeat", JValue.string "0"),
          ("enabled", JValue.bool true)])])]

/-- The format string of `SetSmartControllerTask` cut at its two `%s`: the
characters before the command, between the command and the task time, and after
the task time. -/
def scenePieces : List Char × List Char × List Char :=
  (['{', '"', 'c', 'o', 'm', 'm', 'a', 'n', 'd', '"', ':', '"', 's', 'c', 'e', 'n', 'e',
    '_', 's', 'e', 't', 't', 'i', 'n', 'g', '"', ',', '"', 'n', 'a', 'm', 'e', '"', ':', '"'],
   ['"', ',', '"', 'a', 'c', 't', 'i', 'o', 'n', '_', 'l', 'i', 's', 't', '"', ':', '[',
    '{', '"', 't', 'h', 'i', 'r', 'd', 'P', 'a', 'r', 't', 'y', '"', ':', '"', 'x', 'm',
    'r', 'o', 'u', 't', 'e', 'r', '"', ',', '"', 'd', 'e', 'l', 'a', 'y', '"', ':', '1',
    '7', ',', '"', 't', 'y', 'p', 'e', '"', ':', '"', 'w', 'a', 'n', '_', 'b', 'l', 'o',
    'c', 'k', '"', ',', '"', 'p', 'a', 'y', 'l', 'o', 'a', 'd', '"', ':', '{', '"', 'c',
    'o', 'm', 'm', 'a', 'n', 'd', '"', ':', '"', 'w', 'a', 'n', '_', 'b', 'l', 'o', 'c',
    'k', '"', ',', '"', 'm', 'a', 'c', '"', ':', '"', '0', '0', ':', '0', '0', ':', '0',
    '0', ':', '0', '0', ':', '0', '0', ':', '0', '0', '"', '}', '}', ']', ',', '"', 'l',
    'a', 'u', 'n', 'c', 'h', '"', ':', '{', '"', 't', 'i', 'm', 'e', 'r', '"', ':', '{',
    '"', 't', 'i', 'm', 'e', '"', ':', '"'],
   ['"', ',', '"', 'r', 'e', 'p', 'e', 'a', 't', '"', ':', '"', '0', '"', ',', '"', 'e',
    'n', 'a', 'b', 'l', 'e', 'd', '"', ':', 't', 'r', 'u', 'e', '}', '}', '}'])

/-! # Theorems -/

/-! ## The JSON parser: enough fuel -/

theorem skipWS_length_le (cs : List Char) : (skipWS cs).length ≤ cs.length := by
  induction cs with
  | nil => simp [skipWS]
  | cons c cs ih =>
    unfold skipWS
    split
    · exact Nat.le_succ_of_le ih
    · exact Nat.le_refl _

theorem scanString_length (cs raw r : List Char) (h : scanString cs = some (raw, r)) :
    r.length < cs.length := by
  induction cs using scanString.induct generalizing raw r with
  | case1 => simp [scanString] at h
  | case2 rest => simp [scanString] at h; rw [← h.2]; simp
  | case3 x1 x2 x3 x4 rest hh => simp [scanString, hh] at h
  | case4 x1 x2 x3 x4 rest v hv hs => simp [scanString, hv, hs] at h
  | case5 x1 x2 x3 x4 rest v hv raw1 r1 hs ih =>
    simp only [scanString, hv, hs, Option.some.injEq, Prod.mk.injEq] at h
    have := ih raw1 r1 hs
    rw [← h.2]; simp only [List.length_cons]; omega
  | case6 e rest hne he hs ih =>
    rw [scanString] at h
    · simp [he, hs] at h
    · exact hne
  | case7 e rest hne he raw1 r1 hs ih =>
    rw [scanString] at h
    · simp only [he, if_true, hs, Option.some.injEq, Prod.mk.injEq] at h
      have := ih raw1 r1 hs
      rw [← h.2]; simp only [List.length_cons]; omega
    · exact hne
  | case8 e rest hne he =>
    rw [scanString] at h
    · simp [he] at h
    · exact hne
  | case9 c rest h1 h2 h3 hc =>
    rw [scanString] at h
    · simp [hc] at h
    · exact h1
    · exact h2
    · exact h3
  | case10 c rest h1 h2 h3 hc hs ih =>
    rw [scanString] at h
    · simp [hc, hs] at h
    · exact h1
    · exact h2
    · exact h3
  | case11 c rest h1 h2 h3 hc raw1 r1 hs ih =>
    rw [scanString] at h
    · simp only [hc, Bool.false_eq_true, if_false, hs, Option.some.injEq, Prod.mk.injEq] at h
      have := ih raw1 r1 hs
      rw [← h.2]; simp only [List.length_cons]; omega
    · exact h1
    · exact h2
    · exact h3

theorem spanDigits_length_le (cs : List Char) : (spanDigits cs).2.length ≤ cs.length := by
  induction cs with
  | nil => simp [spanDigits]
  | cons c cs ih =>
    unfold spanDigits
    split
    · exact Nat.le_succ_of_le ih
    · exact Nat.le_refl _

theorem scanIntPart_length (cs ds r : List Char) (h : scanIntPart cs = some (ds, r)) :
    r.length < cs.length := by
  cases cs with
  | nil => simp [scanIntPart] at h
  | cons c cs =>
    simp only [scanIntPart] at h
    split at h
    · simp only [Option.some.injEq, Prod.mk.injEq] at h
      rw [← h.2]; simp
    · split at h
      · simp only [Option.some.injEq, Prod.mk.injEq] at h
        rw [← h.2]
        have := spanDigits_length_le cs
        simp only [List.length_cons]; omega
      · exact absurd h (by simp)

theorem scanFracPart_length (cs fs r : List Char) (h : scanFracPart cs = some (fs, r)) :
    r.length ≤ cs.length := by
  unfold scanFracPart at h
  split at h
  · rename_i r0
    split at h
    · exact absurd h (by simp)
    · simp only [Option.some.injEq] at h
      have := spanDigits_length_le r0
      rw [h] at this
      simp only [List.length_cons]
      simp only at this
      omega
  · simp only [Option.some.injEq, Prod.mk.injEq] at h
    rw [← h.2]

theorem scanExpPart_length (cs es r : List Char) (b : Bool)
    (h : scanExpPart cs = some (b, es, r)) : r.length ≤ cs.length := by
  unfold scanExpPart at h
  simp only at h
  split at h
  · exact absurd h (by simp)
  · simp only [Option.some.injEq, Prod.mk.injEq] at h
    rw [← h.2.2]
    refine Nat.le_trans (spanDigits_length_le _) ?_
    split <;> simp

theorem scanUnsigned_length (neg : Bool) (cs r : List Char) (n : JNumber)
    (h : scanUnsigned neg cs = some (n, r)) : r.length < cs.length := by
  unfold scanUnsigned at h
  split at h
  · exact absurd h (by simp)
  · rename_i ds afterInt hi
    have h1 := scanIntPart_length _ _ _ hi
    split at h
    · exact absurd h (by simp)
    · rename_i fs afterFrac hf
      have h2 := scanFracPart_length _ _ _ hf
      simp only at h
      split at h
      · rename_i r0
        split at h
        · exact absurd h (by simp)
        · rename_i eneg es rest he
          have h3 := scanExpPart_length _ _ _ _ he
          simp only [Option.some.injEq, Prod.mk.injEq] at h
          rw [← h.2]
          simp only [List.length_cons] at h2
          omega
      · rename_i r0
        split at h
        · exact absurd h (by simp)
        · rename_i eneg es rest he
          have h3 := scanExpPart_length _ _ _ _ he
          simp only [Option.some.injEq, Prod.mk.injEq] at h
          rw [← h.2]
          simp only [List.length_cons] at h2
          omega
      · simp only [Option.some.injEq, Prod.mk.injEq] at h
        rw [← h.2]
        omega

theorem scanNumber_length (cs r : List Char) (n : JNumber)
    (h : scanNumber cs = some (n, r)) : r.length < cs.length := by
  unfold scanNumber at h
  split at h
  · have := scanUnsigned_length _ _ _ _ h
    simp only [List.length_cons]; omega
  · exact scanUnsigned_length _ _ _ _ h

theorem dropLiteral_length (name : String) (cs r : List Char) (hn : 0 < name.length)
    (h : dropLiteral name cs = some r) : r.length < cs.length := by
  unfold dropLiteral at h
  split at h
  · rename_i hp
    simp only [Option.some.injEq] at h
    rw [← h, List.length_drop]
    have hp' := List.isPrefixOf_iff_prefix.mp hp
    have := hp'.length_le
    simp only [String.toList, String.length] at this hn
    simp only [String.length]
    omega
  · exact absurd h (by simp)

theorem length_of_skipWS_cons (cs r : List Char) (c : Char) (h : skipWS cs = c :: r) :
    r.length < cs.length := by
  have := skipWS_length_le cs
  rw [h] at this
  simp only [List.length_cons] at this
  omega

theorem valueStep_length
    (members : Nat → List Char → Option (List (String × JValue) × List Char))
    (elements : Nat → List Char → Option (List JValue × List Char))
    (hm : ∀ d cs x r, members d cs = some (x, r) → r.length < cs.length)
    (he : ∀ d cs x r, elements d cs = some (x, r) → r.length < cs.length)
    (d : Nat) (cs : List Char) (v : JValue) (r : List Char)
    (h : valueStep members elements d cs = some (v, r)) : r.length < cs.length := by
  unfold valueStep at h
  split at h
  · rename_i rest
    split at h
    · exact absurd h (by simp)
    · split at h
      · rename_i r0 hsk
        simp only [Option.some.injEq, Prod.mk.injEq] at h
        have := length_of_skipWS_cons _ _ _ hsk
        rw [← h.2]; simp only [List.length_cons]; omega
      · split at h
        · exact absurd h (by simp)
        · rename_i kvs r1 hmem
          simp only [Option.some.injEq, Prod.mk.injEq] at h
          have h1 := hm _ _ _ _ hmem
          have h2 := skipWS_length_le rest
          rw [← h.2]; simp only [List.length_cons]; omega
  · rename_i rest
    split at h
    · exact absurd h (by simp)
    · split at h
      · rename_i r0 hsk
        simp only [Option.some.injEq, Prod.mk.injEq] at h
        have := length_of_skipWS_cons _ _ _ hsk
        rw [← h.2]; simp only [List.length_cons]; omega
      · split at h
        · exact absurd h (by simp)
        · rename_i xs r1 hel
          simp only [Option.some.injEq, Prod.mk.injEq] at h
          have h1 := he _ _ _ _ hel
          have h2 := skipWS_length_le rest
          rw [← h.2]; simp only [List.length_cons]; omega
  · rename_i rest
    split at h
    · exact absurd h (by simp)
    · rename_i raw r0 hs
      simp only [Option.some.injEq, Prod.mk.injEq] at h
      have := scanString_length _ _ _ hs
      rw [← h.2]; simp only [List.length_cons]; omega
  · split at h
    · rename_i r0 _ _ hd
      simp only [Option.some.injEq, Prod.mk.injEq] at h
      rw [← h.2]; exact dropLiteral_length _ _ _ (by decide) hd
    · rename_i r0 _ _ hd
      simp only [Option.some.injEq, Prod.mk.injEq] at h
      rw [← h.2]; exact dropLiteral_length _ _ _ (by decide) hd
    · rename_i r0 _ _ hd
      simp only [Option.some.injEq, Prod.mk.injEq] at h
      rw [← h.2]; exact dropLiteral_length _ _ _ (by decide) hd
    · split at h
      · exact absurd h (by simp)
      · rename_i n r0 hn
        simp only [Option.some.injEq, Prod.mk.injEq] at h
        rw [← h.2]; exact scanNumber_length _ _ _ hn

theorem membersStep_length
    (value : Nat → List Char → Option (JValue × List Char))
    (members : Nat → List Char → Option (List (String × JValue) × List Char))
    (hv : ∀ d cs x r, value d cs = some (x, r) → r.length < cs.length)
    (hm : ∀ d cs x r, members d cs = some (x, r) → r.length < cs.length)
    (d : Nat) (cs : List Char) (kvs : List (String × JValue)) (r : List Char)
    (h : membersStep value members d cs = some (kvs, r)) : r.length < cs.length := by
  unfold membersStep at h
  split at h
  · rename_i rest
    split at h
    · exact absurd h (by simp)
    · rename_i raw r1 hs
      have l1 := scanString_length _ _ _ hs
      split at h
      · rename_i r2 hc
        have l2 := length_of_skipWS_cons _ _ _ hc
        split at h
        · exact absurd h (by simp)
        · rename_i v r3 hval
          have l3 := hv _ _ _ _ hval
          have l3' := skipWS_length_le r2
          split at h
          · rename_i r4 hcomma
            have l4 := length_of_skipWS_cons _ _ _ hcomma
            split at h
            · exact absurd h (by simp)
            · rename_i kvs1 r5 hrest
              have l5 := hm _ _ _ _ hrest
              have l5' := skipWS_length_le r4
              simp only [Option.some.injEq, Prod.mk.injEq] at h
              rw [← h.2]; simp only [List.length_cons]; omega
          · rename_i r4 hclose
            have l4 := length_of_skipWS_cons _ _ _ hclose
            simp only [Option.some.injEq, Prod.mk.injEq] at h
            rw [← h.2]; simp only [List.length_cons]; omega
          · exact absurd h (by simp)
      · exact absurd h (by simp)
  · exact absurd h (by simp)

theorem elementsStep_length
    (value : Nat → List Char → Option (JValue × List Char))
    (elements : Nat → List Char → Option (List JValue × List Char))
    (hv : ∀ d cs x r, value d cs = some (x, r) → r.length < cs.length)
    (he : ∀ d cs x r, elements d cs = some (x, r) → r.length < cs.length)
    (d : Nat) (cs : List Char) (xs : List JValue) (r : List Char)
    (h : elementsStep value elements d cs = some (xs, r)) : r.length < cs.length := by
  unfold elementsStep at h
  split at h
  · exact absurd h (by simp)
  · rename_i v r1 hval
    have l1 := hv _ _ _ _ hval
    split at h
    · rename_i r2 hcomma
      have l2 := length_of_skipWS_cons _ _ _ hcomma
      split at h
      · exact absurd h (by simp)
      · rename_i xs1 r3 hrest
        have l3 := he _ _ _ _ hrest
        have l3' := skipWS_length_le r2
        simp only [Option.some.injEq, Prod.mk.injEq] at h
        rw [← h.2]; omega
    · rename_i r2 hclose
      have l2 := length_of_skipWS_cons _ _ _ hclose
      simp only [Option.some.injEq, Prod.mk.injEq] at h
      rw [← h.2]; omega
    · exact absurd h (by simp)

/-- Every successful parse consumes at least one character. -/
theorem parse_length (f : Nat) :
    (∀ d cs x r, parseValue f d cs = some (x, r) → r.length < cs.length) ∧
    (∀ d cs x r, parseMembers f d cs = some (x, r) → r.length < cs.length) ∧
    (∀ d cs x r, parseElements f d cs = some (x, r) → r.length < cs.length) := by
  induction f with
  | zero =>
    refine ⟨?_, ?_, ?_⟩ <;> intro d cs x r h
    · simp [parseValue] at h
    · simp [parseMembers] at h
    · simp [parseElements] at h
  | succ f ih =>
    obtain ⟨ihv, ihm, ihe⟩ := ih
    refine ⟨?_, ?_, ?_⟩ <;> intro d cs x r h
    · rw [parseValue] at h
      exact valueStep_length _ _ ihm ihe d cs x r h
    · rw [parseMembers] at h
      exact membersStep_length _ _ ihv ihm d cs x r h
    · rw [parseElements] at h
      exact elementsStep_length _ _ ihv ihe d cs x r h

theorem valueStep_ext
    (members members' : Nat → List Char → Option (List (String × JValue) × List Char))
    (elements elements' : Nat → List Char → Option (List JValue × List Char))
    (d : Nat) (cs : List Char) (res : JValue × List Char)
    (hm : ∀ d x r, x.length < cs.length → members d x = some r → members' d x = some r)
    (he : ∀ d x r, x.length < cs.length → elements d x = some r → elements' d x = some r)
    (h : valueStep members elements d cs = some res) :
    valueStep members' elements' d cs = some res := by
  unfold valueStep at h
  split at h
  · rename_i rest
    split at h
    · exact absurd h (by simp)
    · rename_i hdepth
      split at h
      · rename_i r0 hsk
        simp only [valueStep, hdepth, if_false, hsk]
        exact h
      · rename_i r0 hne
        split at h
        · exact absurd h (by simp)
        · rename_i kvs r1 hmem
          have hlen : (skipWS rest).length < ('{' :: rest).length := by
            have := skipWS_length_le rest
            simp only [List.length_cons]; omega
          have hmem' := hm _ _ _ hlen hmem
          simp only [valueStep, hdepth, if_false, hmem']
          exact h
  · rename_i rest
    split at h
    · exact absurd h (by simp)
    · rename_i hdepth
      split at h
      · rename_i r0 hsk
        simp only [valueStep, hdepth, if_false, hsk]
        exact h
      · rename_i r0 hne
        split at h
        · exact absurd h (by simp)
        · rename_i xs r1 hel
          have hlen : (skipWS rest).length < ('[' :: rest).length := by
            have := skipWS_length_le rest
            simp only [List.length_cons]; omega
          have hel' := he _ _ _ hlen hel
          simp only [valueStep, hdepth, if_false, hel']
          exact h
  · rename_i rest
    simp only [valueStep]
    exact h
  · rename_i h1 h2 h3
    unfold valueStep
    split
    · rename_i rest; exact absurd rfl (h1 rest)
    · rename_i rest; exact absurd rfl (h2 rest)
    · rename_i rest; exact absurd rfl (h3 rest)
    · exact h

theorem membersStep_ext
    (value value' : Nat → List Char → Option (JValue × List Char))
    (members members' : Nat → List Char → Option (List (String × JValue) × List Char))
    (d : Nat) (cs : List Char) (res : List (String × JValue) × List Char)
    (hlv : ∀ d cs x r, value d cs = some (x, r) → r.length < cs.length)
    (hv : ∀ d x r, x.length < cs.length → value d x = some r → value' d x = some r)
    (hm : ∀ d x r, x.length < cs.length → members d x = some r → members' d x = some r)
    (h : membersStep value members d cs = some res) :
    membersStep value' members' d cs = some res := by
  unfold membersStep at h
  split at h
  · rename_i rest
    split at h
    · exact absurd h (by simp)
    · rename_i raw r1 hs
      have l1 := scanString_length _ _ _ hs
      split at h
      · rename_i r2 hc
        have l2 := length_of_skipWS_cons _ _ _ hc
        have l2' := skipWS_length_le r2
        split at h
        · exact absurd h (by simp)
        · rename_i v r3 hval
          have l3 := hlv _ _ _ _ hval
          have hval' := hv _ _ _ (by simp only [List.length_cons]; omega) hval
          split at h
          · rename_i r4 hcomma
            have l4 := length_of_skipWS_cons _ _ _ hcomma
            have l4' := skipWS_length_le r4
            split at h
            · exact absurd h (by simp)
            · rename_i kvs1 r5 hrest
              have hrest' := hm _ _ _ (by simp only [List.length_cons]; omega) hrest
              simp only [membersStep, hs, hc, hval', hcomma, hrest']
              exact h
          · rename_i r4 hclose
            simp only [membersStep, hs, hc, hval', hclose]
            exact h
          · exact absurd h (by simp)
      · exact absurd h (by simp)
  · exact absurd h (by simp)

theorem elementsStep_ext
    (value value' : Nat → List Char → Option (JValue × List Char))
    (elements elements' : Nat → List Char → Option (List JValue × List Char))
    (d : Nat) (cs : List Char) (res : List JValue × List Char)
    (hlv : ∀ d cs x r, value d cs = some (x, r) → r.length < cs.length)
    (hv : ∀ d x r, x.length ≤ cs.length → value d x = some r → value' d x = some r)
    (he : ∀ d x r, x.length + 1 < cs.length → elements d x = some r → elements' d x = some r)
    (h : elementsStep value elements d cs = some res) :
    elementsStep value' elements' d cs = some res := by
  unfold elementsStep at h
  split at h
  · exact absurd h (by simp)
  · rename_i v r1 hval
    have l1 := hlv _ _ _ _ hval
    have hval' := hv _ _ _ (Nat.le_refl _) hval
    split at h
    · rename_i r2 hcomma
      have l2 := length_of_skipWS_cons _ _ _ hcomma
      have l2' := skipWS_length_le r2
      split at h
      · exact absurd h (by simp)
      · rename_i xs1 r3 hrest
        have hrest' := he _ _ _ (by omega) hrest
        simp only [elementsStep, hval', hcomma, hrest']
        exact h
    · rename_i r2 hclose
      simp only [elementsStep, hval', hclose]
      exact h
    · exact absurd h (by simp)

/-- A parse that succeeds with some fuel succeeds, with the same result, with
any fuel of at least twice the input length plus one (plus two for members and
elements). -/
theorem parse_fuel (n : Nat) :
    (∀ f d cs r, 2 * cs.length + 1 ≤ n → parseValue f d cs = some r →
      parseValue n d cs = some r) ∧
    (∀ f d cs r, 2 * cs.length + 2 ≤ n → parseMembers f d cs = some r →
      parseMembers n d cs = some r) ∧
    (∀ f d cs r, 2 * cs.length + 2 ≤ n → parseElements f d cs = some r →
      parseElements n d cs = some r) := by
  induction n with
  | zero =>
    refine ⟨?_, ?_, ?_⟩ <;> intro f d cs r hn h <;> omega
  | succ n ih =>
    obtain ⟨ihv, ihm, ihe⟩ := ih
    refine ⟨?_, ?_, ?_⟩ <;> intro f d cs r hn h
    · cases f with
      | zero => simp [parseValue] at h
      | succ f =>
        rw [parseValue] at h ⊢
        exact valueStep_ext _ _ _ _ d cs r
          (fun d x r hx hp => ihm f d x r (by omega) hp)
          (fun d x r hx hp => ihe f d x r (by omega) hp) h
    · cases f with
      | zero => simp [parseMembers] at h
      | succ f =>
        rw [parseMembers] at h ⊢
        exact membersStep_ext _ _ _ _ d cs r (parse_length f).1
          (fun d x r hx hp => ihv f d x r (by omega) hp)
          (fun d x r hx hp => ihm f d x r (by omega) hp) h
    · cases f with
      | zero => simp [parseElements] at h
      | succ f =>
        rw [parseElements] at h ⊢
        exact elementsStep_ext _ _ _ _ d cs r (parse_length f).1
          (fun d x r hx hp => ihv f d x r (by omega) hp)
          (fun d x r hx hp => ihe f d x r (by omega) hp) h

/-- The fuel `parseJSON` gives the parser is enough: whatever some fuel parses
from the body, `parseJSON` parses. -/
theorem parseValue_fuel (body : String) (f : Nat) (v : JValue) (rest : List Char)
    (h : parseValue f 0 (skipWS body.toList) = some (v, rest)) (hrest : skipWS rest = []) :
    parseJSON body = some v := by
  have hlen : 2 * (skipWS body.toList).length + 1 ≤ 2 * body.length + 2 := by
    have := skipWS_length_le body.toList
    simp only [String.toList, String.length] at this ⊢
    omega
  have := (parse_fuel (2 * body.length + 2)).1 f 0 _ _ hlen h
  unfold parseJSON
  rw [this]
  simp only [hrest]

/-! ## Lemmas on strings and on the report -/

theorem containsChars_iff (sub s : List Char) : containsChars sub s = true ↔ sub <:+: s := by
  induction s with
  | nil => simp [containsChars]
  | cons c cs ih =>
    simp only [containsChars, Bool.or_eq_true, ih, List.infix_cons_iff, List.isPrefixOf_iff_prefix]

theorem stringsContains_iff (s sub : String) :
    stringsContains s sub = true ↔ sub.toList <:+: s.toList := by
  simp [stringsContains, containsChars_iff]

theorem toList_append (a b : String) : (a ++ b).toList = a.toList ++ b.toList := by
  simp [String.toList]

/-- An occurrence of `p ++ tl` inside `a ++ tl` lies so far left that `p` occurs in `a`. -/
theorem infix_of_infix_append_same (p a tl : List Char) (h : p ++ tl <:+: a ++ tl) :
    p <:+: a := by
  obtain ⟨s, t, hst⟩ := h
  have hlen : s.length + p.length + t.length = a.length := by
    have := congrArg List.length hst
    simp only [List.length_append] at this
    omega
  have h1 : (s ++ p) ++ (tl ++ t) = a ++ tl := by
    rw [← hst]; simp [List.append_assoc]
  have h2 : s ++ p <+: a := by
    have hp1 : s ++ p <+: a ++ tl := ⟨tl ++ t, h1⟩
    have hp2 : a <+: a ++ tl := List.prefix_append _ _
    exact List.prefix_of_prefix_length_le hp1 hp2 (by simp only [List.length_append]; omega)
  exact (List.suffix_append s p).isInfix.trans h2.isInfix

/-- The report is the status sections, the connection header and the command
lines of the services that are enabled and reachable. -/
theorem statusReport_eq (c : AX5400ProClient) (st : ShellStatusResult) :
    statusReport c st =
      statusSections st ++ "\n连接信息:\n" ++
        (if st.SSHEnabled && st.SSHPortOpen then sshCommandLine c else "") ++
        (if st.TelnetEnabled && st.TelnetPortOpen then telnetCommandLine c else "") := by
  obtain ⟨e1, e2, p1, p2⟩ := st
  apply String.ext
  cases e1 <;> cases e2 <;> cases p1 <;> cases p2 <;>
    simp [statusReport, statusSections, sshVerdictLine, telnetVerdictLine, sshVerdictText,
      telnetVerdictText, verdictOf, sshCommandLine, telnetCommandLine, fmtBool,
      String.data_append, List.append_assoc]

theorem sshCommandLine_toList (c : AX5400ProClient) :
    (sshCommandLine c).toList = sshLineHead ++ (c.Host.toList ++ ['\n']) := by
  simp [sshCommandLine, AX5400ProClient.GetSSHCommand, sshLineHead, String.toList, String.data_append]

theorem telnetCommandLine_toList (c : AX5400ProClient) :
    (telnetCommandLine c).toList = telnetLineHead ++ (c.Host.toList ++ ['\n']) := by
  simp [telnetCommandLine, AX5400ProClient.GetTelnetCommand, telnetLineHead, String.toList,
    String.data_append]

theorem sshLineHead_not_in_fixed (st : ShellStatusResult) :
    ¬ sshLineHead <:+: (statusSections st ++ "\n连接信息:\n").toList ++ telnetLineHead := by
  rw [← containsChars_iff]
  obtain ⟨e1, e2, p1, p2⟩ := st
  cases e1 <;> cases e2 <;> cases p1 <;> cases p2 <;> decide!

theorem telnetLineHead_not_in_fixed (st : ShellStatusResult) :
    ¬ telnetLineHead <:+: (statusSections st ++ "\n连接信息:\n").toList ++ sshLineHead := by
  rw [← containsChars_iff]
  obtain ⟨e1, e2, p1, p2⟩ := st
  cases e1 <;> cases e2 <;> cases p1 <;> cases p2 <;> decide!

/-- A command line cannot occur in a report that lacks it: the report is fixed
text possibly followed by the other service's line, which ends in the same host
and newline. -/
theorem line_not_infix (head other fixed tl : List Char) (flag : Bool)
    (h : ¬ head <:+: fixed ++ other) :
    ¬ head ++ tl <:+: fixed ++ (if flag then other ++ tl else []) := by
  intro hin
  apply h
  cases flag with
  | true =>
    simp only [if_true] at hin
    apply infix_of_infix_append_same _ _ tl
    simpa [List.append_assoc] using hin
  | false =>
    simp only [Bool.false_eq_true, if_false, List.append_nil] at hin
    have h0 : head <:+: head ++ tl := (List.prefix_append _ _).isInfix
    exact (h0.trans hin).trans (List.prefix_append _ _).isInfix

theorem statusReport_contains_ssh_line (c : AX5400ProClient) (st : ShellStatusResult) :
    stringsContains (statusReport c st) (sshCommandLine c) = (st.SSHEnabled && st.SSHPortOpen) := by
  rw [statusReport_eq]
  by_cases hs : (st.SSHEnabled && st.SSHPortOpen) = true
  · rw [hs, stringsContains_iff]
    simp only [if_true, toList_append]
    exact ⟨_, _, rfl⟩
  · have hs' : (st.SSHEnabled && st.SSHPortOpen) = false := by simpa using hs
    rw [hs']
    simp only [Bool.false_eq_true, if_false]
    rw [Bool.eq_false_iff, Ne, stringsContains_iff, sshCommandLine_toList]
    have key := line_not_infix sshLineHead telnetLineHead _ (c.Host.toList ++ ['\n'])
      (st.TelnetEnabled && st.TelnetPortOpen) (sshLineHead_not_in_fixed st)
    intro hin
    apply key
    cases ht : (st.TelnetEnabled && st.TelnetPortOpen) <;>
      simpa [ht, toList_append, telnetCommandLine_toList, List.append_assoc, String.toList]
        using hin

theorem statusReport_contains_telnet_line (c : AX5400ProClient) (st : ShellStatusResult) :
    stringsContains (statusReport c st) (telnetCommandLine c) =
      (st.TelnetEnabled && st.TelnetPortOpen) := by
  rw [statusReport_eq]
  by_cases ht : (st.TelnetEnabled && st.TelnetPortOpen) = true
  · rw [ht, stringsContains_iff]
    simp only [if_true]
    rw [toList_append]
    exact (List.suffix_append _ _).isInfix
  · have ht' : (st.TelnetEnabled && st.TelnetPortOpen) = false := by simpa using ht
    rw [ht']
    simp only [Bool.false_eq_true, if_false]
    rw [Bool.eq_false_iff, Ne, stringsContains_iff, telnetCommandLine_toList]
    have key := line_not_infix telnetLineHead sshLineHead _ (c.Host.toList ++ ['\n'])
      (st.SSHEnabled && st.SSHPortOpen) (telnetLineHead_not_in_fixed st)
    intro hin
    apply key
    cases hs : (st.SSHEnabled && st.SSHPortOpen) <;>
      simpa [hs, toList_append, sshCommandLine_toList, List.append_assoc, String.toList]
        using hin

theorem statusSections_ssh_verdict (st : ShellStatusResult) (v : Verdict) :
    stringsContains (statusSections st) (sshVerdictText v) = true ↔
      v = verdictOf st.SSHEnabled st.SSHPortOpen := by
  obtain ⟨e1, e2, p1, p2⟩ := st
  cases e1 <;> cases e2 <;> cases p1 <;> cases p2 <;> cases v <;> decide!

theorem statusSections_telnet_verdict (st : ShellStatusResult) (v : Verdict) :
    stringsContains (statusSections st) (telnetVerdictText v) = true ↔
      v = verdictOf st.TelnetEnabled st.TelnetPortOpen := by
  obtain ⟨e1, e2, p1, p2⟩ := st
  cases e1 <;> cases e2 <;> cases p1 <;> cases p2 <;> cases v <;> decide!

theorem statusSections_lists_booleans (st : ShellStatusResult) :
    stringsContains (statusSections st)
      ("SSH状态:\n  - 配置中启用: " ++ fmtBool st.SSHEnabled ++ "\n  - 端口22开放: " ++
        fmtBool st.SSHPortOpen ++ "\n") = true ∧
    stringsContains (statusSections st)
      ("Telnet状态:\n  - 配置中启用: " ++ fmtBool st.TelnetEnabled ++ "\n  - 端口23开放: " ++
        fmtBool st.TelnetPortOpen ++ "\n") = true := by
  obtain ⟨e1, e2, p1, p2⟩ := st
  cases e1 <;> cases e2 <;> cases p1 <;> cases p2 <;> decide!

/-! ## Status fusion -/

/-- C1: for every fac_info body and every pair of port probe results,
`CheckShellStatus` returns no error and its overall boolean equals
`(sshEnabled && sshPortOpen) || (telnetEnabled && telnetPortOpen)`, the enabled
flags being those `checkAPIStatus` produces; hence it is false whenever both
ports are closed and whenever both flags are false; and each of the 16
combinations of the four booleans is produced by some body and probe results,
with the overall boolean given by the same formula. -/
theorem checkShellStatus_overall_truth_table :
    (∀ (c : AX5400ProClient) (body : String) (port22 port23 : Bool),
      (c.CheckShellStatus (Except.ok body) port22 port23).err = none ∧
      (c.CheckShellStatus (Except.ok body) port22 port23).overall =
        (((checkAPIStatus body ShellStatusResult.initial).SSHEnabled && port22) ||
          ((checkAPIStatus body ShellStatusResult.initial).TelnetEnabled && port23)) ∧
      ((c.CheckShellStatus (Except.ok body) port22 port23).overall &&
        !(port22 || port23)) = false ∧
      ((c.CheckShellStatus (Except.ok body) port22 port23).overall &&
        !((checkAPIStatus body ShellStatusResult.initial).SSHEnabled ||
          (checkAPIStatus body ShellStatusResult.initial).TelnetEnabled)) = false) ∧
    (∀ (c : AX5400ProClient) (sshEnabled sshPortOpen telnetEnabled telnetPortOpen : Bool),
      ∃ body : String,
        (checkAPIStatus body ShellStatusResult.initial).SSHEnabled = sshEnabled ∧
        (checkAPIStatus body ShellStatusResult.initial).TelnetEnabled = telnetEnabled ∧
        (c.CheckShellStatus (Except.ok body) sshPortOpen telnetPortOpen).overall =
          ((sshEnabled && sshPortOpen) || (telnetEnabled && telnetPortOpen))) := by
  constructor
  · intro c body p22 p23
    have hov : (c.CheckShellStatus (Except.ok body) p22 p23).overall =
        (((checkAPIStatus body ShellStatusResult.initial).SSHEnabled && p22) ||
          ((checkAPIStatus body ShellStatusResult.initial).TelnetEnabled && p23)) := rfl
    refine ⟨rfl, hov, ?_, ?_⟩
    · rw [hov]
      cases (checkAPIStatus body ShellStatusResult.initial).SSHEnabled <;>
        cases (checkAPIStatus body ShellStatusResult.initial).TelnetEnabled <;>
        cases p22 <;> cases p23 <;> rfl
    · rw [hov]
      cases (checkAPIStatus body ShellStatusResult.initial).SSHEnabled <;>
        cases (checkAPIStatus body ShellStatusResult.initial).TelnetEnabled <;>
        cases p22 <;> cases p23 <;> rfl
  · intro c e1 p1 e2 p2
    have h : ∀ a b : Bool, ∃ body : String,
        (checkAPIStatus body ShellStatusResult.initial).SSHEnabled = a ∧
        (checkAPIStatus body ShellStatusResult.initial).TelnetEnabled = b := by
      intro a b
      cases a <;> cases b
      · exact ⟨"\x7b\"ssh\":false,\"telnet\":false\x7d", by decide!⟩
      · exact ⟨"\x7b\"ssh\":false,\"telnet\":true\x7d", by decide!⟩
      · exact ⟨"\x7b\"ssh\":true,\"telnet\":false\x7d", by decide!⟩
      · exact ⟨"\x7b\"ssh\":true,\"telnet\":true\x7d", by decide!⟩
    obtain ⟨body, h1, h2⟩ := h e1 e2
    refine ⟨body, h1, h2, ?_⟩
    show ((checkAPIStatus body ShellStatusResult.initial).SSHEnabled && p1 ||
      (checkAPIStatus body ShellStatusResult.initial).TelnetEnabled && p2) = _
    rw [h1, h2]

/-- C2: the report of `CheckShellStatus` is `statusReport` of the four status
booleans; for every combination of them (and every host) it consists of the
status sections, the connection header and the command lines of exactly the
services that are enabled and reachable; the status sections list the four
booleans and carry, for each service, the verdict line chosen by
`(enabled, portOpen)` and none of the other three; the whole report contains
the SSH (Telnet) command line if and only if that service is enabled and its
port open.  Scenario: body `{"ssh":true,"telnet":false}`, port 22 open and port
23 closed give overall true, SSH fully enabled, Telnet disabled. -/
theorem checkShellStatus_report :
    (∀ (c : AX5400ProClient) (body : String) (port22 port23 : Bool),
      (c.CheckShellStatus (Except.ok body) port22 port23).details =
        statusReport c
          { SSHEnabled := (checkAPIStatus body ShellStatusResult.initial).SSHEnabled,
            TelnetEnabled := (checkAPIStatus body ShellStatusResult.initial).TelnetEnabled,
            SSHPortOpen := port22, TelnetPortOpen := port23 }) ∧
    (∀ (c : AX5400ProClient) (st : ShellStatusResult),
      statusReport c st =
        statusSections st ++ "\n连接信息:\n" ++
          (if st.SSHEnabled && st.SSHPortOpen then sshCommandLine c else "") ++
          (if st.TelnetEnabled && st.TelnetPortOpen then telnetCommandLine c else "") ∧
      stringsContains (statusSections st)
        ("SSH状态:\n  - 配置中启用: " ++ fmtBool st.SSHEnabled ++ "\n  - 端口22开放: " ++
          fmtBool st.SSHPortOpen ++ "\n") = true ∧
      stringsContains (statusSections st)
        ("Telnet状态:\n  - 配置中启用: " ++ fmtBool st.TelnetEnabled ++ "\n  - 端口23开放: " ++
          fmtBool st.TelnetPortOpen ++ "\n") = true ∧
      (∀ v : Verdict, stringsContains (statusSections st) (sshVerdictText v) = true ↔
        v = verdictOf st.SSHEnabled st.SSHPortOpen) ∧
      (∀ v : Verdict, stringsContains (statusSections st) (telnetVerdictText v) = true ↔
        v = verdictOf st.TelnetEnabled st.TelnetPortOpen) ∧
      stringsContains (statusReport c st) (sshCommandLine c) =
        (st.SSHEnabled && st.SSHPortOpen) ∧
      stringsContains (statusReport c st) (telnetCommandLine c) =
        (st.TelnetEnabled && st.TelnetPortOpen)) ∧
    (NewAX5400ProClient "192.168.31.1" "tok123").CheckShellStatus
        (Except.ok "\x7b\"ssh\":true,\"telnet\":false\x7d") true false =
      { overall := true,
        details := "SSH状态:\n  - 配置中启用: true\n  - 端口22开放: true\n" ++
          "  - 总体状态: SSH已成功启用并且可以访问\n" ++
          "\nTelnet状态:\n  - 配置中启用: false\n  - 端口23开放: false\n" ++
          "  - 总体状态: Telnet未启用\n" ++
          "\n连接信息:\n  - SSH连接命令: ssh -o HostKeyAlgorithms=+ssh-rsa " ++
          "-o PubkeyAcceptedKeyTypes=+ssh-rsa root@192.168.31.1\n",
        err := none } := by
  refine ⟨fun c body p22 p23 => rfl, fun c st => ?_, by decide!⟩
  exact ⟨statusReport_eq c st, (statusSections_lists_booleans st).1,
    (statusSections_lists_booleans st).2, statusSections_ssh_verdict st,
    statusSections_telnet_verdict st, statusReport_contains_ssh_line c st,
    statusReport_contains_telnet_line c st⟩

/-! ## `checkAPIStatus` -/

theorem chunksOf_flatten (k fuel : Nat) (xs : List Nat) (h : xs.length ≤ (k + 1) * fuel) :
    (chunksOf k fuel xs).flatten = xs := by
  induction fuel generalizing xs with
  | zero =>
    have : xs = [] := List.length_eq_zero.mp (by omega)
    simp [chunksOf, this]
  | succ fuel ih =>
    unfold chunksOf
    split
    · rename_i he
      simp only [List.isEmpty_iff] at he
      simp [he]
    · have hd : (xs.drop (k + 1)).length ≤ (k + 1) * fuel := by
        rw [List.length_drop, Nat.mul_succ] at *
        omega
      rw [List.flatten_cons, ih _ hd, List.take_append_drop]

theorem padMessage_length (lenBytes : Nat → List Nat) (msg : List Nat)
    (h : ∀ n, (lenBytes n).length = 8) : (padMessage lenBytes msg).length % 64 = 0 := by
  simp only [padMessage, List.length_append, List.length_cons, List.length_replicate, h]
  omega

/-- The block loop of the digests visits the whole padded message: cutting it
into `length / 64` blocks of 64 bytes loses nothing. -/
theorem padMessage_blocks (lenBytes : Nat → List Nat) (msg : List Nat)
    (h : ∀ n, (lenBytes n).length = 8) :
    (chunksOf 63 ((padMessage lenBytes msg).length / 64) (padMessage lenBytes msg)).flatten =
      padMessage lenBytes msg := by
  apply chunksOf_flatten
  have := padMessage_length lenBytes msg h
  omega

/-- Standard test vectors of the three digests (RFC 1321, FIPS 180). -/
theorem digest_test_vectors :
    hexEncode (md5Sum (stringBytes "")) = "d41d8cd98f00b204e9800998ecf8427e" ∧
    hexEncode (md5Sum (stringBytes "abc")) = "900150983cd24fb0d6963f7d28e17f72" ∧
    hexEncode (md5Sum (stringBytes
      "12345678901234567890123456789012345678901234567890123456789012345678901234567890")) =
      "57edf4a22be3c955ac49da2e2107b67a" ∧
    sha1Sum "abc" = "a9993e364706816aba3e25717850c26c9cd0d89d" ∧
    sha1Sum "abcdbcdecdefdefgefghfghighijhijkijkljklmklmnlmnomnopnopq" =
      "84983e441c3bd26ebaae4aa1f95129e5e54670f1" ∧
    sha256Sum "abc" = "ba7816bf8f01cfea414140de5dae2223b00361a396177a9cb410ff61f20015ad" ∧
    sha256Sum "abcdbcdecdefdefgefghfghighijhijkijkljklmklmnlmnomnopnopq" =
      "248d6a61d20638b8e5c026930c3e6039a33ce45964ff2167f6ecedd419db06c1" := by
  decide!

theorem leBytes_length (k n : Nat) : (leBytes k n).length = k := by
  induction k generalizing n with
  | zero => rfl
  | succ k ih => simp [leBytes, ih]

theorem beBytes_length (k n : Nat) : (beBytes k n).length = k := by
  simp [beBytes, leBytes_length]

theorem md5Sum_length (data : List Nat) : (md5Sum data).length = 16 := by
  simp [md5Sum, leBytes_length]

theorem sha1Digest_length (data : List Nat) : (sha1Digest data).length = 20 := by
  simp [sha1Digest, beBytes_length]

theorem sha256Digest_length (data : List Nat) : (sha256Digest data).length = 32 := by
  simp [sha256Digest, beBytes_length]

theorem hexDigit_isLowerHex (n : Nat) (h : n < 16) : isLowerHex (hexDigit n) = true := by
  interval_cases n <;> decide

theorem hexEncode_toList_length (bs : List Nat) :
    (hexEncode bs).toList.length = 2 * bs.length := by
  simp only [hexEncode, String.toList]
  induction bs with
  | nil => rfl
  | cons b bs ih => simp only [List.flatMap_cons, List.length_append, ih, List.length_cons,
      List.length_nil]; omega

theorem hexEncode_all_isLowerHex (bs : List Nat) :
    ∀ c ∈ (hexEncode bs).toList, isLowerHex c = true := by
  simp only [hexEncode, String.toList]
  induction bs with
  | nil => simp
  | cons b bs ih =>
    intro c hc
    simp only [List.flatMap_cons, List.mem_append, List.mem_cons, List.mem_singleton,
      List.not_mem_nil, or_false] at hc
    rcases hc with (rfl | rfl) | hc
    · exact hexDigit_isLowerHex _ (Nat.mod_lt _ (by norm_num))
    · exact hexDigit_isLowerHex _ (Nat.mod_lt _ (by norm_num))
    · exact ih c hc

theorem containsChars_singleton (c : Char) (s : List Char) :
    containsChars [c] s = true ↔ c ∈ s := by
  rw [containsChars_iff]
  constructor
  · intro h
    exact h.subset (List.mem_singleton_self c)
  · intro h
    obtain ⟨a, b, rfl⟩ := List.append_of_mem h
    exact ⟨a, b, by simp⟩

theorem getSalt_eq_referenceSalt (sn : String) : getSalt sn = referenceSalt sn := by
  have hswap : swapSalt (salt "others") = "6d2df50a-250f-4a30-a5e6-d44fb0960aa0" := by decide!
  have hr1d : salt "r1d" = "A2E371B0-B34B-48A5-8C40-A7133F3B5D88" := by decide!
  have hc : stringsContains sn "/" = true ↔ '/' ∈ sn.toList := by
    show containsChars ['/'] sn.toList = true ↔ _
    exact containsChars_singleton _ _
  unfold getSalt referenceSalt
  by_cases h : '/' ∈ sn.toList
  · rw [if_pos h, hc.mpr h]
    simp only [Bool.not_true, Bool.false_eq_true, if_false]
    exact hswap
  · have h' : stringsContains sn "/" = false := by
      rw [Bool.eq_false_iff, Ne, hc]; exact h
    rw [if_neg h, h']
    simp only [Bool.not_false, if_true]
    exact hr1d

/-- C6: `CalculateSSHPassword` equals its reference definition for every
serial number: the empty string for the empty serial number, otherwise the
first 8 characters of the lowercase hex MD5 digest of the serial number
followed by the salt (the "r1d" salt verbatim when the serial number has no
slash, otherwise the "others" salt with its dash-delimited segments in reverse
order).  Hence the result is empty if and only if the serial number is empty,
and otherwise it is exactly 8 characters from `0-9a-f`.  Two golden values are
evaluated. -/
theorem calculateSSHPassword_reference :
    (∀ sn : String,
      CalculateSSHPassword sn = referencePassword sn ∧
      (CalculateSSHPassword sn = "" ↔ sn = "") ∧
      (sn = "" ∨ ((CalculateSSHPassword sn).toList.length = 8 ∧
        ∀ c ∈ (CalculateSSHPassword sn).toList, isLowerHex c = true))) ∧
    swapSalt "d44fb0960aa0-a5e6-4a30-250f-6d2df50a" = "6d2df50a-250f-4a30-a5e6-d44fb0960aa0" ∧
    CalculateSSHPassword "12345/ABCDE" = "af9f0035" ∧
    CalculateSSHPassword "12345ABCDE" = "a1ff264d" := by
  refine ⟨fun sn => ?_, by decide!, by decide!, by decide!⟩
  have href : CalculateSSHPassword sn = referencePassword sn := by
    unfold CalculateSSHPassword referencePassword
    simp only [getSalt_eq_referenceSalt]
  have hlen : sn ≠ "" → (CalculateSSHPassword sn).toList.length = 8 := by
    intro hne
    unfold CalculateSSHPassword
    simp only [hne, if_false, String.toList, List.length_take]
    have := hexEncode_toList_length (md5Sum (stringBytes (sn ++ getSalt sn)))
    rw [md5Sum_length] at this
    simp only [String.toList] at this
    omega
  refine ⟨href, ⟨fun h => ?_, fun h => ?_⟩, ?_⟩
  · by_contra hne
    have := hlen hne
    rw [h] at this
    simp at this
  · simp [CalculateSSHPassword, h]
  · by_cases hne : sn = ""
    · exact Or.inl hne
    · refine Or.inr ⟨hlen hne, fun c hc => ?_⟩
      unfold CalculateSSHPassword at hc
      simp only [hne, if_false, String.toList] at hc
      exact hexEncode_all_isLowerHex _ c (List.mem_of_mem_take hc)

/-! ## Decimal numerals: `fmt` and `strconv` agree -/

/-- Value of decimal digits given least significant first. -/
theorem digitsRev_lt (fuel n : Nat) : ∀ d ∈ digitsRev fuel n, d < 10 := by
  induction fuel generalizing n with
  | zero => simp [digitsRev]
  | succ fuel ih =>
    intro d hd
    unfold digitsRev at hd
    split at hd
    · simp only [List.mem_singleton] at hd; omega
    · simp only [List.mem_cons] at hd
      rcases hd with rfl | hd
      · exact Nat.mod_lt _ (by norm_num)
      · exact ih _ d hd

theorem digitsRev_ne_nil (fuel n : Nat) : digitsRev (fuel + 1) n ≠ [] := by
  unfold digitsRev
  split <;> simp

theorem digitsRev_value (fuel n : Nat) (h : n < 10 ^ fuel) :
    (digitsRev fuel n).foldr (fun d acc => d + 10 * acc) 0 = n := by
  induction fuel generalizing n with
  | zero => simp at h; simp [digitsRev, h]
  | succ fuel ih =>
    unfold digitsRev
    split
    · simp
    · have h2 : n / 10 < 10 ^ fuel := by
        apply Nat.div_lt_of_lt_mul
        rw [pow_succ] at h; omega
      simp only [List.foldr_cons, ih _ h2]
      omega

theorem digitChar_toNat (d : Nat) (h : d < 10) : (Char.ofNat (48 + d)).toNat = 48 + d := by
  interval_cases d <;> rfl

theorem digitChar_isDigit (d : Nat) (h : d < 10) : isDigit (Char.ofNat (48 + d)) = true := by
  interval_cases d <;> decide

theorem decimal_ne_nil (n : Nat) : decimal n ≠ [] := by
  simp [decimal, digitsRev_ne_nil]

theorem decimal_all_isDigit (n : Nat) : ∀ c ∈ decimal n, isDigit c = true := by
  intro c hc
  simp only [decimal, List.mem_map, List.mem_reverse] at hc
  obtain ⟨d, hd, rfl⟩ := hc
  exact digitChar_isDigit d (digitsRev_lt _ _ d hd)

theorem digitsToNat_map_reverse (ds : List Nat) (h : ∀ d ∈ ds, d < 10) :
    digitsToNat (ds.reverse.map fun d => Char.ofNat (48 + d)) =
      ds.foldr (fun d acc => d + 10 * acc) 0 := by
  unfold digitsToNat
  rw [List.foldl_map, List.foldl_reverse]
  induction ds with
  | nil => rfl
  | cons d ds ih =>
    have hd : d < 10 := h d (List.mem_cons_self _ _)
    have ih' := ih (fun x hx => h x (List.mem_cons_of_mem _ hx))
    simp only [List.foldr_cons] at ih' ⊢
    rw [ih', digitChar_toNat d hd]
    omega

/-- Reading a decimal numeral gives the number back. -/
theorem digitsToNat_decimal (n : Nat) : digitsToNat (decimal n) = n := by
  unfold decimal
  rw [digitsToNat_map_reverse _ (digitsRev_lt _ _)]
  apply digitsRev_value
  calc n < 10 ^ n := Nat.lt_pow_self (by norm_num) n
    _ ≤ 10 ^ (n + 1) := Nat.pow_le_pow_right (by norm_num) (Nat.le_succ n)

theorem isDigit_ne (c x : Char) (hc : isDigit c = true) (hx : isDigit x = false) : c ≠ x := by
  rintro rfl
  rw [hc] at hx
  exact Bool.noConfusion hx

theorem decimal_head (n : Nat) : ∃ c cs, decimal n = c :: cs ∧ isDigit c = true := by
  cases h : decimal n with
  | nil => exact absurd h (decimal_ne_nil n)
  | cons c cs => exact ⟨c, cs, rfl, decimal_all_isDigit n c (by rw [h]; exact List.mem_cons_self _ _)⟩

theorem all_isDigit_decimal (n : Nat) : (decimal n).all isDigit = true := by
  rw [List.all_eq_true]
  exact decimal_all_isDigit n

theorem hasMinus_digit (c : Char) (cs : List Char) (hc : isDigit c = true) :
    hasMinus (c :: cs) = false := by
  have hm : c ≠ '-' := isDigit_ne c '-' hc (by decide)
  unfold hasMinus
  split
  · rename_i h1; simp only [List.cons.injEq] at h1; exact absurd h1.1 hm
  · rfl

theorem dropSign_digit (c : Char) (cs : List Char) (hc : isDigit c = true) :
    dropSign (c :: cs) = c :: cs := by
  have hm : c ≠ '-' := isDigit_ne c '-' hc (by decide)
  have hp : c ≠ '+' := isDigit_ne c '+' hc (by decide)
  unfold dropSign
  split
  · rename_i h1; simp only [List.cons.injEq] at h1; exact absurd h1.1 hm
  · rename_i h1; simp only [List.cons.injEq] at h1; exact absurd h1.1 hp
  · rfl

/-- `strconv.Atoi` reads back what `%d` prints, for every 64-bit integer. -/
theorem Atoi_fmtInt (n : Int) (hlo : -2 ^ 63 ≤ n) (hhi : n < 2 ^ 63) :
    Atoi (fmtInt n) = some n := by
  cases n with
  | ofNat k =>
    obtain ⟨c, cs, hdec, hc⟩ := decimal_head k
    have hk : k < 2 ^ 63 := by
      have : (k : Int) < 2 ^ 63 := hhi
      exact_mod_cast this
    have hall := all_isDigit_decimal k
    have hv := digitsToNat_decimal k
    rw [hdec] at hall hv
    simp only [Atoi, fmtInt, String.toList, hdec, hasMinus_digit c cs hc, dropSign_digit c cs hc]
    simp [hall, hv]
    omega
  | negSucc k =>
    have hk : k + 1 ≤ 2 ^ 63 := by
      have : -(2 : Int) ^ 63 ≤ Int.negSucc k := hlo
      rw [Int.negSucc_eq] at this
      omega
    have hall := all_isDigit_decimal (k + 1)
    have hv := digitsToNat_decimal (k + 1)
    have hne := decimal_ne_nil (k + 1)
    simp only [Atoi, fmtInt, String.toList, hasMinus, dropSign]
    simp [hall, hv, hne, Int.negSucc_eq]
    omega

/-! ## Login handshake -/

/-- Counterexample for C7 as stated: at epoch second 1700000000 with random
draw 1234 the nonce is `0__1700000000_1234` (the `%s` field between the first
two underscores is filled with the empty string), not `0_1700000000_1234`. -/
theorem generateNonce_counterexample :
    generateNonce 1700000000 1234 = "0__1700000000_1234" ∧
    generateNonce 1700000000 1234 ≠ "0_" ++ fmtInt 1700000000 ++ "_" ++ fmtInt 1234 := by
  decide!

/-- C7, amended: for every epoch-seconds value `t ≥ 0` and every random draw
`0 ≤ r ≤ 9999` the nonce has the form `0_<empty>_<epoch-seconds>_<random>`: it
is exactly `"0__" ++ decimal(t) ++ "_" ++ decimal(r)`, where both numerals are
non-empty strings of decimal digits denoting `t` and `r`; that is, it matches
`0__<digits>_<0-9999>`. -/
theorem generateNonce_format (t r : Int) (ht : 0 ≤ t) (hr0 : 0 ≤ r) (hr : r ≤ 9999) :
    generateNonce t r =
      "0__" ++ String.mk (decimal t.toNat) ++ "_" ++ String.mk (decimal r.toNat) ∧
    (decimal t.toNat ≠ [] ∧ (∀ c ∈ decimal t.toNat, isDigit c = true) ∧
      digitsToNat (decimal t.toNat) = t.toNat) ∧
    (decimal r.toNat ≠ [] ∧ (∀ c ∈ decimal r.toNat, isDigit c = true) ∧
      digitsToNat (decimal r.toNat) = r.toNat ∧ r.toNat ≤ 9999) := by
  refine ⟨?_, ⟨decimal_ne_nil _, decimal_all_isDigit _, digitsToNat_decimal _⟩,
    ⟨decimal_ne_nil _, decimal_all_isDigit _, digitsToNat_decimal _, by omega⟩⟩
  obtain ⟨a, rfl⟩ := Int.eq_ofNat_of_zero_le ht
  obtain ⟨b, rfl⟩ := Int.eq_ofNat_of_zero_le hr0
  apply String.ext
  simp [generateNonce, fmtInt, String.data_append]

/-- Witness for the amended C7. -/
theorem generateNonce_format_witness :
    generateNonce 1700000000 1234 =
      "0__" ++ String.mk (decimal 1700000000) ++ "_" ++ String.mk (decimal 1234) :=
  (generateNonce_format 1700000000 1234 (by decide) (by decide) (by decide)).1

theorem sha1Sum_isLowerHex (x : String) :
    (sha1Sum x).toList.length = 40 ∧ ∀ c ∈ (sha1Sum x).toList, isLowerHex c = true := by
  refine ⟨?_, hexEncode_all_isLowerHex _⟩
  rw [sha1Sum, hexEncode_toList_length, sha1Digest_length]

theorem sha256Sum_isLowerHex (x : String) :
    (sha256Sum x).toList.length = 64 ∧ ∀ c ∈ (sha256Sum x).toList, isLowerHex c = true := by
  refine ⟨?_, hexEncode_all_isLowerHex _⟩
  rw [sha256Sum, hexEncode_toList_length, sha256Digest_length]

theorem buildLoginRequest_formData (routerIP password : String) (useSHA256 : Bool)
    (t r : Int) :
    (buildLoginRequest routerIP password useSHA256 t r).formData =
      [("username", "admin"),
       ("password",
          if useSHA256 then encryptPasswordSHA256 password (generateNonce t r)
          else encryptPasswordSHA1 password (generateNonce t r)),
       ("logtype", "2"),
       ("nonce", generateNonce t r)] := by
  simp [buildLoginRequest, valuesSet]

/-- C8: for every password and every generated nonce the login request that
`GetStok` hands to the HTTP client is the one of `buildLoginRequest`, whose form
holds exactly the four fields username = "admin", logtype = "2",
nonce = that nonce, and password = H(nonce ++ H(password ++ Key)) with
Key = "a2ffa5c9be07488bbb04a3a47d3c5f6a", where H is SHA-256 when `useSHA256`
is true and SHA-1 otherwise and each H output is lowercase hex (64 resp. 40
characters); the nonce hashed is the one sent.  Golden values for password
"admin" at epoch second 1700000000 with draw 1234 are evaluated. -/
theorem getStok_login_form :
    (∀ (routerIP password : String) (useSHA256 : Bool) (t r : Int)
        (send : LoginRequest → LoginExchange),
      GetStok routerIP password useSHA256 t r send =
        loginResult (send (buildLoginRequest routerIP password useSHA256 t r))) ∧
    (∀ (routerIP password : String) (useSHA256 : Bool) (t r : Int),
      (buildLoginRequest routerIP password useSHA256 t r).nonce = generateNonce t r ∧
      (buildLoginRequest routerIP password useSHA256 t r).formData.map Prod.fst =
        ["username", "password", "logtype", "nonce"] ∧
      valuesGet (buildLoginRequest routerIP password useSHA256 t r).formData "username" =
        "admin" ∧
      valuesGet (buildLoginRequest routerIP password useSHA256 t r).formData "logtype" = "2" ∧
      valuesGet (buildLoginRequest routerIP password useSHA256 t r).formData "nonce" =
        generateNonce t r ∧
      valuesGet (buildLoginRequest routerIP password useSHA256 t r).formData "password" =
        (if useSHA256 then
          sha256Sum (generateNonce t r ++ sha256Sum (password ++ "a2ffa5c9be07488bbb04a3a47d3c5f6a"))
        else
          sha1Sum (generateNonce t r ++ sha1Sum (password ++ "a2ffa5c9be07488bbb04a3a47d3c5f6a")))) ∧
    (∀ x : String,
      ((sha256Sum x).toList.length = 64 ∧ ∀ c ∈ (sha256Sum x).toList, isLowerHex c = true) ∧
      ((sha1Sum x).toList.length = 40 ∧ ∀ c ∈ (sha1Sum x).toList, isLowerHex c = true)) ∧
    valuesGet (buildLoginRequest "192.168.31.1" "admin" true 1700000000 1234).formData
        "password" = "43a7da7cafd928166c1efe4d7db8694842bb834f1cb175e716ff149b9f033df5" ∧
    valuesGet (buildLoginRequest "192.168.31.1" "admin" false 1700000000 1234).formData
        "password" = "18b57eed5aeaa3a70702c385b2ca41972e35b024" := by
  refine ⟨fun _ _ _ _ _ _ => rfl, fun routerIP password useSHA256 t r => ?_,
    fun x => ⟨sha256Sum_isLowerHex x, sha1Sum_isLowerHex x⟩, by decide!, by decide!⟩
  rw [buildLoginRequest_formData]
  refine ⟨rfl, rfl, ?_, ?_, ?_, ?_⟩
  · simp [valuesGet]
  · simp [valuesGet]
  · simp [valuesGet]
  · cases useSHA256 <;>
      simp [valuesGet, encryptPasswordSHA256, encryptPasswordSHA1, Key]

theorem loginFailedText_contains (code : Int) (message : String) :
    stringsContains (loginFailedText code message) (fmtInt code) = true ∧
    stringsContains (loginFailedText code message) message = true := by
  simp only [stringsContains_iff, loginFailedText, toList_append]
  constructor
  · exact ⟨"登录失败, 错误代码: ".toList, ", 消息: ".toList ++ message.toList,
      by simp [List.append_assoc]⟩
  · exact (List.suffix_append _ _).isInfix

theorem loginResult_body (b : String) :
    ((loginResult (LoginExchange.body b)).2 = none ↔
      ∃ resp, unmarshalLogin b = Except.ok resp ∧ resp.Code = 0) ∧
    (∀ resp, unmarshalLogin b = Except.ok resp → resp.Code = 0 →
      loginResult (LoginExchange.body b) = (resp.Token, none)) ∧
    (∀ resp, unmarshalLogin b = Except.ok resp → resp.Code ≠ 0 →
      loginResult (LoginExchange.body b) =
        ("", some (AuthError.loginFailed resp.Code resp.URL))) ∧
    (∀ e, unmarshalLogin b = Except.error e →
      loginResult (LoginExchange.body b) = ("", some (AuthError.parseJSON e))) := by
  refine ⟨?_, ?_, ?_, ?_⟩
  · cases hu : unmarshalLogin b with
    | error e => simp [loginResult, hu]
    | ok resp =>
      by_cases hc : resp.Code = 0
      · simp [loginResult, hu, hc]
      · simp [loginResult, hu, hc]
  · intro resp hu hc
    simp [loginResult, hu, hc]
  · intro resp hu hc
    simp [loginResult, hu, hc]
  · intro e hu
    simp [loginResult, hu]

theorem unmarshalLogin_of_invalid (b : String) (hp : (parseJSON b).isNone = true) :
    unmarshalLogin b = Except.error JSONError.syntaxError := by
  rw [Option.isNone_iff_eq_none] at hp
  simp [unmarshalLogin, hp]

/-- C9: whenever the HTTP exchange delivers a response body, `GetStok` returns
no error if and only if the body decodes as a `LoginResponse` whose code is 0,
and then it returns the response's token; for every decoded non-zero code it
returns an empty token and the login-failed error carrying that code and the
response's url text (both occur in the error text); for a body that is not
valid JSON, and for any other decoding error, it returns an empty token and
the parse error. -/
theorem getStok_response (routerIP password : String) (useSHA256 : Bool) (t r : Int)
    (send : LoginRequest → LoginExchange) (b : String)
    (hsend : send (buildLoginRequest routerIP password useSHA256 t r) = LoginExchange.body b) :
    ((GetStok routerIP password useSHA256 t r send).2 = none ↔
      ∃ resp, unmarshalLogin b = Except.ok resp ∧ resp.Code = 0) ∧
    (∀ resp, unmarshalLogin b = Except.ok resp → resp.Code = 0 →
      GetStok routerIP password useSHA256 t r send = (resp.Token, none)) ∧
    (∀ resp, unmarshalLogin b = Except.ok resp → resp.Code ≠ 0 →
      GetStok routerIP password useSHA256 t r send =
        ("", some (AuthError.loginFailed resp.Code resp.URL)) ∧
      stringsContains (loginFailedText resp.Code resp.URL) (fmtInt resp.Code) = true ∧
      stringsContains (loginFailedText resp.Code resp.URL) resp.URL = true) ∧
    ((parseJSON b).isNone = true →
      GetStok routerIP password useSHA256 t r send =
        ("", some (AuthError.parseJSON JSONError.syntaxError))) ∧
    (∀ e, unmarshalLogin b = Except.error e →
      GetStok routerIP password useSHA256 t r send = ("", some (AuthError.parseJSON e))) := by
  unfold GetStok
  rw [hsend]
  obtain ⟨h1, h2, h3, h4⟩ := loginResult_body b
  exact ⟨h1, h2, fun resp hu hc => ⟨h3 resp hu hc, loginFailedText_contains _ _⟩,
    fun hp => h4 _ (unmarshalLogin_of_invalid b hp), h4⟩

/-- Witness for C9: a successful login, a rejected login, and a body that is
not JSON. -/
theorem getStok_response_witness :
    GetStok "192.168.31.1" "admin" true 1700000000 1234
        (fun _ => LoginExchange.body "\x7b\"code\":0,\"token\":\"tok123\"\x7d") =
      ("tok123", none) ∧
    GetStok "192.168.31.1" "admin" true 1700000000 1234
        (fun _ => LoginExchange.body "\x7b\"code\":401,\"url\":\"/cgi-bin/luci/web\"\x7d") =
      ("", some (AuthError.loginFailed 401 "/cgi-bin/luci/web")) ∧
    GetStok "192.168.31.1" "admin" true 1700000000 1234
        (fun _ => LoginExchange.body "<html>502</html>") =
      ("", some (AuthError.parseJSON JSONError.syntaxError)) :=
  ⟨(getStok_response "192.168.31.1" "admin" true 1700000000 1234 _
      "\x7b\"code\":0,\"token\":\"tok123\"\x7d" rfl).2.1
      { Code := 0, Token := "tok123", URL := "" } (by decide!) rfl,
   ((getStok_response "192.168.31.1" "admin" true 1700000000 1234 _
      "\x7b\"code\":401,\"url\":\"/cgi-bin/luci/web\"\x7d" rfl).2.2.1
      { Code := 401, Token := "", URL := "/cgi-bin/luci/web" } (by decide!) (by decide)).1,
   (getStok_response "192.168.31.1" "admin" true 1700000000 1234 _
      "<html>502</html>" rfl).2.2.2.1 (by decide!)⟩

/-! ## The task time cursor -/

theorem splitAux_singleton_no_sep (c : Char) (cur b : List Char) (hb : c ∉ b) :
    splitAux [c] 0 cur b = [cur.reverse ++ b] := by
  induction b generalizing cur with
  | nil => simp [splitAux]
  | cons x b ih =>
    have hx : c ≠ x := fun h => hb (h ▸ List.mem_cons_self _ _)
    have hb' : c ∉ b := fun h => hb (List.mem_cons_of_mem _ h)
    rw [splitAux]
    simp only [List.isPrefixOf, beq_iff_eq, hx, Bool.and_true, decide_False,
      Bool.false_eq_true, if_false, Bool.false_and]
    rw [ih _ hb']
    simp

theorem splitAux_singleton (c : Char) (cur a b : List Char) (ha : c ∉ a) :
    splitAux [c] 0 cur (a ++ c :: b) = (cur.reverse ++ a) :: splitAux [c] 0 [] b := by
  induction a generalizing cur with
  | nil =>
    rw [List.nil_append, splitAux]
    simp [List.isPrefixOf]
  | cons x a ih =>
    have hx : c ≠ x := fun h => ha (h ▸ List.mem_cons_self _ _)
    have ha' : c ∉ a := fun h => ha (List.mem_cons_of_mem _ h)
    rw [List.cons_append, splitAux]
    simp only [List.isPrefixOf, beq_iff_eq, hx, Bool.and_true, decide_False,
      Bool.false_eq_true, if_false, Bool.false_and]
    rw [ih _ ha']
    simp

/-- Splitting `a:b` on the colon gives the two parts when neither holds a colon. -/
theorem stringsSplit_colon (a b : String) (ha : ':' ∉ a.toList) (hb : ':' ∉ b.toList) :
    stringsSplit (a ++ ":" ++ b) ":" = [a, b] := by
  have h1 : (a ++ ":" ++ b).toList = a.toList ++ ':' :: b.toList := by
    simp [String.toList, String.data_append]
  have h2 : (":" : String).toList = [':'] := rfl
  unfold stringsSplit
  rw [h1, h2, splitAux_singleton _ _ _ _ ha, splitAux_singleton_no_sep _ _ _ hb]
  simp [String.toList]

theorem fmtInt_no_colon (n : Int) : ':' ∉ (fmtInt n).toList := by
  intro h
  cases n with
  | ofNat k =>
    have := decimal_all_isDigit k ':' (by simpa [fmtInt, String.toList] using h)
    exact absurd this (by decide)
  | negSucc k =>
    simp only [fmtInt, String.toList, List.mem_cons] at h
    rcases h with h | h
    · exact absurd h (by decide)
    · exact absurd (decimal_all_isDigit (k + 1) ':' h) (by decide)

theorem no_colon_of_dropSign (cs : List Char) (h : (dropSign cs).all isDigit = true) :
    ':' ∉ cs := by
  have hd : ∀ ds : List Char, ds.all isDigit = true → ':' ∉ ds := by
    intro ds hds hmem
    rw [List.all_eq_true] at hds
    exact absurd (hds _ hmem) (by decide)
  unfold dropSign at h
  split at h
  · intro hmem
    simp only [List.mem_cons] at hmem
    rcases hmem with hmem | hmem
    · exact absurd hmem (by decide)
    · exact hd _ h hmem
  · intro hmem
    simp only [List.mem_cons] at hmem
    rcases hmem with hmem | hmem
    · exact absurd hmem (by decide)
    · exact hd _ h hmem
  · exact hd _ h

/-- A numeral that `strconv.Atoi` accepts holds no colon. -/
theorem no_colon_of_Atoi (a : String) (n : Int) (h : Atoi a = some n) : ':' ∉ a.toList := by
  apply no_colon_of_dropSign
  unfold Atoi at h
  simp only at h
  split at h
  · exact absurd h (by simp)
  · rename_i hc
    simp only [Bool.or_eq_true, Bool.not_eq_true', not_or, Bool.not_eq_false] at hc
    exact hc.2

/-- The cursor read from a cache file holding two numerals separated by a
colon. -/
theorem readCursor_numerals (a b : String) (h m : Int) (ha : Atoi a = some h)
    (hb : Atoi b = some m) :
    readCursor (some (a ++ ":" ++ b)) =
      if wrapInt64 (m + 1) ≥ 60 then
        (if wrapInt64 (h + 1) ≥ 24 then (0, 0) else (wrapInt64 (h + 1), 0))
      else (h, wrapInt64 (m + 1)) := by
  unfold readCursor
  simp only [stringsSplit_colon _ _ (no_colon_of_Atoi a h ha) (no_colon_of_Atoi b m hb), ha, hb]

/-- The cursor read from a cache file holding the numerals of two 64-bit
integers as `%d:%d` prints them. -/
theorem readCursor_fmtInt (h m : Int) (hh : -2 ^ 63 ≤ h ∧ h < 2 ^ 63)
    (hm : -2 ^ 63 ≤ m ∧ m < 2 ^ 63) :
    readCursor (some (fmtInt h ++ ":" ++ fmtInt m)) =
      if wrapInt64 (m + 1) ≥ 60 then
        (if wrapInt64 (h + 1) ≥ 24 then (0, 0) else (wrapInt64 (h + 1), 0))
      else (h, wrapInt64 (m + 1)) :=
  readCursor_numerals _ _ h m (Atoi_fmtInt h hh.1 hh.2) (Atoi_fmtInt m hm.1 hm.2)

/-- The string `getNextTaskTime` returns: the cursor read from the cache, or
the clock when either component is `-1`, printed as `%d:%d`. -/
theorem getNextTaskTime_fst (env : TaskEnv) (fs : FileSystem) :
    (getNextTaskTime env fs).1 =
      fmtInt (if (readCursor (fs.readFile env.cachePath)).1 = -1 ∨
          (readCursor (fs.readFile env.cachePath)).2 = -1
        then ((env.clockHour.val : Int), (env.clockMinute.val : Int))
        else readCursor (fs.readFile env.cachePath)).1 ++ ":" ++
      fmtInt (if (readCursor (fs.readFile env.cachePath)).1 = -1 ∨
          (readCursor (fs.readFile env.cachePath)).2 = -1
        then ((env.clockHour.val : Int), (env.clockMinute.val : Int))
        else readCursor (fs.readFile env.cachePath)).2 := by
  unfold getNextTaskTime
  simp only
  split
  · rfl
  · split <;> rfl

theorem getNextTaskTime_written (env : TaskEnv) (fs : FileSystem) :
    (fs.writable env.cachePath = true →
      (getNextTaskTime env fs).2.content env.cachePath = some (getNextTaskTime env fs).1) ∧
    (fs.writable env.cachePath = false → fs.writable env.fallbackPath = true →
      (getNextTaskTime env fs).2.content env.fallbackPath = some (getNextTaskTime env fs).1) := by
  constructor
  · intro hw
    simp [getNextTaskTime, FileSystem.writeFile, hw]
  · intro hw hf
    simp [getNextTaskTime, FileSystem.writeFile, hw, hf]

/-- C10: for every cache file whose content is `h:m`, two decimal numerals
(as `strconv.Atoi` reads them) of integers `0 ≤ h ≤ 23` and `0 ≤ m ≤ 59`
separated by a colon, `getNextTaskTime` returns the time one minute later with
wrap at 24:00, formatted as `H:M` without leading zeros: the result denotes
minute-of-day `(60*h + m + 1) mod 1440`; and it writes that string back to the
cache file (or, when that write fails and the fallback write succeeds, to the
fallback file). -/
theorem getNextTaskTime_advances (env : TaskEnv) (fs : FileSystem) (a b : String)
    (h m : Nat) (hh : h ≤ 23) (hm : m ≤ 59)
    (ha : Atoi a = some (h : Int)) (hb : Atoi b = some (m : Int))
    (hread : fs.readFile env.cachePath = some (a ++ ":" ++ b)) :
    (getNextTaskTime env fs).1 =
      fmtInt (((60 * h + m + 1) % 1440 / 60 : Nat) : Int) ++ ":" ++
        fmtInt (((60 * h + m + 1) % 1440 % 60 : Nat) : Int) ∧
    (fs.writable env.cachePath = true →
      (getNextTaskTime env fs).2.content env.cachePath = some (getNextTaskTime env fs).1) ∧
    (fs.writable env.cachePath = false → fs.writable env.fallbackPath = true →
      (getNextTaskTime env fs).2.content env.fallbackPath = some (getNextTaskTime env fs).1) := by
  refine ⟨?_, getNextTaskTime_written env fs⟩
  have hcur : readCursor (fs.readFile env.cachePath) =
      ((((60 * h + m + 1) % 1440 / 60 : Nat) : Int), (((60 * h + m + 1) % 1440 % 60 : Nat) : Int)) := by
    rw [hread, readCursor_numerals a b (h : Int) (m : Int) ha hb]
    have hm1 : wrapInt64 ((m : Int) + 1) = (m : Int) + 1 := by
      unfold wrapInt64; omega
    have hh1 : wrapInt64 ((h : Int) + 1) = (h : Int) + 1 := by
      unfold wrapInt64; omega
    rw [hm1, hh1]
    by_cases c1 : m = 59
    · by_cases c2 : h = 23
      · subst c1 c2; rfl
      · have : ((h : Int) + 1 ≥ 24) = False := by simp; omega
        subst c1
        simp only [this, if_false]
        simp only [Nat.cast_ofNat, ge_iff_le, Int.reduceAdd, le_refl, if_true, Prod.mk.injEq]
        constructor <;> omega
    · have : ((m : Int) + 1 ≥ 60) = False := by simp; omega
      simp only [this, if_false, Prod.mk.injEq]
      constructor <;> omega
  rw [getNextTaskTime_fst, hcur]
  have hne : ¬ ((((60 * h + m + 1) % 1440 / 60 : Nat) : Int) = -1 ∨
      (((60 * h + m + 1) % 1440 % 60 : Nat) : Int) = -1) := by omega
  simp only [hne, if_false]

/-- Witness for C10: the cache contents 23:59, 12:30 and 12:59 give 0:0, 12:31
and 13:0; so does 012:+59, read as 12:59. -/
theorem getNextTaskTime_advances_witness :
    (getNextTaskTime
      { cachePath := "/opt/tool/.task_time_cache", fallbackPath := "/root/.task_time_cache",
        clockHour := 10, clockMinute := 20 }
      { content := fun _ => some "23:59", readable := fun _ => true,
        writable := fun _ => true }).1 = "0:0" ∧
    (getNextTaskTime
      { cachePath := "/opt/tool/.task_time_cache", fallbackPath := "/root/.task_time_cache",
        clockHour := 10, clockMinute := 20 }
      { content := fun _ => some "12:30", readable := fun _ => true,
        writable := fun _ => true }).1 = "12:31" ∧
    (getNextTaskTime
      { cachePath := "/opt/tool/.task_time_cache", fallbackPath := "/root/.task_time_cache",
        clockHour := 10, clockMinute := 20 }
      { content := fun _ => some "12:59", readable := fun _ => true,
        writable := fun _ => true }).1 = "13:0" ∧
    (getNextTaskTime
      { cachePath := "/opt/tool/.task_time_cache", fallbackPath := "/root/.task_time_cache",
        clockHour := 10, clockMinute := 20 }
      { content := fun _ => some "012:+59", readable := fun _ => true,
        writable := fun _ => true }).1 = "13:0" :=
  ⟨(getNextTaskTime_advances _ _ "23" "59" 23 59 (by decide) (by decide) (by decide!)
      (by decide!) (by decide!)).1.trans (by decide!),
   (getNextTaskTime_advances _ _ "12" "30" 12 30 (by decide) (by decide) (by decide!)
      (by decide!) (by decide!)).1.trans (by decide!),
   (getNextTaskTime_advances _ _ "12" "59" 12 59 (by decide) (by decide) (by decide!)
      (by decide!) (by decide!)).1.trans (by decide!),
   (getNextTaskTime_advances _ _ "012" "+59" 12 59 (by decide) (by decide) (by decide!)
      (by decide!) (by decide!)).1.trans (by decide!)⟩

theorem readCursor_of_corrupt (content : String) (h : cacheCorrupt content = true) :
    (readCursor (some content)).1 = -1 := by
  unfold cacheCorrupt at h
  unfold readCursor
  split at h
  · rename_i p0 p1 hs
    simp only [hs]
    cases h0 : Atoi p0 with
    | none => rfl
    | some a =>
      cases h1 : Atoi p1 with
      | none => rfl
      | some b => simp [h0, h1] at h
  · rename_i hne
    simp only

/-- C11: `getNextTaskTime` is a total function, and whenever the cache file
is missing or unreadable, or its content is corrupt (it does not split on the
colon into exactly two parts, or a part is not a decimal integer), the returned
time is `Hour:Minute` of the current local time plus one minute, whatever the
corrupt content and whether or not the result can be written back. -/
theorem getNextTaskTime_falls_back (env : TaskEnv) (fs : FileSystem)
    (h : fs.readFile env.cachePath = none ∨
      ∃ content, fs.readFile env.cachePath = some content ∧ cacheCorrupt content = true) :
    (getNextTaskTime env fs).1 = clockTime env := by
  have hcur : (readCursor (fs.readFile env.cachePath)).1 = -1 := by
    rcases h with h | ⟨content, h, hc⟩
    · rw [h]; rfl
    · rw [h]; exact readCursor_of_corrupt content hc
  rw [getNextTaskTime_fst]
  simp only [hcur, true_or, if_true]
  rfl

/-- Witness for C11: a missing cache file and the corrupt contents ``, `12`,
`12:xx`, `ab:30` and `1:2:3` all give the clock time 10:20. -/
theorem getNextTaskTime_falls_back_witness :
    (getNextTaskTime
      { cachePath := "/opt/tool/.task_time_cache", fallbackPath := "/root/.task_time_cache",
        clockHour := 10, clockMinute := 20 }
      { content := fun _ => none, readable := fun _ => false,
        writable := fun _ => true }).1 = "10:20" ∧
    (∀ content ∈ ["", "12", "12:xx", "ab:30", "1:2:3"],
      (getNextTaskTime
        { cachePath := "/opt/tool/.task_time_cache", fallbackPath := "/root/.task_time_cache",
          clockHour := 10, clockMinute := 20 }
        { content := fun _ => some content, readable := fun _ => true,
          writable := fun _ => false }).1 = "10:20") :=
by
  refine ⟨?_, fun content hc => ?_⟩
  · refine (getNextTaskTime_falls_back _ _ (Or.inl ?_)).trans ?_ <;> decide!
  · simp only [List.mem_cons, List.mem_singleton, List.not_mem_nil, or_false] at hc
    refine (getNextTaskTime_falls_back _ _ (Or.inr ⟨content, ?_, ?_⟩)).trans ?_
    · rfl
    · rcases hc with rfl | rfl | rfl | rfl | rfl <;> decide!
    · decide!

/-! ## Successive invocations -/

theorem wrapInt64_range (x : Int) :
    -9223372036854775808 ≤ wrapInt64 x ∧ wrapInt64 x < 9223372036854775808 := by
  unfold wrapInt64; omega

theorem wrapInt64_of_range (x : Int) (h1 : -9223372036854775808 ≤ x)
    (h2 : x < 9223372036854775808) : wrapInt64 x = x := by
  unfold wrapInt64; omega

/-- A value `strconv.Atoi` returns is a 64-bit integer. -/
theorem Atoi_range (s : String) (n : Int) (h : Atoi s = some n) :
    -9223372036854775808 ≤ n ∧ n < 9223372036854775808 := by
  unfold Atoi at h
  simp only at h
  split at h
  · exact absurd h (by simp)
  · split at h
    · split at h
      · rename_i hv
        cases h
        omega
      · exact absurd h (by simp)
    · split at h
      · rename_i hv
        cases h
        omega
      · exact absurd h (by simp)

theorem validTime_clock (c : Fin 24 × Fin 60) : validTime ((c.1.val : Int), (c.2.val : Int)) := by
  have h1 := c.1.isLt
  have h2 := c.2.isLt
  unfold validTime
  simp only
  omega

theorem printedCursor_of_validTime (p : Int × Int) (h : validTime p) : printedCursor p := by
  unfold validTime at h
  unfold printedCursor
  omega

/-- What `readCursor` leaves: a component `-1`, or a cursor with 64-bit
components and the minute below 60. -/
theorem readCursor_range (content : Option String) :
    ((readCursor content).1 = -1 ∨ (readCursor content).2 = -1) ∨
      printedCursor (readCursor content) := by
  by_cases hs : (readCursor content).1 = -1 ∨ (readCursor content).2 = -1
  · exact Or.inl hs
  · right
    have h1 : (readCursor content).1 ≠ -1 := fun h => hs (Or.inl h)
    have h2 : (readCursor content).2 ≠ -1 := fun h => hs (Or.inr h)
    refine ⟨?_, ?_, ?_, ?_, h1, h2⟩ <;> clear hs <;> revert h1 h2 <;> unfold readCursor <;>
      (cases content with
        | none => simp
        | some text =>
          simp only
          split
          · split
            · rename_i hourVal minVal ha hb
              have ra := Atoi_range _ _ ha
              have rm := wrapInt64_range (minVal + 1)
              have rh := wrapInt64_range (hourVal + 1)
              split
              · split <;> simp <;> omega
              · simp only; intros; omega
            · simp
          · simp)

theorem printedCursor_cursorOf (env : TaskEnv) (fs : FileSystem) :
    printedCursor (cursorOf env fs) := by
  unfold cursorOf orClock
  rcases readCursor_range (fs.readFile env.cachePath) with h | h
  · rw [if_pos h]
    exact printedCursor_of_validTime _ (validTime_clock (env.clockHour, env.clockMinute))
  · have hn : ¬ ((readCursor (fs.readFile env.cachePath)).1 = -1 ∨
        (readCursor (fs.readFile env.cachePath)).2 = -1) := by
      unfold printedCursor at h
      omega
    rw [if_neg hn]
    exact h

/-- The increment on a printed cursor, the 64-bit wrap-around made explicit. -/
theorem advance_printed (h m : Int) (hp : printedCursor (h, m)) :
    advance (h, m) =
      if m = 59 then
        (if h = 9223372036854775807 then (-9223372036854775808, 0)
         else if h + 1 ≥ 24 then (0, 0) else (h + 1, 0))
      else (h, m + 1) := by
  unfold printedCursor at hp
  simp only at hp
  have hm : wrapInt64 (m + 1) = m + 1 := wrapInt64_of_range _ (by omega) (by omega)
  unfold advance
  simp only [hm]
  by_cases c1 : m = 59
  · have g1 : m + 1 ≥ 60 := by omega
    rw [if_pos g1, if_pos c1]
    by_cases c2 : h = 9223372036854775807
    · rw [if_pos c2]
      subst c2
      have : wrapInt64 (9223372036854775807 + 1) = -9223372036854775808 := by
        unfold wrapInt64; omega
      rw [this]
      simp
    · rw [if_neg c2]
      rw [wrapInt64_of_range (h + 1) (by omega) (by omega)]
  · have g1 : ¬ m + 1 ≥ 60 := by omega
    rw [if_neg g1, if_neg c1]

/-- One invocation later, from a time of the 24-hour clock: the next minute of
the day, and the clock is not consulted. -/
theorem orClock_advance_valid (c q : Int × Int) (hq : validTime q) :
    validTime (orClock c (advance q)) ∧
      60 * (orClock c (advance q)).1 + (orClock c (advance q)).2 =
        (60 * q.1 + q.2 + 1) % 1440 := by
  obtain ⟨h, m⟩ := q
  rw [advance_printed h m (printedCursor_of_validTime _ hq)]
  unfold validTime at hq ⊢
  simp only at hq
  unfold orClock
  by_cases c1 : m = 59
  · have c0 : ¬ h = 9223372036854775807 := by omega
    by_cases c2 : h + 1 ≥ 24
    · simp only [if_pos c1, if_neg c0, if_pos c2]
      norm_num
      omega
    · simp only [if_pos c1, if_neg c0, if_neg c2]
      have hn : ¬ (h + 1 = -1 ∨ (0 : Int) = -1) := by omega
      rw [if_neg hn]
      simp only
      omega
  · simp only [if_neg c1]
    have hn : ¬ (h = -1 ∨ m + 1 = -1) := by omega
    rw [if_neg hn]
    simp only
    omega

/-- One invocation later, from a printed cursor that is no time of the 24-hour
clock: a time of the 24-hour clock, or a cursor of the same kind whose rank is
higher by one. -/
theorem orClock_advance_invalid (c q : Int × Int) (hc : validTime c) (hq : printedCursor q)
    (hv : ¬ validTime q) :
    validTime (orClock c (advance q)) ∨
      (¬ validTime (orClock c (advance q)) ∧ ((orClock c (advance q)).2 < 0 ↔ q.2 < 0) ∧
        cursorRank (orClock c (advance q)) = cursorRank q + 1) := by
  obtain ⟨h, m⟩ := q
  rw [advance_printed h m hq]
  unfold printedCursor at hq
  unfold validTime at hv hc ⊢
  simp only at hq hv
  unfold orClock cursorRank
  by_cases c1 : m = 59
  · by_cases c0 : h = 9223372036854775807
    · simp only [if_pos c1, if_pos c0]
      subst c0 c1
      right
      norm_num
    · by_cases c2 : h + 1 ≥ 24
      · simp only [if_pos c1, if_neg c0, if_pos c2]
        left
        norm_num
      · simp only [if_pos c1, if_neg c0, if_neg c2]
        by_cases c3 : h + 1 = -1
        · have hs : (h + 1 = -1 ∨ (0 : Int) = -1) := Or.inl c3
          rw [if_pos hs]
          exact Or.inl hc
        · have hs : ¬ (h + 1 = -1 ∨ (0 : Int) = -1) := by omega
          rw [if_neg hs]
          right
          simp only
          have g1 : ¬ ((0 : Int) < 0) := by omega
          have g2 : ¬ (m < 0) := by omega
          rw [if_neg g1, if_neg g2]
          refine ⟨by omega, by omega, by omega⟩
  · simp only [if_neg c1]
    by_cases c3 : m + 1 = -1
    · have hs : (h = -1 ∨ m + 1 = -1) := Or.inr c3
      rw [if_pos hs]
      exact Or.inl hc
    · have hs : ¬ (h = -1 ∨ m + 1 = -1) := by omega
      rw [if_neg hs]
      right
      simp only
      by_cases c4 : m < 0
      · have g1 : m + 1 < 0 := by omega
        rw [if_pos g1, if_pos c4]
        refine ⟨by omega, by omega, by omega⟩
      · have g1 : ¬ m + 1 < 0 := by omega
        rw [if_neg g1, if_neg c4]
        refine ⟨by omega, by omega, by omega⟩

theorem printedCursor_orClock_advance (c q : Int × Int) (hc : validTime c)
    (hq : printedCursor q) : printedCursor (orClock c (advance q)) := by
  obtain ⟨h, m⟩ := q
  rw [advance_printed h m hq]
  have hpc := printedCursor_of_validTime c hc
  unfold printedCursor at hq hpc ⊢
  simp only at hq
  unfold orClock
  split_ifs <;> (try simp only) <;> omega

theorem laterCursor_refl (p : Int × Int) : laterCursor p 0 p := by
  unfold laterCursor validTime
  refine ⟨fun h => ⟨h, by omega⟩, fun h => Or.inr ⟨h, Iff.rfl, by omega⟩⟩

theorem laterCursor_step (p q c : Int × Int) (d : Int) (hc : validTime c)
    (hq : printedCursor q) (h : laterCursor p d q) :
    laterCursor p (d + 1) (orClock c (advance q)) := by
  unfold laterCursor at h ⊢
  refine ⟨fun hp => ?_, fun hp => ?_⟩
  · obtain ⟨hvq, hmod⟩ := h.1 hp
    obtain ⟨hv, hm⟩ := orClock_advance_valid c q hvq
    refine ⟨hv, ?_⟩
    rw [hm, hmod]
    omega
  · rcases h.2 hp with hvq | ⟨hvq, hk, hr⟩
    · exact Or.inl (orClock_advance_valid c q hvq).1
    · rcases orClock_advance_invalid c q hc hq hvq with hv | ⟨hv, hk2, hr2⟩
      · exact Or.inl hv
      · exact Or.inr ⟨hv, hk2.trans hk, by omega⟩

theorem laterCursor_ne (p q : Int × Int) (d : Int) (h : laterCursor p d q) (h1 : 1 ≤ d)
    (h2 : d < 1440) : q ≠ p := by
  intro he
  subst he
  unfold laterCursor at h
  by_cases hv : validTime q
  · have := (h.1 hv).2
    unfold validTime at hv
    omega
  · rcases h.2 hv with hq | ⟨_, _, hr⟩
    · exact hv hq
    · omega

theorem cursorRun_later (p : Int × Int) (cs : List (Int × Int)) :
    ∀ (q : Int × Int) (d : Int), (∀ c ∈ cs, validTime c) → printedCursor q →
      laterCursor p d q →
      ∀ x ∈ cursorRun cs q, ∃ e : Int, d < e ∧ e ≤ d + cs.length ∧ laterCursor p e x := by
  induction cs with
  | nil => intro q d _ _ _ x hx; simp [cursorRun] at hx
  | cons c cs ih =>
    intro q d hcs hq hl x hx
    have hc : validTime c := hcs c (List.mem_cons_self _ _)
    have hl1 := laterCursor_step p q c d hc hq hl
    have hq1 := printedCursor_orClock_advance c q hc hq
    simp only [cursorRun, List.mem_cons] at hx
    rcases hx with hx | hx
    · subst hx
      exact ⟨d + 1, by omega, by simp only [List.length_cons]; omega, hl1⟩
    · obtain ⟨e, he1, he2, he3⟩ :=
        ih _ (d + 1) (fun c hm => hcs c (List.mem_cons_of_mem _ hm)) hq1 hl1 x hx
      exact ⟨e, by omega, by simp only [List.length_cons]; omega, he3⟩

theorem cursorRun_printed (cs : List (Int × Int)) :
    ∀ q : Int × Int, (∀ c ∈ cs, validTime c) → printedCursor q →
      ∀ x ∈ cursorRun cs q, printedCursor x := by
  induction cs with
  | nil => intro q _ _ x hx; simp [cursorRun] at hx
  | cons c cs ih =>
    intro q hcs hq x hx
    have hq1 := printedCursor_orClock_advance c q (hcs c (List.mem_cons_self _ _)) hq
    simp only [cursorRun, List.mem_cons] at hx
    rcases hx with hx | hx
    · subst hx; exact hq1
    · exact ih _ (fun c hm => hcs c (List.mem_cons_of_mem _ hm)) hq1 x hx

/-- The cursors of up to 1440 successive invocations differ from each other. -/
theorem cursorRun_nodup (cs : List (Int × Int)) :
    ∀ p : Int × Int, (∀ c ∈ cs, validTime c) → printedCursor p → cs.length < 1440 →
      (p :: cursorRun cs p).Nodup := by
  induction cs with
  | nil => intro p _ _ _; simp [cursorRun]
  | cons c cs ih =>
    intro p hcs hp hlen
    rw [List.nodup_cons]
    constructor
    · intro hmem
      obtain ⟨e, he1, he2, he3⟩ := cursorRun_later p (c :: cs) p 0 hcs hp (laterCursor_refl p) p hmem
      exact laterCursor_ne p p e he3 (by omega) (by omega) rfl
    · have hq1 := printedCursor_orClock_advance c p (hcs c (List.mem_cons_self _ _)) hp
      simp only [List.length_cons] at hlen
      exact ih _ (fun c hm => hcs c (List.mem_cons_of_mem _ hm)) hq1 (by omega)

/-- Two printed cursors with the same `%d:%d` text are the same. -/
theorem timeString_injective (p q : Int × Int) (hp : printedCursor p) (hq : printedCursor q)
    (h : timeString p = timeString q) : p = q := by
  unfold printedCursor at hp hq
  have hs := congrArg (fun s => stringsSplit s ":") h
  simp only [timeString] at hs
  rw [stringsSplit_colon _ _ (fmtInt_no_colon _) (fmtInt_no_colon _),
    stringsSplit_colon _ _ (fmtInt_no_colon _) (fmtInt_no_colon _)] at hs
  simp only [List.cons.injEq, and_true] at hs
  have a1 := Atoi_fmtInt p.1 (by norm_num; omega) (by norm_num; omega)
  have a2 := Atoi_fmtInt p.2 (by norm_num; omega) (by norm_num; omega)
  have b1 := Atoi_fmtInt q.1 (by norm_num; omega) (by norm_num; omega)
  have b2 := Atoi_fmtInt q.2 (by norm_num; omega) (by norm_num; omega)
  rw [hs.1, b1] at a1
  rw [hs.2, b2] at a2
  exact Prod.ext (Option.some.inj a1).symm (Option.some.inj a2).symm

/-- What the next invocation reads back from a printed cursor: that cursor one
minute later. -/
theorem readCursor_timeString (p : Int × Int) (hp : printedCursor p) :
    readCursor (some (timeString p)) = advance p := by
  unfold printedCursor at hp
  exact readCursor_fmtInt p.1 p.2 ⟨by norm_num; omega, by norm_num; omega⟩
    ⟨by norm_num; omega, by norm_num; omega⟩

/-- An invocation with a writable cache file: the string printed and the file
written. -/
theorem getNextTaskTime_writable (env : TaskEnv) (fs : FileSystem)
    (hw : fs.writable env.cachePath = true) :
    getNextTaskTime env fs =
      (timeString (cursorOf env fs),
        { fs with content := fun p =>
            if p = env.cachePath then some (timeString (cursorOf env fs)) else fs.content p }) := by
  unfold getNextTaskTime
  simp only [FileSystem.writeFile, hw, if_true]
  rfl

theorem envAt_cachePath (cachePath fallbackPath : String) (clock : Fin 24 × Fin 60) :
    (envAt cachePath fallbackPath clock).cachePath = cachePath := rfl

theorem envAt_clockHour (cachePath fallbackPath : String) (clock : Fin 24 × Fin 60) :
    (envAt cachePath fallbackPath clock).clockHour = clock.1 := rfl

theorem envAt_clockMinute (cachePath fallbackPath : String) (clock : Fin 24 × Fin 60) :
    (envAt cachePath fallbackPath clock).clockMinute = clock.2 := rfl

theorem successiveTimes_written (cachePath fallbackPath : String)
    (clocks : List (Fin 24 × Fin 60)) :
    ∀ (fs : FileSystem) (p : Int × Int), fs.writable cachePath = true →
      fs.readable cachePath = true → fs.content cachePath = some (timeString p) →
      printedCursor p →
      successiveTimes cachePath fallbackPath clocks fs =
        (cursorRun (clocks.map fun c => ((c.1.val : Int), (c.2.val : Int))) p).map timeString := by
  induction clocks with
  | nil => intro fs p _ _ _ _; rfl
  | cons c cs ih =>
    intro fs p hw hr hcont hp
    have hcur : cursorOf (envAt cachePath fallbackPath c) fs =
        orClock ((c.1.val : Int), (c.2.val : Int)) (advance p) := by
      unfold cursorOf
      simp only [FileSystem.readFile, envAt_cachePath, envAt_clockHour, envAt_clockMinute, hr,
        if_true, hcont, readCursor_timeString p hp]
    simp only [successiveTimes, List.map_cons, cursorRun]
    rw [getNextTaskTime_writable _ _ hw, hcur]
    simp only [List.cons.injEq, true_and]
    exact ih _ _ hw hr (by simp [envAt_cachePath]) (printedCursor_orClock_advance _ p (validTime_clock c) hp)

/-- C16: with a cache file next to the executable that can be written and
read, the value an invocation of `getNextTaskTime` writes is `%d:%d` of two
64-bit integers, it is what the next invocation reads, and splitting it on the
colon and `strconv.Atoi` give back exactly these two integers; and the strings
returned by any `k ≤ 1440` successive invocations, each reading what the one
before it wrote, are pairwise distinct, whatever the cache file held at first
and whatever the clock shows at each invocation. -/
theorem successiveTimes_distinct (cachePath fallbackPath : String)
    (clocks : List (Fin 24 × Fin 60)) (fs : FileSystem)
    (hw : fs.writable cachePath = true) (hr : fs.readable cachePath = true)
    (hk : clocks.length ≤ 1440) :
    (∀ clock : Fin 24 × Fin 60, ∃ h m : Int,
      (getNextTaskTime (envAt cachePath fallbackPath clock) fs).1 = fmtInt h ++ ":" ++ fmtInt m ∧
      (getNextTaskTime (envAt cachePath fallbackPath clock) fs).2.readFile cachePath =
          some (fmtInt h ++ ":" ++ fmtInt m) ∧
      stringsSplit (fmtInt h ++ ":" ++ fmtInt m) ":" = [fmtInt h, fmtInt m] ∧
      Atoi (fmtInt h) = some h ∧ Atoi (fmtInt m) = some m) ∧
    (successiveTimes cachePath fallbackPath clocks fs).length = clocks.length ∧
    (successiveTimes cachePath fallbackPath clocks fs).Nodup := by
  refine ⟨fun clock => ?_, ?_, ?_⟩
  · have hp := printedCursor_cursorOf (envAt cachePath fallbackPath clock) fs
    rw [getNextTaskTime_writable _ _ hw]
    refine ⟨_, _, rfl, ?_, stringsSplit_colon _ _ (fmtInt_no_colon _) (fmtInt_no_colon _), ?_, ?_⟩
    · simp [FileSystem.readFile, hr, timeString, envAt_cachePath]
    · unfold printedCursor at hp
      exact Atoi_fmtInt _ (by norm_num; omega) (by norm_num; omega)
    · unfold printedCursor at hp
      exact Atoi_fmtInt _ (by norm_num; omega) (by norm_num; omega)
  · clear hk
    induction clocks generalizing fs with
    | nil => rfl
    | cons c cs ih =>
      simp only [successiveTimes, List.length_cons, add_left_inj]
      rw [getNextTaskTime_writable _ _ hw]
      exact ih _ hw hr
  · cases clocks with
    | nil => simp [successiveTimes]
    | cons c cs =>
      have hp := printedCursor_cursorOf (envAt cachePath fallbackPath c) fs
      have hvalid : ∀ x ∈ cs.map (fun c : Fin 24 × Fin 60 => ((c.1.val : Int), (c.2.val : Int))),
          validTime x := by
        intro x hx
        obtain ⟨y, _, rfl⟩ := List.mem_map.1 hx
        exact validTime_clock y
      simp only [successiveTimes]
      rw [getNextTaskTime_writable _ _ hw]
      simp only [envAt_cachePath]
      rw [successiveTimes_written cachePath fallbackPath cs
        { fs with content := fun p =>
            if p = cachePath then some (timeString (cursorOf (envAt cachePath fallbackPath c) fs))
            else fs.content p }
        (cursorOf (envAt cachePath fallbackPath c) fs) hw hr (by simp) hp,
        ← List.map_cons timeString]
      refine List.Nodup.map_on ?_ (cursorRun_nodup _ _ hvalid hp ?_)
      · intro x hx y hy hxy
        have hall : ∀ z ∈ _ :: cursorRun _ _, printedCursor z := fun z hz => by
          rcases List.mem_cons.1 hz with hz | hz
          · rw [hz]; exact hp
          · exact cursorRun_printed _ _ hvalid hp z hz
        exact timeString_injective x y (hall x hx) (hall y hy) hxy
      · simp only [List.length_cons] at hk
        simp only [List.length_map]
        omega

/-- Witness for C16: from a cache file holding `23:57`, three invocations
return `23:58`, `23:59` and `0:0`. -/
theorem successiveTimes_distinct_witness :
    successiveTimes "/opt/tool/.task_time_cache" "/root/.task_time_cache"
        [(10, 20), (10, 20), (10, 21)]
        { content := fun _ => some "23:57", readable := fun _ => true,
          writable := fun _ => true } = ["23:58", "23:59", "0:0"] ∧
      (successiveTimes "/opt/tool/.task_time_cache" "/root/.task_time_cache"
        [(10, 20), (10, 20), (10, 21)]
        { content := fun _ => some "23:57", readable := fun _ => true,
          writable := fun _ => true }).Nodup :=
  ⟨by decide!, (successiveTimes_distinct _ _ _ _ (by decide!) (by decide!) (by decide)).2.2⟩

/-- Cache contents with integers out of range are printed back: a cache file
holding `99:5` makes `getNextTaskTime` return `99:6`, one holding
`24:0` gives `24:1`, `5:-7` gives `5:-6` and `-5:3` gives `-5:4`, whatever the
clock shows: a parsed hour is compared with 24 only when the minute passes 59,
and no parsed value is compared with 0. -/
theorem getNextTaskTime_prints_back :
    (getNextTaskTime
      { cachePath := "/opt/tool/.task_time_cache", fallbackPath := "/root/.task_time_cache",
        clockHour := 10, clockMinute := 20 }
      { content := fun _ => some "99:5", readable := fun _ => true,
        writable := fun _ => true }).1 = "99:6" ∧
    (getNextTaskTime
      { cachePath := "/opt/tool/.task_time_cache", fallbackPath := "/root/.task_time_cache",
        clockHour := 10, clockMinute := 20 }
      { content := fun _ => some "24:0", readable := fun _ => true,
        writable := fun _ => true }).1 = "24:1" ∧
    (getNextTaskTime
      { cachePath := "/opt/tool/.task_time_cache", fallbackPath := "/root/.task_time_cache",
        clockHour := 10, clockMinute := 20 }
      { content := fun _ => some "5:-7", readable := fun _ => true,
        writable := fun _ => true }).1 = "5:-6" ∧
    (getNextTaskTime
      { cachePath := "/opt/tool/.task_time_cache", fallbackPath := "/root/.task_time_cache",
        clockHour := 10, clockMinute := 20 }
      { content := fun _ => some "-5:3", readable := fun _ => true,
        writable := fun _ => true }).1 = "-5:4" := by
  refine ⟨?_, ?_, ?_, ?_⟩ <;> decide!

/-- The string `getNextTaskTime` returns is the cursor it prints. -/
theorem getNextTaskTime_timeString (env : TaskEnv) (fs : FileSystem) :
    (getNextTaskTime env fs).1 = timeString (cursorOf env fs) := by
  rw [getNextTaskTime_fst]
  rfl

/-- C15, counterexample: with a cache file holding `99:5` the returned string
is `99:6`, which is not `H:M` for any `0 ≤ H ≤ 23` and `0 ≤ M ≤ 59`. -/
theorem getNextTaskTime_valid_time_counterexample :
    (getNextTaskTime
      { cachePath := "/opt/tool/.task_time_cache", fallbackPath := "/root/.task_time_cache",
        clockHour := 10, clockMinute := 20 }
      { content := fun _ => some "99:5", readable := fun _ => true,
        writable := fun _ => true }).1 = "99:6" ∧
    ¬ ∃ H M : Int, 0 ≤ H ∧ H ≤ 23 ∧ 0 ≤ M ∧ M ≤ 59 ∧
      (getNextTaskTime
        { cachePath := "/opt/tool/.task_time_cache", fallbackPath := "/root/.task_time_cache",
          clockHour := 10, clockMinute := 20 }
        { content := fun _ => some "99:5", readable := fun _ => true,
          writable := fun _ => true }).1 = fmtInt H ++ ":" ++ fmtInt M := by
  have hres : (getNextTaskTime
      { cachePath := "/opt/tool/.task_time_cache", fallbackPath := "/root/.task_time_cache",
        clockHour := 10, clockMinute := 20 }
      { content := fun _ => some "99:5", readable := fun _ => true,
        writable := fun _ => true }).1 = timeString (99, 6) := by decide!
  refine ⟨by decide!, ?_⟩
  rintro ⟨H, M, h1, h2, h3, h4, heq⟩
  rw [hres] at heq
  have hp : printedCursor (99, 6) := by unfold printedCursor; norm_num
  have hq : printedCursor (H, M) := printedCursor_of_validTime _ ⟨h1, h2, h3, h4⟩
  have := timeString_injective (99, 6) (H, M) hp hq heq
  simp only [Prod.mk.injEq] at this
  omega

/-- C15: for every cache file that is missing or unreadable, or corrupt (it
does not split on the colon into exactly two parts, or a part is not a decimal
integer), or holds two numerals of integers `0 ≤ h ≤ 23` and `0 ≤ m ≤ 59`
separated by a colon, and for every clock value, the string `getNextTaskTime`
returns is `H:M` with `0 ≤ H ≤ 23` and `0 ≤ M ≤ 59`. -/
theorem getNextTaskTime_valid_time (env : TaskEnv) (fs : FileSystem)
    (h : fs.readFile env.cachePath = none ∨
      ∃ content, fs.readFile env.cachePath = some content ∧
        (cacheCorrupt content = true ∨
          ∃ (a b : String) (hh mm : Int), content = a ++ ":" ++ b ∧ Atoi a = some hh ∧
            Atoi b = some mm ∧ 0 ≤ hh ∧ hh ≤ 23 ∧ 0 ≤ mm ∧ mm ≤ 59)) :
    ∃ H M : Int, 0 ≤ H ∧ H ≤ 23 ∧ 0 ≤ M ∧ M ≤ 59 ∧
      (getNextTaskTime env fs).1 = fmtInt H ++ ":" ++ fmtInt M := by
  have hv : validTime (cursorOf env fs) := by
    have hclock := validTime_clock (env.clockHour, env.clockMinute)
    have hunset : (readCursor (fs.readFile env.cachePath)).1 = -1 →
        validTime (cursorOf env fs) := by
      intro h1
      unfold cursorOf orClock
      rw [if_pos (Or.inl h1)]
      exact hclock
    rcases h with h | ⟨content, h, hc | ⟨a, b, hh, mm, rfl, ha, hb, h1, h2, h3, h4⟩⟩
    · exact hunset (by rw [h]; rfl)
    · exact hunset (by rw [h]; exact readCursor_of_corrupt content hc)
    · unfold cursorOf
      have hadv : readCursor (some (a ++ ":" ++ b)) = advance (hh, mm) :=
        readCursor_numerals a b hh mm ha hb
      rw [h, hadv]
      exact (orClock_advance_valid _ (hh, mm) ⟨h1, h2, h3, h4⟩).1
  exact ⟨(cursorOf env fs).1, (cursorOf env fs).2, hv.1, hv.2.1, hv.2.2.1, hv.2.2.2,
    getNextTaskTime_timeString env fs⟩

/-- Witness for C15: a missing cache file at clock time 10:20 and a cache file
holding `23:59`. -/
theorem getNextTaskTime_valid_time_witness :
    (∃ H M : Int, 0 ≤ H ∧ H ≤ 23 ∧ 0 ≤ M ∧ M ≤ 59 ∧
      (getNextTaskTime
        { cachePath := "/opt/tool/.task_time_cache", fallbackPath := "/root/.task_time_cache",
          clockHour := 10, clockMinute := 20 }
        { content := fun _ => none, readable := fun _ => false,
          writable := fun _ => true }).1 = fmtInt H ++ ":" ++ fmtInt M) ∧
    (∃ H M : Int, 0 ≤ H ∧ H ≤ 23 ∧ 0 ≤ M ∧ M ≤ 59 ∧
      (getNextTaskTime
        { cachePath := "/opt/tool/.task_time_cache", fallbackPath := "/root/.task_time_cache",
          clockHour := 10, clockMinute := 20 }
        { content := fun _ => some "23:59", readable := fun _ => true,
          writable := fun _ => true }).1 = fmtInt H ++ ":" ++ fmtInt M) ∧
    (getNextTaskTime
      { cachePath := "/opt/tool/.task_time_cache", fallbackPath := "/root/.task_time_cache",
        clockHour := 10, clockMinute := 20 }
      { content := fun _ => some "23:59", readable := fun _ => true,
        writable := fun _ => true }).1 = "0:0" :=
  ⟨getNextTaskTime_valid_time _ _ (Or.inl (by decide!)),
    getNextTaskTime_valid_time _ _ (Or.inr ⟨"23:59", by decide!,
      Or.inr ⟨"23", "59", 23, 59, by decide!, by decide!, by decide!, by decide, by decide,
        by decide, by decide⟩⟩),
    by decide!⟩

/-- The next invocation does not see a write that went to the fallback file:
when the cache file next to the executable cannot be written, an invocation
leaves what `ioutil.ReadFile` gives for that file as it was. -/
theorem getNextTaskTime_cache_unchanged (env : TaskEnv) (fs : FileSystem)
    (hw : fs.writable env.cachePath = false) :
    (getNextTaskTime env fs).2.readFile env.cachePath = fs.readFile env.cachePath := by
  unfold getNextTaskTime
  simp only [FileSystem.writeFile, hw, Bool.false_eq_true, if_false]
  split
  · rename_i fs2 h2
    split at h2
    · rename_i hf
      have hne : env.cachePath ≠ env.fallbackPath := fun h => by
        rw [← h, hw] at hf; exact absurd hf (by decide)
      cases h2
      simp [FileSystem.readFile, hne]
    · exact absurd h2 (by simp)
  · rfl

/-- C17: the value written to the fallback file is not resumed from. With no
cache file next to the executable and that directory not writable, an invocation
at clock time 10:20 returns `10:20` and writes it to the fallback file in the
working directory; the next invocation, at clock time 15:45, returns `15:45`
(not `10:21`), and at clock time 10:20 it returns `10:20` a second time. With a
cache file holding `3:7` that cannot be rewritten, both invocations return
`3:8`. -/
theorem getNextTaskTime_fallback_not_read :
    (getNextTaskTime
      { cachePath := "/opt/tool/.task_time_cache", fallbackPath := "/root/.task_time_cache",
        clockHour := 10, clockMinute := 20 }
      { content := fun _ => none, readable := fun _ => true,
        writable := fun p => p == "/root/.task_time_cache" }).1 = "10:20" ∧
    (getNextTaskTime
      { cachePath := "/opt/tool/.task_time_cache", fallbackPath := "/root/.task_time_cache",
        clockHour := 10, clockMinute := 20 }
      { content := fun _ => none, readable := fun _ => true,
        writable := fun p => p == "/root/.task_time_cache" }).2.content
          "/root/.task_time_cache" = some "10:20" ∧
    (getNextTaskTime
      { cachePath := "/opt/tool/.task_time_cache", fallbackPath := "/root/.task_time_cache",
        clockHour := 15, clockMinute := 45 }
      (getNextTaskTime
        { cachePath := "/opt/tool/.task_time_cache", fallbackPath := "/root/.task_time_cache",
          clockHour := 10, clockMinute := 20 }
        { content := fun _ => none, readable := fun _ => true,
          writable := fun p => p == "/root/.task_time_cache" }).2).1 = "15:45" ∧
    (getNextTaskTime
      { cachePath := "/opt/tool/.task_time_cache", fallbackPath := "/root/.task_time_cache",
        clockHour := 10, clockMinute := 20 }
      (getNextTaskTime
        { cachePath := "/opt/tool/.task_time_cache", fallbackPath := "/root/.task_time_cache",
          clockHour := 10, clockMinute := 20 }
        { content := fun _ => none, readable := fun _ => true,
          writable := fun p => p == "/root/.task_time_cache" }).2).1 = "10:20" ∧
    (getNextTaskTime
      { cachePath := "/opt/tool/.task_time_cache", fallbackPath := "/root/.task_time_cache",
        clockHour := 10, clockMinute := 20 }
      { content := fun p => if p = "/opt/tool/.task_time_cache" then some "3:7" else none,
        readable := fun _ => true,
        writable := fun p => p == "/root/.task_time_cache" }).1 = "3:8" ∧
    (getNextTaskTime
      { cachePath := "/opt/tool/.task_time_cache", fallbackPath := "/root/.task_time_cache",
        clockHour := 10, clockMinute := 21 }
      (getNextTaskTime
        { cachePath := "/opt/tool/.task_time_cache", fallbackPath := "/root/.task_time_cache",
          clockHour := 10, clockMinute := 20 }
        { content := fun p => if p = "/opt/tool/.task_time_cache" then some "3:7" else none,
          readable := fun _ => true,
          writable := fun p => p == "/root/.task_time_cache" }).2).1 = "3:8" := by
  refine ⟨?_, ?_, ?_, ?_, ?_, ?_⟩ <;> decide!

/-! ## `ExecuteCustomCommand` -/

/-- The outcomes of a smart-controller request: success is a response that
decodes with `code` 0; the failures are a failed request, a response that does
not decode, and a `code` other than 0. -/
theorem apiResult_cases (reply : Except String String) :
    (apiResult reply = none ↔
      ∃ body resp, reply = Except.ok body ∧ unmarshalAPIResponse body = Except.ok resp ∧
        resp.Code = 0) ∧
    (∀ e, apiResult reply = some e ↔
      (∃ cause, reply = Except.error cause ∧ e = RouterError.transport cause) ∨
      (∃ body cause, reply = Except.ok body ∧ unmarshalAPIResponse body = Except.error cause ∧
        e = RouterError.parseResponse cause) ∨
      (∃ body resp, reply = Except.ok body ∧ unmarshalAPIResponse body = Except.ok resp ∧
        resp.Code ≠ 0 ∧ e = RouterError.api resp.Msg resp.Code)) := by
  unfold apiResult
  cases reply with
  | error cause => simp [eq_comm]
  | ok body =>
    cases hu : unmarshalAPIResponse body with
    | error cause =>
      simp only [Except.ok.injEq, exists_eq_left']
      simp [hu, eq_comm]
    | ok resp =>
      simp only [Except.ok.injEq, exists_eq_left']
      by_cases hc : resp.Code = 0
      · simp [hu, hc]
      · simp [hu, hc, eq_comm]

theorem setSmartControllerTask_eq (c : AX5400ProClient) (dev : Device)
    (command taskTime : String) (w : World) :
    c.SetSmartControllerTask dev ("'$(" ++ command ++ ")'") taskTime w =
      (apiResult (dev.replyTo w.events (scheduleRequest c command taskTime)),
        { w with events := w.events ++ [scheduleRequest c command taskTime] }) := rfl

theorem startSmartControllerTask_eq (c : AX5400ProClient) (dev : Device)
    (taskTime : String) (week : Int) (w : World) :
    c.StartSmartControllerTask dev taskTime week w =
      (apiResult (dev.replyTo w.events (triggerRequest c taskTime week)),
        { w with events := w.events ++ [triggerRequest c taskTime week] }) := rfl

/-- `ExecuteCustomCommand` unfolded: the world after it and the error it
returns, by the outcome of the two requests. -/
theorem executeCustomCommand_eq (c : AX5400ProClient) (dev : Device) (command : String)
    (w : World) :
    c.ExecuteCustomCommand dev command w =
      match apiResult (dev.replyTo w.events (scheduleRequest c command (mintedTime dev w))) with
      | some e =>
        (some (RouterError.schedule e),
          { events := w.events ++ [scheduleRequest c command (mintedTime dev w)],
            commands := w.commands ++ [command],
            fs := (getNextTaskTime (dev.taskEnv w) w.fs).2 })
      | none =>
        ((apiResult (dev.replyTo (w.events ++ [scheduleRequest c command (mintedTime dev w)])
            (triggerRequest c (mintedTime dev w) 0))).map RouterError.trigger,
          { events := w.events ++ [scheduleRequest c command (mintedTime dev w),
              triggerRequest c (mintedTime dev w) 0],
            commands := w.commands ++ [command],
            fs := (getNextTaskTime (dev.taskEnv w) w.fs).2 }) := by
  unfold AX5400ProClient.ExecuteCustomCommand
  simp only [setSmartControllerTask_eq, startSmartControllerTask_eq]
  have henv : dev.taskEnv { w with commands := w.commands ++ [command] } = dev.taskEnv w := rfl
  simp only [henv, mintedTime]
  cases h1 : apiResult (dev.replyTo w.events
      (scheduleRequest c command (getNextTaskTime (dev.taskEnv w) w.fs).1)) with
  | some e => rfl
  | none =>
    simp only
    cases h2 : apiResult (dev.replyTo
        (w.events ++ [scheduleRequest c command (getNextTaskTime (dev.taskEnv w) w.fs).1])
        (triggerRequest c (getNextTaskTime (dev.taskEnv w) w.fs).1 0)) with
    | some e => simp [h2]
    | none => simp [h2]

/-- The messages of a schedule error and of a trigger error differ. -/
theorem schedule_text_ne_trigger_text (jsonText : JSONError → String) (e1 e2 : RouterError) :
    (RouterError.schedule e1).text jsonText ≠ (RouterError.trigger e2).text jsonText := by
  intro h
  have h2 := congrArg (fun s => s.data.head?) h
  simp [RouterError.text, String.data_append] at h2

/-- C12: `ExecuteCustomCommand` schedules, then fires. The `scene_setting`
POST for the wrapped command and the minted task time comes first. When it
fails (the request fails, the response does not decode, or its `code` is not
0), the schedule error wrapping that failure is returned and no other request is
made. When it succeeds, the `scene_start_by_crontab` POST follows, with the same
task time and week 0, and its failure is returned as a trigger error, whose
message differs from that of every schedule error. The call succeeds exactly
when both responses decode with `code` 0. -/
theorem executeCustomCommand_schedule_then_fire (c : AX5400ProClient) (dev : Device)
    (command : String) (w : World) :
    (∀ e, apiResult (dev.replyTo w.events (scheduleRequest c command (mintedTime dev w))) =
        some e →
      (c.ExecuteCustomCommand dev command w).1 = some (RouterError.schedule e) ∧
      (c.ExecuteCustomCommand dev command w).2.events =
        w.events ++ [scheduleRequest c command (mintedTime dev w)]) ∧
    (apiResult (dev.replyTo w.events (scheduleRequest c command (mintedTime dev w))) = none →
      (c.ExecuteCustomCommand dev command w).2.events =
        w.events ++ [scheduleRequest c command (mintedTime dev w),
          triggerRequest c (mintedTime dev w) 0] ∧
      (∀ e, apiResult (dev.replyTo (w.events ++ [scheduleRequest c command (mintedTime dev w)])
          (triggerRequest c (mintedTime dev w) 0)) = some e →
        (c.ExecuteCustomCommand dev command w).1 = some (RouterError.trigger e)) ∧
      (apiResult (dev.replyTo (w.events ++ [scheduleRequest c command (mintedTime dev w)])
          (triggerRequest c (mintedTime dev w) 0)) = none →
        (c.ExecuteCustomCommand dev command w).1 = none)) ∧
    ((c.ExecuteCustomCommand dev command w).1 = none ↔
      (∃ body resp, dev.replyTo w.events (scheduleRequest c command (mintedTime dev w)) =
          Except.ok body ∧ unmarshalAPIResponse body = Except.ok resp ∧ resp.Code = 0) ∧
      (∃ body resp, dev.replyTo (w.events ++ [scheduleRequest c command (mintedTime dev w)])
          (triggerRequest c (mintedTime dev w) 0) = Except.ok body ∧
        unmarshalAPIResponse body = Except.ok resp ∧ resp.Code = 0)) ∧
    (∀ reply e, apiResult reply = some e ↔
      (∃ cause, reply = Except.error cause ∧ e = RouterError.transport cause) ∨
      (∃ body cause, reply = Except.ok body ∧ unmarshalAPIResponse body = Except.error cause ∧
        e = RouterError.parseResponse cause) ∨
      (∃ body resp, reply = Except.ok body ∧ unmarshalAPIResponse body = Except.ok resp ∧
        resp.Code ≠ 0 ∧ e = RouterError.api resp.Msg resp.Code)) ∧
    (∀ (jsonText : JSONError → String) (e1 e2 : RouterError),
      (RouterError.schedule e1).text jsonText ≠ (RouterError.trigger e2).text jsonText) := by
  refine ⟨fun e h => ?_, fun h => ?_, ?_, fun reply => (apiResult_cases reply).2,
    schedule_text_ne_trigger_text⟩
  · rw [executeCustomCommand_eq, h]
    exact ⟨rfl, rfl⟩
  · rw [executeCustomCommand_eq, h]
    refine ⟨rfl, fun e h2 => ?_, fun h2 => ?_⟩
    · simp only [h2]; rfl
    · simp only [h2]; rfl
  · rw [← (apiResult_cases _).1, ← (apiResult_cases _).1, executeCustomCommand_eq]
    cases h1 : apiResult (dev.replyTo w.events (scheduleRequest c command (mintedTime dev w))) with
    | some e => simp
    | none => simp

/-- Witness for C12: `nvram commit` against a device that rejects the first
POST, one that rejects the second, and one that accepts both. -/
theorem executeCustomCommand_schedule_then_fire_witness :
    ((NewAX5400ProClient "192.168.31.1" "tok").ExecuteCustomCommand (exampleDevice 0 true)
        "nvram commit" exampleWorld).1 =
      some (RouterError.schedule (RouterError.api "busy" 1)) ∧
    ((NewAX5400ProClient "192.168.31.1" "tok").ExecuteCustomCommand (exampleDevice 0 true)
        "nvram commit" exampleWorld).2.events =
      [scheduleRequest (NewAX5400ProClient "192.168.31.1" "tok") "nvram commit" "10:20"] ∧
    ((NewAX5400ProClient "192.168.31.1" "tok").ExecuteCustomCommand (exampleDevice 1 true)
        "nvram commit" exampleWorld).1 =
      some (RouterError.trigger (RouterError.api "busy" 1)) ∧
    ((NewAX5400ProClient "192.168.31.1" "tok").ExecuteCustomCommand (exampleDevice 2 true)
        "nvram commit" exampleWorld).1 = none ∧
    ((NewAX5400ProClient "192.168.31.1" "tok").ExecuteCustomCommand (exampleDevice 2 true)
        "nvram commit" exampleWorld).2.events =
      [scheduleRequest (NewAX5400ProClient "192.168.31.1" "tok") "nvram commit" "10:20",
        triggerRequest (NewAX5400ProClient "192.168.31.1" "tok") "10:20" 0] := by
  refine ⟨?_, ?_, ?_, ?_, ?_⟩
  · exact ((executeCustomCommand_schedule_then_fire _ _ _ _).1 _ (by decide!)).1
  · exact ((executeCustomCommand_schedule_then_fire _ _ _ _).1
      (RouterError.api "busy" 1) (by decide!)).2.trans (by decide!)
  · exact ((executeCustomCommand_schedule_then_fire _ _ _ _).2.1 (by decide!)).2.1 _ (by decide!)
  · exact ((executeCustomCommand_schedule_then_fire _ _ _ _).2.1 (by decide!)).2.2 (by decide!)
  · exact ((executeCustomCommand_schedule_then_fire _ _ _ _).2.1 (by decide!)).1.trans
      (by decide!)

/-! ## `EnableSSH` and `DisableSSH` -/

/-- `ExecuteCustomCommand` announces its command and nothing else. -/
theorem executeCustomCommand_commands (c : AX5400ProClient) (dev : Device) (command : String)
    (w : World) :
    (c.ExecuteCustomCommand dev command w).2.commands = w.commands ++ [command] := by
  rw [executeCustomCommand_eq]
  split <;> rfl

theorem afterCommands_commands (c : AX5400ProClient) (dev : Device) (commands : List String) :
    ∀ w w1 : World, c.afterCommands dev commands w = some w1 →
      w1.commands = w.commands ++ commands := by
  induction commands with
  | nil =>
    intro w w1 h
    simp only [AX5400ProClient.afterCommands, Option.some.injEq] at h
    simp [← h]
  | cons command rest ih =>
    intro w w1 h
    unfold AX5400ProClient.afterCommands at h
    split at h
    · rename_i w2 he
      have h2 := ih _ _ h
      have h3 := executeCustomCommand_commands c dev command w
      rw [he] at h3
      simp only at h3
      rw [h2, h3]
      simp
    · exact absurd h (by simp)

/-- The step loop: either every command succeeds, or the loop stops at the
first step whose command fails, having called `ExecuteCustomCommand` on the
steps up to and including that one, and returns that step's name around that
command's error, in the world that command left. -/
theorem runSteps_cases (c : AX5400ProClient) (dev : Device) (steps : List Step) :
    ∀ w : World,
    (∃ w1, c.afterCommands dev (steps.map Step.command) w = some w1 ∧
      c.runSteps dev steps w = (none, w1)) ∨
    (∃ (k : Nat) (step : Step) (wk : World) (e : RouterError) (w1 : World),
      steps[k]? = some step ∧
      c.afterCommands dev ((steps.take k).map Step.command) w = some wk ∧
      c.ExecuteCustomCommand dev step.command wk = (some e, w1) ∧
      c.runSteps dev steps w = (some (RouterError.step step.name e), w1) ∧
      w1.commands = w.commands ++ (steps.take (k + 1)).map Step.command) := by
  induction steps with
  | nil => intro w; exact Or.inl ⟨w, rfl, rfl⟩
  | cons step rest ih =>
    intro w
    cases he : c.ExecuteCustomCommand dev step.command w with
    | mk r w2 =>
      have hc := executeCustomCommand_commands c dev step.command w
      rw [he] at hc
      simp only at hc
      cases r with
      | some e =>
        right
        refine ⟨0, step, w, e, w2, by simp, rfl, he, ?_, ?_⟩
        · simp only [AX5400ProClient.runSteps, he]
        · simp [hc]
      | none =>
        rcases ih w2 with ⟨w1, h1, h2⟩ | ⟨k, st, wk, e, w1, h1, h2, h3, h4, h5⟩
        · left
          refine ⟨w1, ?_, ?_⟩
          · simp only [List.map_cons, AX5400ProClient.afterCommands, he, h1]
          · simp only [AX5400ProClient.runSteps, he, h2]
        · right
          refine ⟨k + 1, st, wk, e, w1, by simpa using h1, ?_, h3, ?_, ?_⟩
          · simp only [List.take_succ_cons, List.map_cons, AX5400ProClient.afterCommands, he, h2]
          · simp only [AX5400ProClient.runSteps, he, h4]
          · rw [h5, hc]
            simp

theorem setSystemTime_eq (c : AX5400ProClient) (dev : Device) (w : World) :
    c.SetSystemTime dev w =
      (match dev.replyTo w.events (sysTimeRequest c dev w) with
        | Except.error cause => some (RouterError.systemTime cause)
        | Except.ok _ => none,
       { w with events := w.events ++ [sysTimeRequest c dev w] }) := by
  unfold AX5400ProClient.SetSystemTime AX5400ProClient.Get
  simp only [Device.replyTo, sysTimeRequest]
  split <;> rename_i h <;> simp only [Prod.mk.injEq] at h <;> obtain ⟨h1, h2⟩ := h <;>
    simp [h1, ← h2]

/-- `EnableSSH` when `SetSystemTime` fails. -/
theorem enableSSH_of_time_error (c : AX5400ProClient) (dev : Device) (w : World)
    (cause : String) (h : dev.replyTo w.events (sysTimeRequest c dev w) = Except.error cause) :
    c.EnableSSH dev w =
      (some (RouterError.systemTime cause),
        { w with events := w.events ++ [sysTimeRequest c dev w] }) := by
  unfold AX5400ProClient.EnableSSH
  rw [setSystemTime_eq, h]

/-- `EnableSSH` when `SetSystemTime` succeeds: the step loop, and after a loop
without error the status check and, on a good status, the time sync. -/
theorem enableSSH_of_time_ok (c : AX5400ProClient) (dev : Device) (w : World)
    (body : String) (h : dev.replyTo w.events (sysTimeRequest c dev w) = Except.ok body) :
    c.EnableSSH dev w =
      match c.runSteps dev enableSteps { w with events := w.events ++ [sysTimeRequest c dev w] } with
      | (some err, w2) => (some err, w2)
      | (none, w2) =>
        match (c.checkShellStatusOn dev w2).1.err with
        | some _ => (none, (c.checkShellStatusOn dev w2).2)
        | none =>
          if (c.checkShellStatusOn dev w2).1.overall then
            (none, (c.SyncRouterTime dev (c.checkShellStatusOn dev w2).2).2)
          else (none, (c.checkShellStatusOn dev w2).2) := by
  unfold AX5400ProClient.EnableSSH
  rw [setSystemTime_eq, h] <;> rfl

/-- C13: `EnableSSH` and `DisableSSH` run their steps in the fixed order and
stop at the first failure. If `SetSystemTime` fails, `EnableSSH` returns its
error and no command has been issued. Otherwise, whatever the device answers,
either all five commands succeed, or for the first step `k` whose command
fails the commands issued are exactly the first `k + 1` of
`sed -i s/release/debug/g /etc/init.d/dropbear`, `nvram set ssh_en=1`,
`nvram set telnet_en=1`, `nvram commit`, `/etc/init.d/dropbear restart`, the
error returned is that step's name around the error of its command, and the
world is left as that command left it: no later step, no status check, no time
sync. `DisableSSH` does the same over `nvram set ssh_en=0`,
`nvram set telnet_en=0`, `nvram commit`,
`sed -i s/debug/release/g /etc/init.d/dropbear`, `/etc/init.d/dropbear restart`. -/
theorem enableSSH_disableSSH_stop_at_first_failure (c : AX5400ProClient) (dev : Device)
    (w : World) :
    (∀ cause, dev.replyTo w.events (sysTimeRequest c dev w) = Except.error cause →
      (c.EnableSSH dev w).1 = some (RouterError.systemTime cause) ∧
      (c.EnableSSH dev w).2.commands = w.commands ∧
      (c.EnableSSH dev w).2.events = w.events ++ [sysTimeRequest c dev w]) ∧
    (∀ body, dev.replyTo w.events (sysTimeRequest c dev w) = Except.ok body →
      (c.afterCommands dev (enableSteps.map Step.command)
        { w with events := w.events ++ [sysTimeRequest c dev w] }).isSome = true ∨
      ∃ (k : Nat) (step : Step) (wk : World) (e : RouterError) (w1 : World),
        enableSteps[k]? = some step ∧
        c.afterCommands dev ((enableSteps.take k).map Step.command)
          { w with events := w.events ++ [sysTimeRequest c dev w] } = some wk ∧
        c.ExecuteCustomCommand dev step.command wk = (some e, w1) ∧
        c.EnableSSH dev w = (some (RouterError.step step.name e), w1) ∧
        w1.commands = w.commands ++ (enableSteps.take (k + 1)).map Step.command) ∧
    ((c.afterCommands dev (disableSteps.map Step.command) w).isSome = true ∨
      ∃ (k : Nat) (step : Step) (wk : World) (e : RouterError) (w1 : World),
        disableSteps[k]? = some step ∧
        c.afterCommands dev ((disableSteps.take k).map Step.command) w = some wk ∧
        c.ExecuteCustomCommand dev step.command wk = (some e, w1) ∧
        c.DisableSSH dev w = (some (RouterError.step step.name e), w1) ∧
        w1.commands = w.commands ++ (disableSteps.take (k + 1)).map Step.command) ∧
    enableSteps.map Step.command =
      ["sed -i s/release/debug/g /etc/init.d/dropbear", "nvram set ssh_en=1",
        "nvram set telnet_en=1", "nvram commit", "/etc/init.d/dropbear restart"] ∧
    disableSteps.map Step.command =
      ["nvram set ssh_en=0", "nvram set telnet_en=0", "nvram commit",
        "sed -i s/debug/release/g /etc/init.d/dropbear", "/etc/init.d/dropbear restart"] := by
  refine ⟨fun cause h => ?_, fun body h => ?_, ?_, rfl, rfl⟩
  · rw [enableSSH_of_time_error c dev w cause h]
    exact ⟨rfl, rfl, rfl⟩
  · rcases runSteps_cases c dev enableSteps
      { w with events := w.events ++ [sysTimeRequest c dev w] } with
      ⟨w1, h1, _⟩ | ⟨k, step, wk, e, w1, h1, h2, h3, h4, h5⟩
    · left; rw [h1]; rfl
    · right
      refine ⟨k, step, wk, e, w1, h1, h2, h3, ?_, h5⟩
      rw [enableSSH_of_time_ok c dev w body h, h4]
  · rcases runSteps_cases c dev disableSteps w with
      ⟨w1, h1, _⟩ | ⟨k, step, wk, e, w1, h1, h2, h3, h4, h5⟩
    · left; rw [h1]; rfl
    · right
      refine ⟨k, step, wk, e, w1, h1, h2, h3, ?_, h5⟩
      unfold AX5400ProClient.DisableSSH
      rw [h4]

/-- Witness for C13: against a device that rejects the fifth POST, which is
the `scene_setting` request of the third step, `EnableSSH` returns the error of
step `启用Telnet配置` having issued three commands and made one GET and five
POST requests, and `DisableSSH` that of `提交NVRAM更改`. -/
theorem enableSSH_disableSSH_stop_at_first_failure_witness :
    ((NewAX5400ProClient "192.168.31.1" "tok").EnableSSH (exampleDevice 4 true) exampleWorld).1 =
      some (RouterError.step "启用Telnet配置" (RouterError.schedule (RouterError.api "busy" 1))) ∧
    ((NewAX5400ProClient "192.168.31.1" "tok").EnableSSH (exampleDevice 4 true)
        exampleWorld).2.commands =
      ["sed -i s/release/debug/g /etc/init.d/dropbear", "nvram set ssh_en=1",
        "nvram set telnet_en=1"] ∧
    ((NewAX5400ProClient "192.168.31.1" "tok").EnableSSH (exampleDevice 4 true)
        exampleWorld).2.events.length = 6 ∧
    ((NewAX5400ProClient "192.168.31.1" "tok").DisableSSH (exampleDevice 4 true) exampleWorld).1 =
      some (RouterError.step "提交NVRAM更改" (RouterError.schedule (RouterError.api "busy" 1))) ∧
    enableSteps.map Step.command =
      ["sed -i s/release/debug/g /etc/init.d/dropbear", "nvram set ssh_en=1",
        "nvram set telnet_en=1", "nvram commit", "/etc/init.d/dropbear restart"] :=
  ⟨by decide!, by decide!, by decide!, by decide!,
    (enableSSH_disableSSH_stop_at_first_failure (NewAX5400ProClient "192.168.31.1" "tok")
      (exampleDevice 4 true) exampleWorld).2.2.2.1⟩

/-! ## The verification after the steps -/

theorem runSteps_of_afterCommands (c : AX5400ProClient) (dev : Device) (steps : List Step) :
    ∀ w w1 : World, c.afterCommands dev (steps.map Step.command) w = some w1 →
      c.runSteps dev steps w = (none, w1) := by
  induction steps with
  | nil =>
    intro w w1 h
    simp only [List.map_nil, AX5400ProClient.afterCommands, Option.some.injEq] at h
    simp [AX5400ProClient.runSteps, h]
  | cons step rest ih =>
    intro w w1 h
    simp only [List.map_cons, AX5400ProClient.afterCommands] at h
    unfold AX5400ProClient.runSteps
    split at h
    · rename_i w2 he
      simp only [he]
      exact ih _ _ h
    · exact absurd h (by simp)

/-- The status check issues no command. -/
theorem checkShellStatusOn_commands (c : AX5400ProClient) (dev : Device) (w : World) :
    (c.checkShellStatusOn dev w).2.commands = w.commands := by
  unfold AX5400ProClient.checkShellStatusOn AX5400ProClient.Get AX5400ProClient.CheckPortOpen
  simp only
  split <;> rename_i h <;> simp only [Prod.mk.injEq] at h <;> obtain ⟨_, h2⟩ := h <;>
    simp [← h2]

/-- The time sync issues its `date -s` command. -/
theorem syncRouterTime_commands (c : AX5400ProClient) (dev : Device) (w : World) :
    (c.SyncRouterTime dev w).2.commands = w.commands ++ [syncCommand dev w] := by
  have h := executeCustomCommand_commands c dev (syncCommand dev w) w
  unfold AX5400ProClient.SyncRouterTime
  simp only
  unfold syncCommand at h
  split <;> rename_i he <;> rw [he] at h <;> exact h

/-- C14: the verification is never fatal. When `SetSystemTime` and all five
enable steps succeed, `EnableSSH` returns no error, whatever `CheckShellStatus`
reports (an error, overall false or overall true) and whether or not
`SyncRouterTime` fails; and `SyncRouterTime` is attempted, issuing its `date -s`
command after the five, exactly when `CheckShellStatus` returned no error and
overall true. When its five steps succeed, `DisableSSH` returns no error and
issues no other command, whatever `CheckShellStatus` reports. -/
theorem enableSSH_disableSSH_verification_not_fatal (c : AX5400ProClient) (dev : Device)
    (w : World) :
    (∀ body w5, dev.replyTo w.events (sysTimeRequest c dev w) = Except.ok body →
      c.afterCommands dev (enableSteps.map Step.command)
        { w with events := w.events ++ [sysTimeRequest c dev w] } = some w5 →
      (c.EnableSSH dev w).1 = none ∧
      (c.EnableSSH dev w).2.commands =
        w.commands ++ enableSteps.map Step.command ++
          (if (c.checkShellStatusOn dev w5).1.err = none ∧
              (c.checkShellStatusOn dev w5).1.overall = true
            then [syncCommand dev (c.checkShellStatusOn dev w5).2] else [])) ∧
    (∀ w5, c.afterCommands dev (disableSteps.map Step.command) w = some w5 →
      (c.DisableSSH dev w).1 = none ∧
      (c.DisableSSH dev w).2.commands = w.commands ++ disableSteps.map Step.command) := by
  refine ⟨fun body w5 htime hsteps => ?_, fun w5 hsteps => ?_⟩
  · have hc := afterCommands_commands c dev _ _ _ hsteps
    simp only at hc
    rw [enableSSH_of_time_ok c dev w body htime,
      runSteps_of_afterCommands c dev enableSteps _ w5 hsteps]
    simp only
    cases herr : (c.checkShellStatusOn dev w5).1.err with
    | some e =>
      simp only [false_and, if_false, reduceCtorEq, List.append_nil]
      exact ⟨trivial, by rw [checkShellStatusOn_commands, hc]⟩
    | none =>
      by_cases hov : (c.checkShellStatusOn dev w5).1.overall = true
      · simp only [hov, if_true, and_self]
        exact ⟨trivial, by rw [syncRouterTime_commands, checkShellStatusOn_commands, hc]⟩
      · rw [Bool.not_eq_true] at hov
        simp only [hov, Bool.false_eq_true, if_false, and_false, List.append_nil]
        exact ⟨trivial, by rw [checkShellStatusOn_commands, hc]⟩
  · have hc := afterCommands_commands c dev _ _ _ hsteps
    unfold AX5400ProClient.DisableSSH
    rw [runSteps_of_afterCommands c dev disableSteps _ w5 hsteps]
    simp only
    exact ⟨trivial, by rw [checkShellStatusOn_commands, hc]⟩

/-- Witness for C14: against a device that accepts the ten POST requests of
the five steps and rejects the eleventh, with SSH and Telnet reported on,
`EnableSSH` succeeds although the time sync it attempts fails; against a device
that reports them off, it succeeds without attempting the sync. -/
theorem enableSSH_disableSSH_verification_not_fatal_witness :
    ((NewAX5400ProClient "192.168.31.1" "tok").EnableSSH (exampleDevice 10 true)
        exampleWorld).1 = none ∧
    ((NewAX5400ProClient "192.168.31.1" "tok").SyncRouterTime (exampleDevice 10 true)
      ((NewAX5400ProClient "192.168.31.1" "tok").checkShellStatusOn (exampleDevice 10 true)
        ((NewAX5400ProClient "192.168.31.1" "tok").runSteps (exampleDevice 10 true) enableSteps
          ((NewAX5400ProClient "192.168.31.1" "tok").SetSystemTime (exampleDevice 10 true)
            exampleWorld).2).2).2).1 =
      some (RouterError.syncTime (RouterError.schedule (RouterError.api "busy" 1))) ∧
    ((NewAX5400ProClient "192.168.31.1" "tok").EnableSSH (exampleDevice 10 true)
        exampleWorld).2.commands =
      ["sed -i s/release/debug/g /etc/init.d/dropbear", "nvram set ssh_en=1",
        "nvram set telnet_en=1", "nvram commit", "/etc/init.d/dropbear restart",
        "date -s '2025.06.01-10:19:30'"] ∧
    ((NewAX5400ProClient "192.168.31.1" "tok").EnableSSH (exampleDevice 10 false)
        exampleWorld).1 = none ∧
    ((NewAX5400ProClient "192.168.31.1" "tok").EnableSSH (exampleDevice 10 false)
        exampleWorld).2.commands =
      ["sed -i s/release/debug/g /etc/init.d/dropbear", "nvram set ssh_en=1",
        "nvram set telnet_en=1", "nvram commit", "/etc/init.d/dropbear restart"] := by
  have h : ((NewAX5400ProClient "192.168.31.1" "tok").afterCommands (exampleDevice 10 true)
      (enableSteps.map Step.command)
      { exampleWorld with events := exampleWorld.events ++
          [sysTimeRequest (NewAX5400ProClient "192.168.31.1" "tok") (exampleDevice 10 true)
            exampleWorld] }).isSome = true := by decide!
  obtain ⟨w5, h5⟩ := Option.isSome_iff_exists.1 h
  have h' : ((NewAX5400ProClient "192.168.31.1" "tok").afterCommands (exampleDevice 10 false)
      (enableSteps.map Step.command)
      { exampleWorld with events := exampleWorld.events ++
          [sysTimeRequest (NewAX5400ProClient "192.168.31.1" "tok") (exampleDevice 10 false)
            exampleWorld] }).isSome = true := by decide!
  obtain ⟨w6, h6⟩ := Option.isSome_iff_exists.1 h'
  exact ⟨((enableSSH_disableSSH_verification_not_fatal _ _ _).1
      "\x7b\"ssh\":true,\"telnet\":true\x7d" w5 (by decide!) h5).1,
    by decide!, by decide!,
    ((enableSSH_disableSSH_verification_not_fatal _ _ _).1
      "\x7b\"ssh\":false,\"telnet\":false\x7d" w6 (by decide!) h6).1,
    by decide!⟩

/-! ## The `scene_setting` payload -/

/-- The body of the first request of `ExecuteCustomCommand`: `payload=`
followed by the URL encoding of the format string filled with the wrapped
command and the minted task time. -/
theorem executeCustomCommand_first_request (c : AX5400ProClient) (dev : Device)
    (command : String) (w : World) :
    ∃ rest, (c.ExecuteCustomCommand dev command w).2.events =
      w.events ++ Event.httpPost (c.apiURL smartControllerPath)
        ("payload=" ++ QueryEscape
          (sceneSettingPayload ("'$(" ++ command ++ ")'") (mintedTime dev w))) :: rest := by
  rw [executeCustomCommand_eq]
  split
  · exact ⟨[], rfl⟩
  · exact ⟨[triggerRequest c (mintedTime dev w) 0], rfl⟩

theorem mem_of_jsonPlain (s : String) (h : jsonPlain s = true) :
    ∀ c ∈ s.toList, c ≠ '"' ∧ c ≠ '\\' ∧ 32 ≤ c.toNat := by
  intro c hc
  unfold jsonPlain at h
  rw [List.all_eq_true] at h
  have := h c hc
  simp only [Bool.and_eq_true, bne_iff_ne, ne_eq, decide_eq_true_eq] at this
  exact ⟨this.1.1, this.1.2, this.2⟩

theorem scanString_plain_cons (c : Char) (t : List Char) (h1 : c ≠ '"') (h2 : c ≠ '\\')
    (h3 : 32 ≤ c.toNat) :
    scanString (c :: t) = (scanString t).map (fun p => (c :: p.1, p.2)) := by
  rw [scanString]
  · have : ¬ (c.toNat < 32) := by omega
    simp only [this, h2, decide_False, Bool.or_self, Bool.false_eq_true, if_false]
    cases scanString t with
    | none => rfl
    | some p => rfl
  · intro h; exact h1 h
  · intro x1 x2 x3 x4 rest h _; exact h2 h
  · intro e rest h _; exact h2 h

/-- The scanner passes over plain characters. -/
theorem scanString_plain_append (s t : List Char)
    (hs : ∀ c ∈ s, c ≠ '"' ∧ c ≠ '\\' ∧ 32 ≤ c.toNat) :
    scanString (s ++ t) = (scanString t).map (fun p => (s ++ p.1, p.2)) := by
  induction s with
  | nil => simp
  | cons c s ih =>
    have hc := hs c (List.mem_cons_self _ _)
    rw [List.cons_append, scanString_plain_cons c _ hc.1 hc.2.1 hc.2.2,
      ih fun x hx => hs x (List.mem_cons_of_mem _ hx)]
    cases scanString t <;> simp

/-- Plain characters are decoded as they are. -/
theorem unquoteChars_plain (s : List Char)
    (hs : ∀ c ∈ s, c ≠ '"' ∧ c ≠ '\\' ∧ 32 ≤ c.toNat) : unquoteChars 0 s = s := by
  induction s with
  | nil => simp [unquoteChars]
  | cons c s ih =>
    have hc := hs c (List.mem_cons_self _ _)
    rw [unquoteChars]
    · rw [ih fun x hx => hs x (List.mem_cons_of_mem _ hx)]
    · intro x1 x2 x3 x4 rest h _; exact hc.2.1 h
    · intro e rest h _; exact hc.2.1 h

/-- The three pieces of the format string of `SetSmartControllerTask`. -/
theorem sceneSettingPayload_toList (command taskTime : String) :
    (sceneSettingPayload command taskTime).toList =
      scenePieces.1 ++ (command.toList ++ (scenePieces.2.1 ++ (taskTime.toList ++ scenePieces.2.2))) := by
  simp only [sceneSettingPayload, toList_append, List.append_assoc]
  rfl

set_option maxRecDepth 100000 in
set_option maxHeartbeats 4000000 in
/-- The parser on the pieces of the format string around a plain name and a
plain time. -/
theorem parseValue_scenePieces (w t : List Char)
    (hw : ∀ c ∈ w, c ≠ '"' ∧ c ≠ '\\' ∧ 32 ≤ c.toNat)
    (ht : ∀ c ∈ t, c ≠ '"' ∧ c ≠ '\\' ∧ 32 ≤ c.toNat) :
    parseValue 20 0 (scenePieces.1 ++ (w ++ (scenePieces.2.1 ++ (t ++ scenePieces.2.2)))) =
      some (sceneSettingValue (String.mk w) (String.mk t), []) := by
  simp [scenePieces, parseValue, parseMembers, parseElements, valueStep, membersStep,
    elementsStep, skipWS, isSpace, scanString, scanString_plain_append _ _ hw,
    scanString_plain_append _ _ ht, maxNestingDepth, unquote, unquoteChars,
    unquoteChars_plain _ hw, unquoteChars_plain _ ht, dropLiteral, scanNumber, scanUnsigned,
    scanIntPart, scanFracPart, scanExpPart, spanDigits, isDigit, sceneSettingValue]

/-- For a plain command and a plain task time the payload is the JSON object
the specification describes. -/
theorem parseJSON_sceneSettingPayload (command taskTime : String)
    (hc : jsonPlain command = true) (ht : jsonPlain taskTime = true) :
    parseJSON (sceneSettingPayload command taskTime) =
      some (sceneSettingValue command taskTime) := by
  have hs : skipWS (sceneSettingPayload command taskTime).toList =
      (sceneSettingPayload command taskTime).toList := by
    rw [sceneSettingPayload_toList]
    rfl
  refine parseValue_fuel _ 20 _ [] ?_ rfl
  rw [hs, sceneSettingPayload_toList]
  exact parseValue_scenePieces _ _ (mem_of_jsonPlain command hc) (mem_of_jsonPlain taskTime ht)

theorem payloadName_sceneSettingPayload (command taskTime : String)
    (hc : jsonPlain command = true) (ht : jsonPlain taskTime = true) :
    payloadName (sceneSettingPayload command taskTime) = some command := by
  unfold payloadName unmarshalMap
  rw [parseJSON_sceneSettingPayload command taskTime hc ht]
  have hf : JNumber.float64Overflows ⟨false, ['1', '7'], [], false, false, []⟩ = false := by
    decide!
  simp [sceneSettingValue, floatRangeErrorMembers, JValue.floatRangeError,
    floatRangeErrorList, hf, stringField, mapGet]

/-- The wrapped form of a plain command is plain. -/
theorem jsonPlain_wrapped (command : String) (h : jsonPlain command = true) :
    jsonPlain ("'$(" ++ command ++ ")'") = true := by
  unfold jsonPlain at h ⊢
  simp only [toList_append, List.all_append, h, Bool.and_true, Bool.true_and]
  decide

theorem jsonPlain_fmtInt (n : Int) : jsonPlain (fmtInt n) = true := by
  have hd : ∀ k : Nat, (decimal k).all
      (fun c => c != '"' && c != '\\' && decide (32 ≤ c.toNat)) = true := by
    intro k
    rw [List.all_eq_true]
    intro c hc
    have := decimal_all_isDigit k c hc
    simp only [isDigit, Bool.and_eq_true, decide_eq_true_eq] at this
    have h1 : c ≠ '"' := fun h => by subst h; revert this; decide
    have h2 : c ≠ '\\' := fun h => by subst h; revert this; decide
    simp [h1, h2]
    omega
  unfold jsonPlain
  cases n with
  | ofNat k => exact hd k
  | negSucc k =>
    simp only [fmtInt, String.toList, List.all_cons, hd (k + 1), Bool.and_true]
    decide

/-- The task time `getNextTaskTime` returns is plain: digits, minus signs and a
colon. -/
theorem jsonPlain_getNextTaskTime (env : TaskEnv) (fs : FileSystem) :
    jsonPlain (getNextTaskTime env fs).1 = true := by
  rw [getNextTaskTime_fst]
  have h1 := jsonPlain_fmtInt
  unfold jsonPlain at h1 ⊢
  simp only [toList_append, List.all_append, h1, Bool.and_true, Bool.true_and]
  decide

/-- C18: the payload is not well-formed JSON for every command, and where it
is, its `name` need not be the wrapped command: the command is put into the
format string by `%s` as it is. For the command `echo "hi"` the request body is
`payload=` followed by the URL encoding of a text that is no JSON value; for
`printf 'a\nb'` (a backslash and an `n`) the text is a JSON object whose `name`
decodes to a string with a line feed in place of these two characters. For
`nvram commit` the `name` is the wrapped command. -/
theorem sceneSettingPayload_not_escaped :
    ((NewAX5400ProClient "192.168.31.1" "tok").ExecuteCustomCommand (exampleDevice 2 true)
        "echo \"hi\"" exampleWorld).2.events.head? =
      some (Event.httpPost
        "http://192.168.31.1/cgi-bin/luci/;stok=tok/api/xqsmarthome/request_smartcontroller"
        ("payload=" ++ QueryEscape (sceneSettingPayload "'$(echo \"hi\")'" "10:20"))) ∧
    sceneSettingPayload "'$(echo \"hi\")'" "10:20" =
      "\x7b\"command\":\"scene_setting\",\"name\":\"'$(echo \"hi\")'\",\"action_list\":[\x7b\"thirdParty\":\"xmrouter\",\"delay\":17,\"type\":\"wan_block\",\"payload\":\x7b\"command\":\"wan_block\",\"mac\":\"00:00:00:00:00:00\"\x7d\x7d],\"launch\":\x7b\"timer\":\x7b\"time\":\"10:20\",\"repeat\":\"0\",\"enabled\":true\x7d\x7d\x7d" ∧
    (parseJSON (sceneSettingPayload "'$(echo \"hi\")'" "10:20")).isNone = true ∧
    payloadName (sceneSettingPayload "'$(echo \"hi\")'" "10:20") = none ∧
    payloadName (sceneSettingPayload "'$(printf 'a\\nb')'" "10:20") =
      some "'$(printf 'a\nb')'" ∧
    payloadName (sceneSettingPayload "'$(nvram commit)'" "10:20") = some "'$(nvram commit)'" := by
  refine ⟨?_, ?_, ?_, ?_, ?_, ?_⟩ <;> decide!

/-- Where the payload is as the specification describes it: for every command
made of plain characters (no double quote, no backslash, no control character)
and every world, the first request of
`ExecuteCustomCommand` is the POST with body `payload=` followed by the URL
encoding of a text `P`; `P` is a well-formed JSON object, namely the one with
`command` = `scene_setting`, `name` = the command wrapped as `'$(command)'`,
`action_list` = the single `wan_block` action on MAC `00:00:00:00:00:00`, and
`launch.timer` with `time` = the minted task time, `repeat` = `"0"` and
`enabled` = true; the same holds for `SetSmartControllerTask` with any plain
task time. -/
theorem executeCustomCommand_payload (c : AX5400ProClient) (dev : Device) (command : String)
    (w : World) (h : jsonPlain command = true) :
    (∃ rest, (c.ExecuteCustomCommand dev command w).2.events =
      w.events ++ Event.httpPost (c.apiURL smartControllerPath)
        ("payload=" ++ QueryEscape
          (sceneSettingPayload ("'$(" ++ command ++ ")'") (mintedTime dev w))) :: rest) ∧
    parseJSON (sceneSettingPayload ("'$(" ++ command ++ ")'") (mintedTime dev w)) =
      some (sceneSettingValue ("'$(" ++ command ++ ")'") (mintedTime dev w)) ∧
    payloadName (sceneSettingPayload ("'$(" ++ command ++ ")'") (mintedTime dev w)) =
      some ("'$(" ++ command ++ ")'") ∧
    (∀ taskTime, jsonPlain taskTime = true →
      (c.SetSmartControllerTask dev ("'$(" ++ command ++ ")'") taskTime w).2.events =
        w.events ++ [Event.httpPost (c.apiURL smartControllerPath)
          ("payload=" ++ QueryEscape
            (sceneSettingPayload ("'$(" ++ command ++ ")'") taskTime))] ∧
      parseJSON (sceneSettingPayload ("'$(" ++ command ++ ")'") taskTime) =
        some (sceneSettingValue ("'$(" ++ command ++ ")'") taskTime)) :=
  ⟨executeCustomCommand_first_request c dev command w,
    parseJSON_sceneSettingPayload _ _ (jsonPlain_wrapped command h)
      (jsonPlain_getNextTaskTime _ _),
    payloadName_sceneSettingPayload _ _ (jsonPlain_wrapped command h)
      (jsonPlain_getNextTaskTime _ _),
    fun _ ht =>
      ⟨rfl, parseJSON_sceneSettingPayload _ _ (jsonPlain_wrapped command h) ht⟩⟩

/-- The command `nvram commit` at clock time 10:20. -/
theorem executeCustomCommand_payload_example :
    jsonPlain "nvram commit" = true ∧
    mintedTime (exampleDevice 2 true) exampleWorld = "10:20" ∧
    payloadName (sceneSettingPayload ("'$(" ++ "nvram commit" ++ ")'")
        (mintedTime (exampleDevice 2 true) exampleWorld)) =
      some ("'$(" ++ "nvram commit" ++ ")'") :=
  ⟨by decide!, by decide!,
    (executeCustomCommand_payload (NewAX5400ProClient "192.168.31.1" "tok")
      (exampleDevice 2 true) "nvram commit" exampleWorld (by decide!)).2.2.1⟩

end XiaomiRouter
